import Mathlib

/-!
# OpenPBS peer registry, address cache and reverse index

A shallow embedding of `src/server/mom_info.c` (peer registry `mominfo_array`,
role data `mom_svrinfo_t`, the host address cache `hostaddr_tree` and the
reverse address index `ipaddrs`) together with theorems about it.

Conventions of the embedding.

* A C string is the list of its characters before the terminating NUL.
* A `mominfo_t *` is an index into `Server.heap`; the cell is `none` once the
  object has been freed.  A nullable pointer is an `Option Ptr`.
* A function that dereferences pointers returns an `Option`: the value `none`
  stands for undefined behaviour of the C program (a read or write through a
  NULL or freed pointer).
* The outcome of every allocation (`malloc`, `calloc`, `realloc`) is an
  explicit Boolean argument of the function that performs it.
-/

namespace OpenPBS

/-! ## Constants declared in headers that are not among the sources -/

/-- Constants of `pbs_ifl.h` and `pbs_nodes.h`.  The headers are not among the
sources, so the values are parameters of the development. -/
structure Consts where
  /-- Maximum length of a host name; `mi_host` is `char[PBS_MAXHOSTNAME+1]`. -/
  PBS_MAXHOSTNAME : Nat
  /-- Node state bit: state not yet known. -/
  INUSE_UNKNOWN : Nat
  /-- Node state bit: node is down. -/
  INUSE_DOWN : Nat
deriving DecidableEq

/-- Error codes returned by the functions of `mom_info.c`.  Their numeric values
live in `pbs_error.h` (not among the sources); `PBSE_NONE` is the value 0 and the
others are distinct non-zero codes.  The codes after `PBSE_UNKNODE` are those
named in `svr_connect.c` and in the client library; `other` stands for any
non-zero code that is not named here. -/
inductive pbs_error where
  | PBSE_NONE
  | PBSE_SYSTEM
  | PBSE_UNKNODE
  | PBSE_IVALREQ
  | PBSE_UNKJOBID
  | PBSE_UNKRESVID
  | PBSE_NOSERVER
  | PBSE_PROTOCOL
  | PBSE_NORELYMOM
  | PBSE_NOLOOPBACKIF
  | other (code : Nat)
deriving DecidableEq

/-- `#define GROW_MOMINFO_ARRAY_AMT 10` (mom_info.c:117). -/
def GROW_MOMINFO_ARRAY_AMT : Nat := 10

/-- Address family of IPv4 in `<sys/socket.h>`. -/
def AF_INET : Nat := 2

/-! ## C strings -/

/-- The C library `tolower` in the C locale: only `A`..`Z` are changed. -/
def tolower (c : Char) : Char :=
  if 65 ≤ c.toNat ∧ c.toNat ≤ 90 then Char.ofNat (c.toNat + 32) else c

/-- The C library `strcasecmp`: the difference of the first pair of characters
that differ after `tolower` (the terminating NUL counts as character 0), and 0
when there is none. -/
def strcasecmp : List Char → List Char → Int
  | [], [] => 0
  | [], b :: _ => 0 - ((tolower b).toNat : Int)
  | a :: _, [] => ((tolower a).toNat : Int)
  | a :: as, b :: bs =>
    if tolower a = tolower b then strcasecmp as bs
    else ((tolower a).toNat : Int) - ((tolower b).toNat : Int)

/-- The pair `strncpy(dst, src, n); dst[n] = 0` on a buffer of `n+1`
characters: the stored string is the first `n` characters of `src`. -/
def strncpy (src : List Char) (n : Nat) : List Char := src.take n

/-! ## Data model -/

/-- Address of a `mominfo_t` object: an index into `Server.heap`. -/
abbrev Ptr := Nat

/-- A `malloc`ed array of `u_long`: its address and the words it holds.  An
address list is terminated by the first word that is 0. -/
structure ulbuf where
  base : Nat
  words : List Nat
deriving DecidableEq

/-- The addresses of a zero terminated `u_long` list: the words before the first
0 (loops of the form `for (up = list; *up; up++)`).  The callers guarantee the
terminator; a list without one ends with its last word. -/
def addr_list (words : List Nat) : List Nat := words.takeWhile (fun w => w != 0)

/-- The role data `mom_svrinfo_t` hung off `mi_data` on the Server. -/
structure mom_svrinfo_t where
  msr_state : Nat
  msr_pcpus : Nat
  msr_acpus : Nat
  msr_pmem : Nat
  msr_numjobs : Nat
  msr_arch : Option (List Char)
  msr_pbs_ver : Option (List Char)
  msr_stream : Int
  msr_deferred_cmds : List Nat
  msr_timedown : Nat
  msr_timeinit : Nat
  msr_wktask : Nat
  msr_addrs : Option ulbuf
  msr_jbinxsz : Nat
  msr_jobindx : Option (List Nat)
  msr_numvnds : Nat
  msr_numvslots : Nat
  msr_vnode_pool : Nat
  msr_children : Option (List (Option Nat))
deriving DecidableEq

/-- The peer record `mominfo_t`. -/
structure mominfo_t where
  mi_host : List Char
  mi_port : Nat
  mi_rmport : Nat
  mi_modtime : Nat
  mi_data : Option mom_svrinfo_t
  mi_action : Option (List (Option Nat))
  mi_num_action : Nat
deriving DecidableEq

/-- The value stored against a host name in `hostaddr_tree`
(`struct pul_store`).  The field `len` counts `u_long` words; the C field
counts bytes, `sizeof(u_long)` times as many. -/
structure pul_store where
  pul : ulbuf
  len : Nat
deriving DecidableEq

/-- One element of the result list of `getaddrinfo`: the address family and,
for an IPv4 entry, the address `ntohl(sin_addr.s_addr)`. -/
structure addrinfo where
  ai_family : Nat
  ipaddr : Nat
deriving DecidableEq

/-- A `struct tree` keyed by two `u_long`s and holding a `mominfo_t *`. -/
abbrev tree := List (Nat × Nat × Ptr)

/-- The globals of the Server that `mom_info.c` reads and writes.
`mominfo_array_size` is the length of `mominfo_array`. -/
structure Server where
  /-- Heap of `mominfo_t` objects; `none` marks a freed cell. -/
  heap : List (Option mominfo_t)
  mominfo_array : List (Option Ptr)
  svr_num_moms : Int
  /-- Reverse index (address, port) to record. -/
  ipaddrs : tree
  /-- Index (stream, 0) to record. -/
  streams : tree
  /-- Host name to address list cache; `none` is the NULL tree. -/
  hostaddr_tree : Option (List (List Char × pul_store))
  /-- Next address handed out for a `u_long` array. -/
  brk : Nat
  /-- Number of calls of `getaddrinfo` made so far. -/
  resolutions : Nat
  /-- Streams passed to `rpp_close`, latest first. -/
  rpp_closed : List Int
deriving DecidableEq

/-- The state at program start: `mominfo_array = NULL`,
`mominfo_array_size = 0`, `svr_num_moms = 0`, empty trees. -/
def Server.init : Server :=
  { heap := [], mominfo_array := [], svr_num_moms := 0, ipaddrs := [],
    streams := [], hostaddr_tree := none, brk := 0, resolutions := 0,
    rpp_closed := [] }

/-- The global `mominfo_array_size`. -/
def Server.mominfo_array_size (s : Server) : Nat := s.mominfo_array.length

/-- Read through a `mominfo_t *`: `none` when the cell is freed or was never
allocated. -/
def deref (heap : List (Option mominfo_t)) (p : Ptr) : Option mominfo_t :=
  heap[p]?.join

/-! ## Reverse index (`tfind2`, `tinsert2`, `tdelete2`) and host tree -/

/-- Modelled from the spec: `tfind2` is declared in `pbs_nodes.h` and defined
outside the sources.  The spec describes the reverse index as an ordered index
mapping (address, port) to the owning peer record; `find` returns that record or
not found. -/
def tfind2 (key1 key2 : Nat) (t : tree) : Option Ptr :=
  (t.find? (fun e => e.1 == key1 && e.2.1 == key2)).map (fun e => e.2.2)

/-- Modelled from the spec: `tdelete2` removes the key (address, port) from the
index, so that a later `find` of the key is not found. -/
def tdelete2 (key1 key2 : Nat) (t : tree) : tree :=
  t.filter (fun e => !(e.1 == key1 && e.2.1 == key2))

/-- Modelled from the spec: `tinsert2` inserts the key (address, port) with its
owning record into the index; afterwards the key is mapped to that record. -/
def tinsert2 (key1 key2 : Nat) (momp : Ptr) (t : tree) : tree :=
  (key1, key2, momp) :: tdelete2 key1 key2 t

/-- Modelled from the spec: `find_tree` on the host name cache (AVL tree of
`avltree.h`, not among the sources): the record stored against the key, or NULL. -/
def find_tree (t : List (List Char × pul_store)) (key : List Char) : Option pul_store :=
  (t.find? (fun e => e.1 == key)).map (fun e => e.2)

/-- Modelled from the spec: `tree_add_del(root, key, data, TREE_OP_ADD)` on a
tree created with `AVL_NO_DUP_KEYS`: returns `none` (non-zero in C) when the
node cannot be allocated or the key is already present, else the tree with the
key added. -/
def tree_add (t : List (List Char × pul_store)) (key : List Char) (data : pul_store)
    (alloc_ok : Bool) : Option (List (List Char × pul_store)) :=
  if alloc_ok && (find_tree t key).isNone then some ((key, data) :: t) else none

/-- Modelled from the spec: `tree_add_del(root, key, NULL, TREE_OP_DEL)`:
returns `none` (non-zero in C) when the key is absent, else the tree without
the key. -/
def tree_del (t : List (List Char × pul_store)) (key : List Char) :
    Option (List (List Char × pul_store)) :=
  if (find_tree t key).isSome then some (t.filter (fun e => !(e.1 == key))) else none

/-! ## Peer registry: `create_mom_entry`, `delete_mom_entry`, `find_mom_entry` -/

/-- Result of the search loop of `create_mom_entry`. -/
inductive scan_result where
  /-- A slot holds a record with matching host and port. -/
  | found (pmom : Ptr)
  /-- No slot matches; `empty` is the index of the first NULL slot, `none` for
  the C value -1. -/
  | missing (empty : Option Nat)
deriving DecidableEq

/-- The loop `for (i=0; i < mominfo_array_size; ++i)` of `create_mom_entry`
(mom_info.c:151-160), run on the slots from index `i` on. -/
def create_scan (heap : List (Option mominfo_t)) (hostname : List Char) (port : Nat) :
    List (Option Ptr) → Nat → Option Nat → Option scan_result
  | [], _, empty => some (scan_result.missing empty)
  | none :: rest, i, empty =>
    create_scan heap hostname port rest (i + 1) (if empty = none then some i else empty)
  | some pmom :: rest, i, empty =>
    match deref heap pmom with
    | none => none
    | some r =>
      if strcasecmp r.mi_host hostname = 0 ∧ r.mi_port = port then
        some (scan_result.found pmom)
      else create_scan heap hostname port rest (i + 1) empty

/-- The record initialised by `create_mom_entry` (mom_info.c:184-191).
`pending` is the `mi_action` array left by `add_pending_mom_allhooks_action`
and `add_pending_mom_hook_action` (hook code, not among the sources); it is
`none` when no hook has been seen. -/
def new_mominfo (K : Consts) (hostname : List Char) (port : Nat)
    (pending : Option (List (Option Nat))) : mominfo_t :=
  { mi_host := strncpy hostname K.PBS_MAXHOSTNAME
    mi_port := port
    mi_rmport := (port + 1) % 4294967296
    mi_modtime := 0
    mi_data := none
    mi_action := pending
    mi_num_action := (pending.map List.length).getD 0 }

/-- The function `create_mom_entry(hostname, port)` (mom_info.c:143-217).
`realloc_ok` and `malloc_ok` are the outcomes of the `realloc` of the array and
of the `malloc` of the record, should the call reach them.  The result is the
returned pointer (`none` for NULL) and the new state. -/
def create_mom_entry (K : Consts) (hostname : List Char) (port : Nat)
    (realloc_ok malloc_ok : Bool) (pending : Option (List (Option Nat)))
    (s : Server) : Option (Option Ptr × Server) :=
  match create_scan s.heap hostname port s.mominfo_array 0 none with
  | none => none
  | some (scan_result.found pmom) => some (some pmom, s)
  | some (scan_result.missing empty) =>
    let grown : Option (Nat × List (Option Ptr)) :=
      match empty with
      | some e => some (e, s.mominfo_array)
      | none =>
        if realloc_ok then
          some (s.mominfo_array.length,
            s.mominfo_array ++ List.replicate GROW_MOMINFO_ARRAY_AMT none)
        else none
    match grown with
    | none => some (none, s)
    | some (e, arr) =>
      if malloc_ok then
        let pmom : Ptr := s.heap.length
        some (some pmom,
          { s with
            heap := s.heap ++ [some (new_mominfo K hostname port pending)]
            mominfo_array := arr.set e (some pmom)
            svr_num_moms := s.svr_num_moms + 1 })
      else some (none, { s with mominfo_array := arr })

/-- The loop of `delete_mom_entry` (mom_info.c:251-256): the first slot equal
to `pmom` is set to NULL. -/
def null_slot (pmom : Ptr) : List (Option Ptr) → List (Option Ptr)
  | [] => []
  | x :: rest => if x = some pmom then none :: rest else x :: null_slot pmom rest

/-- The function `delete_mom_entry(pmom)` (mom_info.c:236-282).  The work tasks
removed by `delete_task_by_parm1` are not part of the state. -/
def delete_mom_entry (pmom : Option Ptr) (s : Server) : Option Server :=
  match pmom with
  | none => some s
  | some p =>
    match deref s.heap p with
    | none => none
    | some _ =>
      some { s with
        mominfo_array := null_slot p s.mominfo_array
        heap := s.heap.set p none
        svr_num_moms := s.svr_num_moms - 1 }

/-- The function `find_mom_entry(hostname, port)` (mom_info.c:299-314), run on
the given slots. -/
def find_scan (heap : List (Option mominfo_t)) (hostname : List Char) (port : Nat) :
    List (Option Ptr) → Option (Option Ptr)
  | [] => some none
  | none :: rest => find_scan heap hostname port rest
  | some pmom :: rest =>
    match deref heap pmom with
    | none => none
    | some r =>
      if strcasecmp r.mi_host hostname = 0 ∧ r.mi_port = port then some (some pmom)
      else find_scan heap hostname port rest

/-- The function `find_mom_entry(hostname, port)`. -/
def find_mom_entry (hostname : List Char) (port : Nat) (s : Server) : Option (Option Ptr) :=
  find_scan s.heap hostname port s.mominfo_array

/-! ## Role data: `create_svrmom_entry`, `delete_svrmom_entry` -/

/-- The `mom_svrinfo_t` initialised by `create_svrmom_entry`
(mom_info.c:377-397), once the one-slot `msr_children` array is allocated. -/
def new_svrinfo (K : Consts) (pul : ulbuf) : mom_svrinfo_t :=
  { msr_state := K.INUSE_UNKNOWN ||| K.INUSE_DOWN
    msr_pcpus := 0
    msr_acpus := 0
    msr_pmem := 0
    msr_numjobs := 0
    msr_arch := none
    msr_pbs_ver := none
    msr_stream := -1
    msr_deferred_cmds := []
    msr_timedown := 0
    msr_timeinit := 0
    msr_wktask := 0
    msr_addrs := some pul
    msr_jbinxsz := 0
    msr_jobindx := none
    msr_numvnds := 0
    msr_numvslots := 1
    msr_vnode_pool := 0
    msr_children := some [none] }

/-- The loop `while (*pul) { tinsert2(*pul, port, pmom, &ipaddrs); pul++; }`
(mom_info.c:405-408). -/
def insert_addrs (port : Nat) (pmom : Ptr) (addrs : List Nat) (t : tree) : tree :=
  addrs.foldl (fun acc a => tinsert2 a port pmom acc) t

/-- The loops `for (up = list; *up; up++) tdelete2(*up, port, &ipaddrs)`
(mom_info.c:701-702 and 758-761). -/
def delete_addrs (port : Nat) (addrs : List Nat) (t : tree) : tree :=
  addrs.foldl (fun acc a => tdelete2 a port acc) t

/-- The function `create_svrmom_entry(hostname, port, pul)`
(mom_info.c:352-411).  `realloc_ok`, `malloc_ok` and `pending` are passed to
`create_mom_entry`; `svrinfo_ok` is the outcome of the `malloc` of the
`mom_svrinfo_t` and `children_ok` that of the `calloc` of `msr_children`. -/
def create_svrmom_entry (K : Consts) (hostname : List Char) (port : Nat) (pul : ulbuf)
    (realloc_ok malloc_ok : Bool) (pending : Option (List (Option Nat)))
    (svrinfo_ok children_ok : Bool) (s : Server) : Option (Option Ptr × Server) :=
  match create_mom_entry K hostname port realloc_ok malloc_ok pending s with
  | none => none
  | some (none, s1) => some (none, s1)
  | some (some pmom, s1) =>
    match deref s1.heap pmom with
    | none => none
    | some r =>
      if r.mi_data.isSome then some (some pmom, s1)
      else if !svrinfo_ok then (delete_mom_entry (some pmom) s1).map (fun s2 => (none, s2))
      else if !children_ok then (delete_mom_entry (some pmom) s1).map (fun s2 => (none, s2))
      else
        some (some pmom,
          { s1 with
            heap := s1.heap.set pmom (some { r with mi_data := some (new_svrinfo K pul) })
            ipaddrs := insert_addrs port pmom (addr_list pul.words) s1.ipaddrs })

/-- The function `remove_mom_ipaddresses_list(pmom)` (mom_info.c:692-712), given
the record `r` that `pmom` points to. -/
def remove_mom_ipaddresses_list (r : mominfo_t) (s : Server) : pbs_error × Server :=
  match s.hostaddr_tree with
  | none => (pbs_error.PBSE_NONE, s)
  | some t =>
    match find_tree t r.mi_host with
    | none => (pbs_error.PBSE_NONE, s)
    | some tpul =>
      let s1 := { s with ipaddrs := delete_addrs r.mi_port (addr_list tpul.pul.words) s.ipaddrs }
      match tree_del t r.mi_host with
      | none => (pbs_error.PBSE_SYSTEM, s1)
      | some t1 => (pbs_error.PBSE_NONE, { s1 with hostaddr_tree := some t1 })

/-- The function `delete_svrmom_entry(pmom)` (mom_info.c:728-789).  The request
sent by `bg_delete_mom_hooks` is not part of the state.  When `mi_data` is NULL
the statement `memset((void *)psvrmom, 0, sizeof(mom_svrinfo_t))` writes through
the NULL pointer `psvrmom`. -/
def delete_svrmom_entry (pmom : Option Ptr) (s : Server) : Option Server :=
  match pmom with
  | none => none
  | some p =>
    match deref s.heap p with
    | none => none
    | some r =>
      match r.mi_data with
      | none => none
      | some psvrmom =>
        let s1 : Server :=
          match psvrmom.msr_addrs with
          | some up => { s with ipaddrs := delete_addrs r.mi_port (addr_list up.words) s.ipaddrs }
          | none => s
        let s2 : Server :=
          if psvrmom.msr_stream ≥ 0 then
            { s1 with
              rpp_closed := psvrmom.msr_stream :: s1.rpp_closed
              streams := tdelete2 psvrmom.msr_stream.toNat 0 s1.streams }
          else s1
        let s3 : Server := (remove_mom_ipaddresses_list r s2).2
        delete_mom_entry (some p) s3

/-! ## Address cache: `make_host_addresses_list` -/

/-- Outcomes of the allocations of `make_host_addresses_list`, in program
order: the `malloc` of `*pul`, of `tpul`, of `tpul->pul`, then `create_tree`
and the node allocated by `tree_add_del`. -/
structure cache_allocs where
  pul_ok : Bool
  tpul_ok : Bool
  tpul_pul_ok : Bool
  create_tree_ok : Bool
  tree_add_ok : Bool
deriving DecidableEq

/-- The two loops over the `getaddrinfo` result (mom_info.c:516-542): the
addresses of the `AF_INET` entries, in order, followed by the terminating 0. -/
def ipv4_words (pai : List addrinfo) : List Nat :=
  ((pai.filter (fun aip => aip.ai_family == AF_INET)).map (fun aip => aip.ipaddr)) ++ [0]

/-- The function `make_host_addresses_list(phost, pul)` (mom_info.c:465-575).
`getaddrinfo` is the external resolver (`none` is a non-zero error code) and
`al` the outcomes of the allocations.  The result is the return code, the
value left in `*pul` (`none` when it is NULL or was not written) and the new
state. -/
def make_host_addresses_list (getaddrinfo : List Char → Option (List addrinfo))
    (al : cache_allocs) (phost : Option (List Char)) (s : Server) :
    pbs_error × Option ulbuf × Server :=
  match phost with
  | none => (pbs_error.PBSE_SYSTEM, none, s)
  | some [] => (pbs_error.PBSE_SYSTEM, none, s)
  | some (c :: cs) =>
    let host := c :: cs
    match s.hostaddr_tree.bind (fun t => find_tree t host) with
    | some tpul =>
      if al.pul_ok then
        (pbs_error.PBSE_NONE,
          some { base := s.brk, words := tpul.pul.words.take tpul.len },
          { s with brk := s.brk + 1 })
      else (pbs_error.PBSE_SYSTEM, none, s)
    | none =>
      let s1 := { s with resolutions := s.resolutions + 1 }
      match getaddrinfo host with
      | none => (pbs_error.PBSE_UNKNODE, none, s1)
      | some pai =>
        let words := ipv4_words pai
        if !al.pul_ok then (pbs_error.PBSE_SYSTEM, none, s1)
        else
          let out : ulbuf := { base := s1.brk, words := words }
          let s2 := { s1 with brk := s1.brk + 1 }
          if !al.tpul_ok then (pbs_error.PBSE_SYSTEM, some out, s2)
          else if !al.tpul_pul_ok then (pbs_error.PBSE_SYSTEM, some out, s2)
          else
            let tpul : pul_store :=
              { pul := { base := s2.brk, words := words }, len := words.length }
            let s3 := { s2 with brk := s2.brk + 1 }
            match s3.hostaddr_tree with
            | none =>
              if !al.create_tree_ok then (pbs_error.PBSE_SYSTEM, some out, s3)
              else
                match tree_add [] host tpul al.tree_add_ok with
                | none => (pbs_error.PBSE_SYSTEM, some out, { s3 with hostaddr_tree := some [] })
                | some t1 => (pbs_error.PBSE_NONE, some out, { s3 with hostaddr_tree := some t1 })
            | some t =>
              match tree_add t host tpul al.tree_add_ok with
              | none => (pbs_error.PBSE_SYSTEM, some out, s3)
              | some t1 => (pbs_error.PBSE_NONE, some out, { s3 with hostaddr_tree := some t1 })

/-! ## Sequences of registry calls -/

/-- One call of the registry interface shared by the Server and Mom. -/
inductive mom_call where
  | create (hostname : List Char) (port : Nat) (realloc_ok malloc_ok : Bool)
      (pending : Option (List (Option Nat)))
  | delete (pmom : Option Ptr)
deriving DecidableEq

/-- Run one call, dropping the returned pointer. -/
def run_call (K : Consts) (c : mom_call) (s : Server) : Option Server :=
  match c with
  | mom_call.create hostname port realloc_ok malloc_ok pending =>
    (create_mom_entry K hostname port realloc_ok malloc_ok pending s).map (fun r => r.2)
  | mom_call.delete pmom => delete_mom_entry pmom s

/-- Run a sequence of calls from left to right. -/
def run_calls (K : Consts) : List mom_call → Server → Option Server
  | [], s => some s
  | c :: cs, s =>
    match run_call K c s with
    | none => none
    | some s1 => run_calls K cs s1

/-- The host name passed by a call is at most `PBS_MAXHOSTNAME` characters
long, so that it fits `mi_host` without truncation. -/
def mom_call.fits (K : Consts) : mom_call → Prop
  | mom_call.create hostname _ _ _ _ => hostname.length ≤ K.PBS_MAXHOSTNAME
  | mom_call.delete _ => True

/-- No two non-empty slots of `mominfo_array` hold records with the same
`(mi_host, mi_port)` pair. -/
def mom_unique (s : Server) : Prop :=
  ∀ (i j : Nat) (p q : Ptr) (ri rj : mominfo_t),
    s.mominfo_array[i]? = some (some p) → s.mominfo_array[j]? = some (some q) →
    deref s.heap p = some ri → deref s.heap q = some rj →
    ri.mi_host = rj.mi_host → ri.mi_port = rj.mi_port → i = j

/-- Every non-empty slot of `mominfo_array` points to a live record. -/
def slots_live (s : Server) : Prop :=
  ∀ p : Ptr, some p ∈ s.mominfo_array → (deref s.heap p).isSome = true

/-- The live records of the registry: for every non-empty slot, in slot order,
the pointer and the record it points to (with its role data). -/
def live_records (s : Server) : List (Ptr × Option mominfo_t) :=
  s.mominfo_array.filterMap (fun x => x.map (fun p => (p, deref s.heap p)))

/-! ## Auxiliary definitions used to state the behaviour of the loops -/

/-- Index of the first NULL slot of the array, if there is one. -/
def first_empty : List (Option Ptr) → Option Nat
  | [] => none
  | none :: _ => some 0
  | some _ :: rest => (first_empty rest).map (fun k => k + 1)

/-- The slot that receives a new record and the array it is stored in: the
first NULL slot of the array, else the first slot of the grown array. -/
def place_slot (realloc_ok : Bool) (arr : List (Option Ptr)) :
    Option (Nat × List (Option Ptr)) :=
  match first_empty arr with
  | some e => some (e, arr)
  | none =>
    if realloc_ok then
      some (arr.length, arr ++ List.replicate GROW_MOMINFO_ARRAY_AMT none)
    else none

/-- Pointer returned by a search loop result. -/
def scan_result.ptr : scan_result → Option Ptr
  | scan_result.found q => some q
  | scan_result.missing _ => none

/-- The invariant of the registry: every slot in use points to a live record
and no two slots in use hold records with the same host and port. -/
def registry_inv (s : Server) : Prop := slots_live s ∧ mom_unique s


/-! ## Connection manager: `open_momstream` and `svr_connect` -/

/-- Constants of `net_connect.h`, `libpbs.h` and `<errno.h>` used by
`svr_connect.c`.  The headers are not among the sources, so the values are
parameters of the development. -/
structure NetConsts where
  /-- The handle that stands for the server talking to itself. -/
  PBS_LOCAL_CONNECTION : Int
  /-- Protocol selector of the multiplexed tunnel transport. -/
  PROT_TPP : Int
  /-- The `errno` value of a refused connection. -/
  ECONNREFUSED : Int
  /-- Bit of `cn_authen` that marks a connection as authenticated. -/
  PBS_NET_CONN_AUTHENTICATED : Nat
deriving DecidableEq

/-- The return value for a permanent error; the value -1 is given in the
header comment of `svr_connect` (svr_connect.c:121). -/
def PBS_NET_RC_FATAL : Int := -1

/-- The return value for a temporary error; the value -2 is given in the
header comment of `svr_connect` (svr_connect.c:123). -/
def PBS_NET_RC_RETRY : Int := -2

/-- The C expression `x & ~m` on an `unsigned long`: the bits of `x` that are
not bits of `m`. -/
def clear_bits (x m : Nat) : Nat := x ^^^ (x &&& m)

/-- The function `open_momstream(pmom, port)` (mom_info.c:413-425).  `stream`
is the value returned by `rpp_open(pmom->mi_host, port)`; the port reaches
`rpp_open` only.  The result is the returned stream and the new state. -/
def open_momstream (K : Consts) (pmom : Ptr) (_port : Nat) (stream : Int) (s : Server) :
    Option (Int × Server) :=
  match deref s.heap pmom with
  | none => none
  | some r =>
    match r.mi_data with
    | none => none
    | some d =>
      let d1 : mom_svrinfo_t := { d with msr_stream := stream }
      if stream ≥ 0 then
        let d2 : mom_svrinfo_t :=
          { d1 with msr_state := clear_bits d1.msr_state (K.INUSE_UNKNOWN ||| K.INUSE_DOWN) }
        some (stream,
          { s with
            heap := s.heap.set pmom (some { r with mi_data := some d2 })
            streams := tinsert2 stream.toNat 0 pmom s.streams })
      else
        some (stream, { s with heap := s.heap.set pmom (some { r with mi_data := some d1 }) })

/-- Modelled from the spec: `momptr_down` is defined outside the sources.  The
spec says that on a connect failure to a known peer its liveness goes to DOWN;
the liveness flags live in the role data, which the record must have. -/
def momptr_down (K : Consts) (pmom : Ptr) (s : Server) : Option Server :=
  match deref s.heap pmom with
  | none => none
  | some r =>
    match r.mi_data with
    | none => none
    | some d =>
      some { s with
        heap := s.heap.set pmom
          (some { r with mi_data := some { d with msr_state := d.msr_state ||| K.INUSE_DOWN } }) }

/-- The kind of a connection table entry (`enum conn_type`); `svr_connect`
registers its sockets as `ToServerDIS`. -/
inductive conn_type where
  | ToServerDIS
  | other (n : Nat)
deriving DecidableEq

/-- An entry of the server connection table, as filled by `add_conn` and by
`svr_connect` (svr_connect.c:195-209). -/
structure conn_t where
  cn_sock : Int
  cn_active : conn_type
  cn_addr : Nat
  cn_port : Nat
  /-- The callback, `none` for a NULL function pointer. -/
  cn_func : Option Nat
  cn_authen : Nat
deriving DecidableEq

/-- The globals that `svr_connect` reads and writes, on top of those of
`mom_info.c`. -/
structure Net where
  srv : Server
  pbs_errno : pbs_error
  errno : Int
  pbs_server_addr : Nat
  pbs_server_port_dis : Nat
  /-- The connection table, latest entry last. -/
  conns : List conn_t
  /-- The (address, port) of every `client_to_svr` call made so far, latest last. -/
  client_to_svr_calls : List (Nat × Nat)
  /-- Sockets passed to `close`, latest last. -/
  closed : List Int
deriving DecidableEq

/-- Outcome of one `client_to_svr` call: the returned socket (negative on
failure), the value of `errno` after the call and the value it stores in
`pbs_errno`, if it stores one. -/
structure attempt where
  sock : Int
  errno : Int
  sets : Option pbs_error
deriving DecidableEq

/-- Outcomes of the external calls of one `svr_connect` call: the stream
returned by `rpp_open`, the first and the second `client_to_svr` call, and
whether `add_conn` returns an entry. -/
structure connect_env where
  rpp_stream : Int
  first : attempt
  second : attempt
  add_conn_ok : Bool
deriving DecidableEq

/-- One call `sock = client_to_svr(hostaddr, port, B_RESERVED)`. -/
def client_to_svr (hostaddr port : Nat) (a : attempt) (s : Net) : Int × Net :=
  (a.sock,
    { s with
      errno := a.errno
      pbs_errno := a.sets.getD s.pbs_errno
      client_to_svr_calls := s.client_to_svr_calls ++ [(hostaddr, port)] })

/-- Result of the peer lookup of `svr_connect` (svr_connect.c:142-149). -/
inductive peer_check where
  /-- The peer is down and its stream cannot be opened: `svr_connect` returns
  `PBS_NET_RC_FATAL`. -/
  | fatal (s : Net)
  /-- Execution continues with the looked up record `pmom` (`none` for NULL). -/
  | go (pmom : Option Ptr) (s : Net)
deriving DecidableEq

/-- The lookup `pmom = tfind2(hostaddr, port, &ipaddrs)` and the test that
follows it (svr_connect.c:142-149).  The call at line 145 is written
`open_momstream(pmom)`; the port of the request is passed here. -/
def svr_connect_peer (K : Consts) (hostaddr port : Nat) (env : connect_env) (s : Net) :
    Option peer_check :=
  match tfind2 hostaddr port s.srv.ipaddrs with
  | none => some (peer_check.go none s)
  | some pmom =>
    match deref s.srv.heap pmom with
    | none => none
    | some r =>
      if port = r.mi_port then
        match r.mi_data with
        | none => none
        | some d =>
          if d.msr_state &&& K.INUSE_DOWN ≠ 0 then
            match open_momstream K pmom port env.rpp_stream s.srv with
            | none => none
            | some (stream, srv1) =>
              if stream < 0 then
                some (peer_check.fatal
                  { s with srv := srv1, pbs_errno := pbs_error.PBSE_NORELYMOM })
              else some (peer_check.go (some pmom) { s with srv := srv1 })
          else some (peer_check.go (some pmom) s)
      else some (peer_check.go (some pmom) s)

/-- The direct stream part of `svr_connect` (svr_connect.c:159-211): up to two
`client_to_svr` calls, then the registration of the socket with `add_conn`. -/
def svr_connect_tcp (K : Consts) (N : NetConsts) (hostaddr port : Nat) (func : Option Nat)
    (env : connect_env) (pmom : Option Ptr) (s : Net) : Option (Int × Net) :=
  let r1 := client_to_svr hostaddr port env.first s
  let r2 : Int × Net :=
    if r1.1 < 0 ∧ r1.2.errno = N.ECONNREFUSED then client_to_svr hostaddr port env.second r1.2
    else r1
  let sock := r2.1
  let s2 := r2.2
  if sock < 0 then
    match pmom with
    | some p =>
      match momptr_down K p s2.srv with
      | none => none
      | some srv1 =>
        some (sock, { s2 with srv := srv1, pbs_errno := pbs_error.PBSE_NORELYMOM })
    | none => some (sock, { s2 with pbs_errno := pbs_error.PBSE_NORELYMOM })
  else if env.add_conn_ok then
    let conn : conn_t :=
      match func with
      | some f =>
        { cn_sock := sock, cn_active := conn_type.ToServerDIS, cn_addr := hostaddr,
          cn_port := port, cn_func := some f, cn_authen := N.PBS_NET_CONN_AUTHENTICATED }
      | none =>
        { cn_sock := sock, cn_active := conn_type.ToServerDIS, cn_addr := 0,
          cn_port := 0, cn_func := none, cn_authen := N.PBS_NET_CONN_AUTHENTICATED }
    some (sock, { s2 with conns := s2.conns ++ [conn] })
  else
    some (PBS_NET_RC_FATAL,
      { s2 with closed := s2.closed ++ [sock], pbs_errno := pbs_error.PBSE_SYSTEM })

/-- The function `svr_connect(hostaddr, port, func, cntype, prot)`
(svr_connect.c:126-212).  The result is the returned handle and the new state. -/
def svr_connect (K : Consts) (N : NetConsts) (hostaddr port : Nat) (func : Option Nat)
    (_cntype : conn_type) (prot : Int) (env : connect_env) (s : Net) : Option (Int × Net) :=
  if hostaddr = s.pbs_server_addr ∧ port = s.pbs_server_port_dis then
    some (N.PBS_LOCAL_CONNECTION, s)
  else
    match svr_connect_peer K hostaddr port env s with
    | none => none
    | some (peer_check.fatal s1) => some (PBS_NET_RC_FATAL, s1)
    | some (peer_check.go pmom s1) =>
      if prot = N.PROT_TPP then
        match pmom with
        | none => some (PBS_NET_RC_RETRY, { s1 with pbs_errno := pbs_error.PBSE_SYSTEM })
        | some p =>
          match deref s1.srv.heap p with
          | none => none
          | some r =>
            match r.mi_data with
            | none => none
            | some d => some (d.msr_stream, s1)
      else svr_connect_tcp K N hostaddr port func env pmom s1

/-! ## Client library: failover over the server instances

The functions `__pbs_sigjob` (pbsD_sigjob.c) and `pbs_modify_resv`
(pbsD_modify_resv.c).  The client state is the global `pbs_errno` and a trace
of what was done on the connections.  The functions they call that are defined
outside the sources are given by their outcome: the value returned and the
value stored in `pbs_errno`, if one is stored. -/

/-- Something the client library did. -/
inductive event where
  /-- The request function (`__pbs_sigjob_inner` or `PBSD_modify_resv`) was
  called on socket `sd`; `idx` is the index `i` when the socket is that of
  `svr_conns[i]`, and `none` when the call is on a handle that is not a
  cluster handle. -/
  | request (idx : Option Nat) (sd : Int)
  /-- A call of `pbs_client_thread_lock_connection(c)`; `ok` when it returned 0. -/
  | lock (c : Int) (ok : Bool)
  /-- A call of `pbs_client_thread_unlock_connection(c)`; `ok` when it returned 0. -/
  | unlock (c : Int) (ok : Bool)
  /-- A request was written to socket `sd`. -/
  | put (sd : Int)
  /-- A reply was read from socket `sd`. -/
  | get (sd : Int)
deriving DecidableEq

/-- The state of the client library: the global `pbs_errno` and the trace,
latest event last. -/
structure Client where
  pbs_errno : pbs_error
  trace : List event
deriving DecidableEq

/-- Append an event to the trace. -/
def Client.log (st : Client) (e : event) : Client := { st with trace := st.trace ++ [e] }

/-- Outcome of a call of a function defined outside the sources: the value it
returns and the value it stores in `pbs_errno` (`none` when it leaves
`pbs_errno` alone). -/
structure outcome (α : Type) where
  ret : α
  sets : Option pbs_error
deriving DecidableEq

/-- The effect of a call with the given outcome on `pbs_errno`. -/
def outcome.apply {α : Type} (o : outcome α) (st : Client) : Client :=
  { st with pbs_errno := o.sets.getD st.pbs_errno }

/-- Outcomes of the calls made by one `__pbs_sigjob_inner` call, in program
order.  `init`, `lock` and `unlock` return `true` for the C value 0; `put` is
the value of `PBSD_sig_put`; `rdrpy` is the value of `get_conn_errno(c)` after
`PBSD_rdrpy(c)`, with the `pbs_errno` left by the reply reader. -/
structure sig_env where
  init : outcome Bool
  lock : outcome Bool
  put : outcome pbs_error
  rdrpy : outcome pbs_error
  unlock : outcome Bool
deriving DecidableEq

/-- The function `__pbs_sigjob_inner(c, jobid, sig, extend)`
(pbsD_sigjob.c:66-98).  The result is the returned code and the new state. -/
def __pbs_sigjob_inner (e : sig_env) (c : Int) (st : Client) : pbs_error × Client :=
  let st1 := e.init.apply st
  if !e.init.ret then (st1.pbs_errno, st1)
  else
    let st2 := e.lock.apply (st1.log (event.lock c e.lock.ret))
    if !e.lock.ret then (st2.pbs_errno, st2)
    else
      let st3 := e.put.apply (st2.log (event.put c))
      if e.put.ret ≠ pbs_error.PBSE_NONE then
        (e.put.ret, e.unlock.apply (st3.log (event.unlock c e.unlock.ret)))
      else
        let st4 := e.rdrpy.apply (st3.log (event.get c))
        let st5 := e.unlock.apply (st4.log (event.unlock c e.unlock.ret))
        if !e.unlock.ret then (st5.pbs_errno, st5)
        else (e.rdrpy.ret, st5)

/-- An element of the array returned by `get_conn_svr_instances(c)`: the socket
of the instance and its connection state (`svr_conn_t`). -/
structure svr_conn_t where
  sd : Int
  state : Int
deriving DecidableEq

/-- The statement `if ((start = get_obj_location_hint(...)) == -1) start = 0;`
(pbsD_sigjob.c:127-128, pbsD_modify_resv.c:95-96). -/
def failover_start (hint : Int) : Int := if hint = -1 then 0 else hint

/-- The loop `for (i = start, ct = 0; ct < NSVR; i = (i + 1) % NSVR, ct++)` of
`__pbs_sigjob` (pbsD_sigjob.c:130-146) followed by `return pbs_errno`, run from
index `i` with `n` iterations left.  `UP` is `SVR_CONN_STATE_UP` and `envs i`
gives the outcomes of the calls of `__pbs_sigjob_inner` on `svr_conns[i]`.
Reading `svr_conns[i]` outside the array is undefined. -/
def sigjob_loop (NSVR : Nat) (UP : Int) (svr_conns : List (Option svr_conn_t))
    (envs : Nat → sig_env) (c : Int) : Nat → Nat → Client → Option (pbs_error × Client)
  | _, 0, st => some (st.pbs_errno, st)
  | i, n + 1, st =>
    match svr_conns[i]? with
    | none => none
    | some none => sigjob_loop NSVR UP svr_conns envs c ((i + 1) % NSVR) n st
    | some (some conn) =>
      if conn.state ≠ UP then sigjob_loop NSVR UP svr_conns envs c ((i + 1) % NSVR) n st
      else
        let r := __pbs_sigjob_inner (envs i) conn.sd (st.log (event.request (some i) conn.sd))
        if conn.sd = c then some r
        else if r.1 = pbs_error.PBSE_NONE ∨ r.2.pbs_errno ≠ pbs_error.PBSE_UNKJOBID then
          some (r.2.pbs_errno, r.2)
        else sigjob_loop NSVR UP svr_conns envs c ((i + 1) % NSVR) n r.2

/-- The function `__pbs_sigjob(c, jobid, sig, extend)` (pbsD_sigjob.c:114-153).
`NSVR` is the number of server instances, `svr_conns` the value of
`get_conn_svr_instances(c)` (`none` for NULL), `hint` the value of
`get_obj_location_hint(jobid, MGR_OBJ_JOB)` and `env_c` the outcomes of the
calls of `__pbs_sigjob_inner` on `c` itself. -/
def __pbs_sigjob (NSVR : Nat) (UP : Int) (svr_conns : Option (List (Option svr_conn_t)))
    (hint : Int) (envs : Nat → sig_env) (env_c : sig_env) (c : Int)
    (jobid sig : Option (List Char)) (st : Client) : Option (pbs_error × Client) :=
  if jobid = none ∨ jobid = some [] ∨ sig = none then
    some (pbs_error.PBSE_IVALREQ, { st with pbs_errno := pbs_error.PBSE_IVALREQ })
  else
    match svr_conns with
    | some arr =>
      let start := failover_start hint
      if NSVR = 0 then some (st.pbs_errno, st)
      else if start < 0 then none
      else sigjob_loop NSVR UP arr envs c start.toNat NSVR st
    | none => some (__pbs_sigjob_inner env_c c (st.log (event.request none c)))

/-- One call `ret = PBSD_modify_resv(sd, resv_id, attrib, extend)`; the
function is defined outside the sources and `o` is its outcome: the reply
string, `none` for NULL. -/
def PBSD_modify_resv (o : outcome (Option (List Char))) (idx : Option Nat) (sd : Int)
    (st : Client) : Option (List Char) × Client :=
  (o.ret, o.apply (st.log (event.request idx sd)))

/-- The loop of `pbs_modify_resv` (pbsD_modify_resv.c:98-110) followed by
`return ret`, run from index `i` with `n` iterations left; `ret` is the value
of the variable `ret` on entry. -/
def modify_resv_loop (NSVR : Nat) (UP : Int) (svr_conns : List (Option svr_conn_t))
    (envs : Nat → outcome (Option (List Char))) (ret : Option (List Char)) :
    Nat → Nat → Client → Option (Option (List Char) × Client)
  | _, 0, st => some (ret, st)
  | i, n + 1, st =>
    match svr_conns[i]? with
    | none => none
    | some none => modify_resv_loop NSVR UP svr_conns envs ret ((i + 1) % NSVR) n st
    | some (some conn) =>
      if conn.state ≠ UP then
        modify_resv_loop NSVR UP svr_conns envs ret ((i + 1) % NSVR) n st
      else
        let r := PBSD_modify_resv (envs i) (some i) conn.sd st
        if r.1 ≠ none then some r
        else if r.2.pbs_errno ≠ pbs_error.PBSE_UNKRESVID then some r
        else modify_resv_loop NSVR UP svr_conns envs r.1 ((i + 1) % NSVR) n r.2

/-- The function `pbs_modify_resv(c, resv_id, attrib, extend)`
(pbsD_modify_resv.c:66-118).  `verify_rc` is the value of
`pbs_verify_attributes` (`true` for 0) and `env_c` the outcome of
`PBSD_modify_resv` on `c` itself.  The loop that sets `op = SET` in the
attribute list does not touch the state modelled here. -/
def pbs_modify_resv (NSVR : Nat) (UP : Int) (svr_conns : Option (List (Option svr_conn_t)))
    (hint : Int) (verify_rc : outcome Bool) (envs : Nat → outcome (Option (List Char)))
    (env_c : outcome (Option (List Char))) (c : Int) (st : Client) :
    Option (Option (List Char) × Client) :=
  let st0 := verify_rc.apply st
  if !verify_rc.ret then some (none, st0)
  else
    match svr_conns with
    | some arr =>
      match arr[0]? with
      | none => none
      | some none => none
      | some (some conn0) =>
        if conn0.sd = c then some (PBSD_modify_resv env_c (some 0) c st0)
        else
          let start := failover_start hint
          if NSVR = 0 then some (none, st0)
          else if start < 0 then none
          else modify_resv_loop NSVR UP arr envs none start.toNat NSVR st0
    | none => some (PBSD_modify_resv env_c none c st0)

/-- The indices visited by `n` iterations of the loops from index `i`:
`i, (i + 1) % NSVR, ...`. -/
def circ_from (NSVR : Nat) : Nat → Nat → List Nat
  | _, 0 => []
  | i, n + 1 => i :: circ_from NSVR ((i + 1) % NSVR) n

/-- The entries of `svr_conns` at the given indices that are present and in
state `UP`, with their indices, in the given order. -/
def up_conns (UP : Int) (svr_conns : List (Option svr_conn_t)) (l : List Nat) :
    List (Nat × svr_conn_t) :=
  l.filterMap (fun i =>
    match svr_conns[i]? with
    | some (some conn) => if conn.state = UP then some (i, conn) else none
    | _ => none)

/-- The indices of the requests in a trace that were made for an element of
`svr_conns`, in order. -/
def contacts (tr : List event) : List Nat :=
  tr.filterMap (fun e =>
    match e with
    | event.request (some i) _ => some i
    | _ => none)

/-- The sockets of all requests in a trace, in order. -/
def requests (tr : List event) : List Int :=
  tr.filterMap (fun e =>
    match e with
    | event.request _ sd => some sd
    | _ => none)

/-- The loop of `__pbs_sigjob` seen as a walk over the list of the `UP`
entries it meets, each with its index: the request is made for the head; the
walk ends there when the socket is `c`, when the call returns 0 or when
`pbs_errno` is not `PBSE_UNKJOBID`, and goes on with the tail otherwise. -/
def sig_route (envs : Nat → sig_env) (c : Int) :
    List (Nat × svr_conn_t) → Client → pbs_error × Client
  | [], st => (st.pbs_errno, st)
  | (i, conn) :: rest, st =>
    let r := __pbs_sigjob_inner (envs i) conn.sd (st.log (event.request (some i) conn.sd))
    if conn.sd = c then r
    else if r.1 = pbs_error.PBSE_NONE ∨ r.2.pbs_errno ≠ pbs_error.PBSE_UNKJOBID then
      (r.2.pbs_errno, r.2)
    else sig_route envs c rest r.2

/-- The loop of `pbs_modify_resv` seen as a walk over the list of the `UP`
entries it meets: the walk ends at the head when the reply is not NULL or
`pbs_errno` is not `PBSE_UNKRESVID`, and goes on with the tail otherwise. -/
def resv_route (envs : Nat → outcome (Option (List Char))) (ret : Option (List Char)) :
    List (Nat × svr_conn_t) → Client → Option (List Char) × Client
  | [], st => (ret, st)
  | (i, conn) :: rest, st =>
    let r := PBSD_modify_resv (envs i) (some i) conn.sd st
    if r.1 ≠ none then r
    else if r.2.pbs_errno ≠ pbs_error.PBSE_UNKRESVID then r
    else resv_route envs r.1 rest r.2

/-- A call of `__pbs_sigjob_inner` with outcomes `e` ends with the code `E`: on
every socket and in every state it returns `E` and leaves `pbs_errno` at `E`
(`PBSE_NONE` for a successful request). -/
def sig_replies (e : sig_env) (E : pbs_error) : Prop :=
  ∀ (sd : Int) (st : Client),
    (__pbs_sigjob_inner e sd st).1 = E ∧ (__pbs_sigjob_inner e sd st).2.pbs_errno = E

/-- A call of `PBSD_modify_resv` fails with the code `E`: it returns NULL and
leaves `pbs_errno` at `E`. -/
def resv_fails (o : outcome (Option (List Char))) (E : pbs_error) : Prop :=
  o.ret = none ∧ o.sets = some E

/-- Outcomes of a `__pbs_sigjob_inner` call in which every library call
succeeds and the server replies with the code `E`, which the reply reader
stores in `pbs_errno`. -/
def sig_reply (E : pbs_error) : sig_env :=
  { init := { ret := true, sets := none }
    lock := { ret := true, sets := none }
    put := { ret := pbs_error.PBSE_NONE, sets := none }
    rdrpy := { ret := E, sets := some E }
    unlock := { ret := true, sets := none } }

/-- Outcome of a `PBSD_modify_resv` call that fails with the code `E`. -/
def resv_error (E : pbs_error) : outcome (Option (List Char)) :=
  { ret := none, sets := some E }

/-- Outcome of a `PBSD_modify_resv` call that returns the reply `msg`. -/
def resv_ok (msg : List Char) : outcome (Option (List Char)) :=
  { ret := some msg, sets := some pbs_error.PBSE_NONE }

/-- Whether `svr_conns[i]` is present and in state `UP`. -/
def conn_up (UP : Int) (svr_conns : List (Option svr_conn_t)) (i : Nat) : Bool :=
  match svr_conns[i]? with
  | some (some conn) => decide (conn.state = UP)
  | _ => false

/-- The circular order `start, (start + 1) % NSVR, ...` of the `NSVR` indices,
restricted to the entries of `svr_conns` that are present and in state `UP`. -/
def up_order (NSVR : Nat) (UP : Int) (svr_conns : List (Option svr_conn_t)) (start : Nat) :
    List Nat :=
  ((List.range NSVR).map (fun j => (start + j) % NSVR)).filter (conn_up UP svr_conns)

/-! ## Client library: the select request over all server instances

The functions of pbsD_selectj.c.  The array returned by `get_conn_servers()`
holds the `svr_conn_t` structures themselves. -/

/-- The values of `brp_choice` that `PBSD_select_get` accepts (libpbs.h, not in
the sources). -/
structure ReplyConsts where
  BATCH_REPLY_CHOICE_NULL : Nat
  BATCH_REPLY_CHOICE_Text : Nat
  BATCH_REPLY_CHOICE_Select : Nat
deriving DecidableEq

/-- A `struct batch_reply` as far as the select code reads it: `brp_choice` and
the list `brp_un.brp_select` of `brp_jobid` strings (`[]` for NULL).  A
`struct reply_list` is the list of its replies, `[]` for NULL. -/
structure batch_reply where
  brp_choice : Nat
  brp_select : List (List Char)
deriving DecidableEq

/-- Outcomes of the calls made by one `PBSD_select_get` call: the value of
`PBSD_rdrpy(c)` (`none` for NULL), the value of `get_conn_errno(c)` and whether
the `malloc` of the list node succeeds. -/
structure select_get_env where
  rdrpy : outcome (Option batch_reply)
  conn_errno : pbs_error
  node_ok : Bool
deriving DecidableEq

/-- The function `PBSD_select_get(c, &rlist)` (pbsD_selectj.c:78-107).  The
node returned by `malloc` is written without a check: `none` when it is NULL. -/
def PBSD_select_get (R : ReplyConsts) (e : select_get_env) (c : Int)
    (rlist : List batch_reply) (st : Client) : Option (List batch_reply × Client) :=
  let st1 := e.rdrpy.apply (st.log (event.get c))
  match e.rdrpy.ret with
  | none => some (rlist, { st1 with pbs_errno := pbs_error.PBSE_PROTOCOL })
  | some reply =>
    if reply.brp_choice ≠ R.BATCH_REPLY_CHOICE_NULL ∧
        reply.brp_choice ≠ R.BATCH_REPLY_CHOICE_Text ∧
        reply.brp_choice ≠ R.BATCH_REPLY_CHOICE_Select then
      some (rlist, { st1 with pbs_errno := pbs_error.PBSE_PROTOCOL })
    else if e.conn_errno = pbs_error.PBSE_NONE then
      if reply.brp_select = [] then some (rlist, st1)
      else if !e.node_ok then none
      else some (rlist ++ [reply], st1)
    else some (rlist, st1)

/-- The job ids visited by the two walks of `reply_to_jobarray`
(pbsD_selectj.c:125-135 and 146-155): the entries of the current reply, then
those of the next reply; the walk ends at the first reply without entries. -/
def select_jobids : List batch_reply → List (List Char)
  | [] => []
  | r :: rest => if r.brp_select = [] then [] else r.brp_select ++ select_jobids rest

/-- The function `reply_to_jobarray(rlist)` (pbsD_selectj.c:109-160).  The
result is the array of strings with its NULL terminator (`none`), or `none` for
a NULL result. -/
def reply_to_jobarray (malloc_ok : Bool) (rlist : List batch_reply) (st : Client) :
    Option (List (Option (List Char))) × Client :=
  if rlist = [] then (none, st)
  else if !malloc_ok then (none, { st with pbs_errno := pbs_error.PBSE_SYSTEM })
  else (some ((select_jobids rlist).map some ++ [none]), st)

/-- Outcomes of the calls made by one `PBSD_select_put` call: the first
non-zero value of the four encoders (0 when all succeed), and whether
`set_conn_errtxt` and `dis_flush` return 0. -/
structure select_put_env where
  encode : Nat
  set_conn_errtxt : Bool
  dis_flush : Bool
deriving DecidableEq

/-- The function `PBSD_select_put(c, type, attrib, rattrib, extend)`
(pbsD_selectj.c:297-325). -/
def PBSD_select_put (e : select_put_env) (c : Int) (st : Client) : pbs_error × Client :=
  let st1 := st.log (event.put c)
  if e.encode ≠ 0 then
    if !e.set_conn_errtxt then
      (pbs_error.PBSE_SYSTEM, { st1 with pbs_errno := pbs_error.PBSE_SYSTEM })
    else (pbs_error.PBSE_PROTOCOL, { st1 with pbs_errno := pbs_error.PBSE_PROTOCOL })
  else if !e.dis_flush then
    (pbs_error.PBSE_PROTOCOL, { st1 with pbs_errno := pbs_error.PBSE_PROTOCOL })
  else (pbs_error.PBSE_NONE, st1)

/-- Outcomes of the calls made by one `__pbs_selectjob` call.  `lock0` is the
lock call before the loop and `lock i` the one made in the loop for instance
`i`; `calloc_ok` tells whether `failed_conn` is not NULL and `malloc_ok`
whether the `malloc` of `reply_to_jobarray` succeeds. -/
structure select_env where
  calloc_ok : Bool
  init : outcome Bool
  verify : outcome Bool
  lock0 : outcome Bool
  lock : Nat → outcome Bool
  put : Nat → select_put_env
  get : Nat → select_get_env
  unlock : outcome Bool
  malloc_ok : Bool

/-- The first loop of `__pbs_selectjob` (pbsD_selectj.c:203-217) over the
indices still to visit; `rc` and `failed` are the variable `rc` and the indices
marked in `failed_conn`.  The result is `none` for the jump to `done`, and the
final `rc` and `failed` otherwise.  `failed_conn` is written without a check. -/
def select_send (UP : Int) (conns : List svr_conn_t) (e : select_env) (c : Int) :
    List Nat → pbs_error → List Nat → Client →
      Option (Option (pbs_error × List Nat) × Client)
  | [], rc, failed, st => some (some (rc, failed), st)
  | i :: rest, rc, failed, st =>
    match conns[i]? with
    | none => none
    | some conn =>
      if conn.state ≠ UP then
        select_send UP conns e c rest rc failed { st with pbs_errno := pbs_error.PBSE_NOSERVER }
      else
        let st1 := (e.lock i).apply (st.log (event.lock c (e.lock i).ret))
        if !(e.lock i).ret then some (none, st1)
        else
          let r := PBSD_select_put (e.put i) conn.sd (st1.log (event.request (some i) conn.sd))
          if r.1 ≠ pbs_error.PBSE_NONE then
            if !e.calloc_ok then none
            else select_send UP conns e c rest r.1 (failed ++ [i]) r.2
          else select_send UP conns e c rest r.1 failed r.2

/-- The second loop of `__pbs_selectjob` (pbsD_selectj.c:219-229) over the
indices still to visit.  `failed_conn` is read without a check. -/
def select_recv (R : ReplyConsts) (UP : Int) (conns : List svr_conn_t) (e : select_env)
    (failed : List Nat) :
    List Nat → List batch_reply → Client → Option (List batch_reply × Client)
  | [], rlist, st => some (rlist, st)
  | i :: rest, rlist, st =>
    match conns[i]? with
    | none => none
    | some conn =>
      if conn.state ≠ UP then select_recv R UP conns e failed rest rlist st
      else if !e.calloc_ok then none
      else if i ∈ failed then select_recv R UP conns e failed rest rlist st
      else
        match PBSD_select_get R (e.get i) conn.sd rlist st with
        | none => none
        | some r => select_recv R UP conns e failed rest r.1 r.2

/-- The function `__pbs_selectjob(c, attrib, extend)` (pbsD_selectj.c:176-247).
`svr_connections` is the value of `get_conn_servers()` (`none` for NULL) and
`num_cfg_svrs` the value of `get_num_servers()`. -/
def __pbs_selectjob (R : ReplyConsts) (UP : Int) (svr_connections : Option (List svr_conn_t))
    (num_cfg_svrs : Nat) (e : select_env) (c : Int) (st : Client) :
    Option (Option (List (Option (List Char))) × Client) :=
  match svr_connections with
  | none => some (none, st)
  | some conns =>
    let st1 := e.init.apply st
    if !e.init.ret then some (none, st1)
    else
      let st2 := e.verify.apply st1
      if !e.verify.ret then some (none, st2)
      else
        let st3 := e.lock0.apply (st2.log (event.lock c e.lock0.ret))
        if !e.lock0.ret then some (none, st3)
        else
          match select_send UP conns e c (List.range num_cfg_svrs) pbs_error.PBSE_NONE [] st3 with
          | none => none
          | some (none, st4) => some (reply_to_jobarray e.malloc_ok [] st4)
          | some (some (rc, failed), st4) =>
            match select_recv R UP conns e failed (List.range num_cfg_svrs) [] st4 with
            | none => none
            | some (rlist, st5) =>
              let st6 := e.unlock.apply (st5.log (event.unlock c e.unlock.ret))
              if !e.unlock.ret then some (reply_to_jobarray e.malloc_ok rlist st6)
              else if rc ≠ pbs_error.PBSE_NONE then
                some (reply_to_jobarray e.malloc_ok rlist { st6 with pbs_errno := rc })
              else some (reply_to_jobarray e.malloc_ok rlist st6)

/-! ## Connection manager: the disconnect functions (svr_connect.c:231-322)

The functions they call are defined outside the sources; the model gives the
calls made, in order. -/

/-- A call made by a disconnect function on a socket. -/
inductive disc_event where
  /-- A call of `pbs_client_thread_lock_connection(sock)`; `ok` when it returned 0. -/
  | lock (sock : Int) (ok : Bool)
  /-- A call of `encode_DIS_ReqHdr(sock, PBS_BATCH_Disconnect, ...)`. -/
  | hdr (sock : Int) (ok : Bool)
  /-- A call of `dis_flush(sock)`. -/
  | flush (sock : Int) (ok : Bool)
  /-- A call of `read(sock, &x, 1)`. -/
  | read (sock : Int)
  /-- A call of `close(sock)`. -/
  | close (sock : Int)
  /-- A call of `close_conn(sock)`. -/
  | close_conn (sock : Int)
  /-- The assignments `conn->cn_func = close_conn; conn->cn_oncl = 0`. -/
  | arm (sock : Int)
  /-- A call of `set_conn_errtxt(sock, NULL)`. -/
  | errtxt (sock : Int)
  /-- A call of `set_conn_errno(sock, 0)`. -/
  | conn_errno (sock : Int)
  /-- A call of `pbs_client_thread_unlock_connection(sock)`. -/
  | unlock (sock : Int)
  /-- A call of `pbs_client_thread_destroy_connect_context(sock)`. -/
  | destroy (sock : Int)
deriving DecidableEq

/-- Outcomes of the calls of a disconnect function: whether the lock call,
`encode_DIS_ReqHdr` and `dis_flush` return 0, how many bytes `read` delivers
before it returns less than 1, and whether `get_conn(sock)` finds an entry. -/
structure disc_env where
  lock_ok : Bool
  hdr_ok : Bool
  flush_ok : Bool
  pending : Nat
  conn_found : Bool
deriving DecidableEq

/-- The function `svr_disconnect_with_wait_option(sock, wait)`
(svr_connect.c:257-299): the calls it makes. -/
def svr_disconnect_with_wait_option (N : NetConsts) (e : disc_env) (sock : Int) (wait : Int) :
    List disc_event :=
  if sock < 0 ∨ sock ≥ N.PBS_LOCAL_CONNECTION then []
  else if !e.lock_ok then [disc_event.lock sock false]
  else
    [disc_event.lock sock true, disc_event.hdr sock e.hdr_ok]
    ++ (if e.hdr_ok then
          disc_event.flush sock e.flush_ok ::
            (if e.flush_ok then
              if wait ≠ 0 then
                List.replicate (e.pending + 1) (disc_event.read sock) ++ [disc_event.close sock]
              else if e.conn_found then [disc_event.arm sock]
              else []
            else [disc_event.close_conn sock])
        else [disc_event.close_conn sock])
    ++ [disc_event.errtxt sock, disc_event.conn_errno sock, disc_event.unlock sock,
        disc_event.destroy sock]

/-- The function `svr_disconnect(handle)` (svr_connect.c:231-235). -/
def svr_disconnect (N : NetConsts) (e : disc_env) (handle : Int) : List disc_event :=
  svr_disconnect_with_wait_option N e handle 0

/-- The function `svr_force_disconnect(sock)` (svr_connect.c:310-322): the
calls it makes. -/
def svr_force_disconnect (N : NetConsts) (e : disc_env) (sock : Int) : List disc_event :=
  if sock < 0 ∨ sock > N.PBS_LOCAL_CONNECTION then []
  else if !e.lock_ok then [disc_event.lock sock false]
  else
    [disc_event.lock sock true, disc_event.close_conn sock, disc_event.errtxt sock,
      disc_event.unlock sock, disc_event.destroy sock]

/-! ## Reading the trace of the select request -/

/-- The sockets to which a request was written, in order. -/
def puts (tr : List event) : List Int :=
  tr.filterMap (fun e =>
    match e with
    | event.put sd => some sd
    | _ => none)

/-- The sockets from which a reply was read, in order. -/
def gets (tr : List event) : List Int :=
  tr.filterMap (fun e =>
    match e with
    | event.get sd => some sd
    | _ => none)

/-- The number of calls of `pbs_client_thread_lock_connection` in the trace
that returned 0. -/
def locks_taken (tr : List event) : Nat :=
  (tr.filter (fun e =>
    match e with
    | event.lock _ true => true
    | _ => false)).length

/-- The number of calls of `pbs_client_thread_unlock_connection` in the
trace. -/
def unlock_calls (tr : List event) : Nat :=
  (tr.filter (fun e =>
    match e with
    | event.unlock _ _ => true
    | _ => false)).length

/-- Whether a `PBSD_select_put` call with outcomes `p` returns 0: every encoder
and `dis_flush` succeed. -/
def put_ok (p : select_put_env) : Bool := p.encode == 0 && p.dis_flush

/-- The entries of the array of `get_conn_servers()` at the given indices that
are in state `UP`, with their indices, in the given order. -/
def up_servers (UP : Int) (conns : List svr_conn_t) (l : List Nat) : List (Nat × svr_conn_t) :=
  l.filterMap (fun i =>
    match conns[i]? with
    | some conn => if conn.state = UP then some (i, conn) else none
    | none => none)

/-! ## Peer servers (multi_svr.c) -/

/-- The globals of `multi_svr.c` on top of those of `mom_info.c`: the list
`peersvrl`, static in that file, as the sequence of the `psvr` pointers of its
nodes (`[]` for NULL), and the streams passed to `tpp_close`, latest last.  A
`svrinfo_t` is a `mominfo_t`. -/
structure Cluster where
  srv : Server
  peersvrl : List Ptr
  tpp_closed : List Int
deriving DecidableEq

/-- The function `init_msi()` (multi_svr.c:277-283). -/
def init_msi (s : Cluster) : Int × Cluster := (0, { s with peersvrl := [] })

/-- The function `create_svr_entry(hostname, port)` (multi_svr.c:108-147).
`malloc_ok` is the outcome of the `malloc` of the record and `calloc_ok` that
of the `calloc` of the list node.  Both exits return `psvr`. -/
def create_svr_entry (K : Consts) (hostname : List Char) (port : Nat)
    (malloc_ok calloc_ok : Bool) (s : Cluster) : Option Ptr × Cluster :=
  if !malloc_ok then (none, s)
  else
    let psvr : Ptr := s.srv.heap.length
    let r : mominfo_t :=
      { mi_host := strncpy hostname K.PBS_MAXHOSTNAME
        mi_port := port
        mi_rmport := port
        mi_modtime := 0
        mi_data := none
        mi_action := none
        mi_num_action := 0 }
    let s1 : Cluster := { s with srv := { s.srv with heap := s.srv.heap ++ [some r] } }
    if s.peersvrl ≠ [] then
      if !calloc_ok then (some psvr, s1)
      else (some psvr, { s1 with peersvrl := s.peersvrl ++ [psvr] })
    else
      if !calloc_ok then (some psvr, s1)
      else (some psvr, { s1 with peersvrl := [psvr] })

/-- Outcomes of the functions that `connect_2_peersvr` reaches and that are
defined outside the sources.  `hostname` is the `h_name` found by
`gethostbyaddr` (`none` for a failed lookup); `create` is
`create_svrmom_struct(hostname, port)` as declared in multi_svr.c:60, giving
the record and the new registry; `open_tppstream` gives the stream and the new
registry; `compose_ok` and `flush_ok` tell whether `is_compose` and
`dis_flush` return `DIS_SUCCESS`.  None of these functions can name the static
list `peersvrl`, and they are taken not to call `create_svr_entry`: the
definition of `create_svrmom_struct` in mom_info.c does not. -/
structure join_env where
  hostname : Option (List Char)
  create : List Char → Nat → Server → Option Ptr × Server
  open_tppstream : Option Ptr → Server → Int × Server
  compose_ok : Bool
  flush_ok : Bool

/-- The function `create_svr_struct(addr)` (multi_svr.c:187-201). -/
def create_svr_struct (env : join_env) (port : Nat) (s : Server) : Option Ptr × Server :=
  match env.hostname with
  | some hostname => env.create hostname port s
  | none => (none, s)

/-- The function `send_hello(psvr)` (multi_svr.c:213-233).  The stream is read
through `psvr->mi_data` without a check. -/
def send_hello (env : join_env) (psvr : Option Ptr) (s : Cluster) : Option (Int × Cluster) :=
  match psvr with
  | none => none
  | some p =>
    match deref s.srv.heap p with
    | none => none
    | some r =>
      match r.mi_data with
      | none => none
      | some d =>
        if !env.compose_ok then some (-1, { s with tpp_closed := s.tpp_closed ++ [d.msr_stream] })
        else if !env.flush_ok then
          some (-1, { s with tpp_closed := s.tpp_closed ++ [d.msr_stream] })
        else some (0, s)

/-- The function `connect_2_peersvr(hostaddr, port)` (multi_svr.c:246-267).
The port goes through the 16-bit field `addr.sin_port`. -/
def connect_2_peersvr (env : join_env) (_hostaddr port : Nat) (s : Cluster) :
    Option (Option Ptr × Cluster) :=
  let created := create_svr_struct env (port % 65536) s.srv
  let psvr := created.1
  let opened := env.open_tppstream psvr created.2
  if opened.1 < 0 then
    (delete_svrmom_entry psvr opened.2).map (fun srv => (none, { s with srv := srv }))
  else
    match send_hello env psvr { s with srv := opened.2 } with
    | none => none
    | some (rc, s1) =>
      if rc < 0 then
        (delete_svrmom_entry psvr s1.srv).map (fun srv => (none, { s1 with srv := srv }))
      else some (psvr, s1)

/-- The loop of `mcast_resc_usage` (multi_svr.c:357-360) over the nodes of
`peersvrl`: the stream of each member is opened and the member is added to the
multicast group by `add_mom_mcast`, defined outside the sources, whose effect
on `mtfd` is `add`.  The result is the final `mtfd` and the members handed to
`add_mom_mcast`, in order. -/
def mcast_members (env : join_env) (add : Ptr → Int → Int) :
    List Ptr → Int → Server → Int × List Ptr × Server
  | [], mtfd, srv => (mtfd, [], srv)
  | psvr :: rest, mtfd, srv =>
    let opened := env.open_tppstream (some psvr) srv
    let r := mcast_members env add rest (add psvr mtfd) opened.2
    (r.1, psvr :: r.2.1, r.2.2)

/-- The function `mcast_resc_usage(jobid, selectspec, op)`
(multi_svr.c:350-366): the members it reaches and the multicast handle on
which `send_resc_usage` is called (`none` when `mtfd` is still -1 and nothing
is sent). -/
def mcast_resc_usage (env : join_env) (add : Ptr → Int → Int) (s : Cluster) :
    List Ptr × Option Int × Cluster :=
  let r := mcast_members env add s.peersvrl (-1) s.srv
  (r.2.1, (if r.1 ≠ -1 then some r.1 else none), { s with srv := r.2.2 })

/-! ## Wire encoding (enc_attrl.c and `encode_DIS_RescUpdate` of multi_svr.c)

The DIS writers `diswui`, `diswsi`, `diswst` and `diswcs` are defined outside
the sources.  A call is given by its outcome: it returns 0 and its item is on
the stream, or it returns a non-zero code. -/

/-- What one successful call of a DIS writer puts on the stream. -/
inductive dis_item where
  /-- An unsigned integer written by `diswui`. -/
  | ui (v : Nat)
  /-- A signed integer written by `diswsi`. -/
  | si (v : Int)
  /-- A string written by `diswst`. -/
  | st (s : List Char)
  /-- A counted string written by `diswcs(sock, s, n)`. -/
  | cs (s : List Char) (n : Nat)
deriving DecidableEq

/-- The stream behind a socket as the encoders see it: the items written so
far and the return codes of the writer calls to come, in order (a call past
the end of `rcs` returns 0). -/
structure Wire where
  out : List dis_item
  rcs : List Int
deriving DecidableEq

/-- One call of a DIS writer for `item`: it takes the next return code; on 0
the item is appended to the stream. -/
def dis_write (item : dis_item) (w : Wire) : Int × Wire :=
  match w.rcs with
  | [] => (0, { w with out := w.out ++ [item] })
  | rc :: rest =>
    if rc = 0 then (0, { out := w.out ++ [item], rcs := rest })
    else (rc, { w with rcs := rest })

/-- The call `diswui(sock, v)`. -/
def diswui (v : Nat) (w : Wire) : Int × Wire := dis_write (dis_item.ui v) w

/-- The call `diswsi(sock, v)`. -/
def diswsi (v : Int) (w : Wire) : Int × Wire := dis_write (dis_item.si v) w

/-- The call `diswst(sock, s)`. -/
def diswst (s : List Char) (w : Wire) : Int × Wire := dis_write (dis_item.st s) w

/-- The call `diswcs(sock, s, n)`. -/
def diswcs (s : List Char) (n : Nat) (w : Wire) : Int × Wire := dis_write (dis_item.cs s n) w

/-- A `struct attrl` as far as `encode_DIS_attrl` reads it: the name, the
resource name (`none` for NULL) and the value (`none` for NULL).  A list of
them stands for the chain linked by `next`. -/
structure attrl where
  name : List Char
  resource : Option (List Char)
  value : Option (List Char)
deriving DecidableEq

/-- The variable `name_len` of `encode_DIS_attrl` (enc_attrl.c:118-120), an
`unsigned int`: the lengths of the strings with their terminating nulls. -/
def name_len (ps : attrl) : Nat :=
  ((ps.name.length + (ps.value.getD []).length + 2)
    + (match ps.resource with
       | some r => r.length + 1
       | none => 0)) % 4294967296

/-- The writes of value and operator that end one pass of the loop of
`encode_DIS_attrl` (enc_attrl.c:135-137). -/
def encode_value_op (SET : Nat) (value : List Char) (w : Wire) : Int × Wire :=
  let r1 := diswst value w
  if r1.1 ≠ 0 then r1
  else diswui SET r1.2

/-- The second loop of `encode_DIS_attrl` (enc_attrl.c:116-138) followed by
`return rc`; `rc` is 0 when the loop ends without a `break`. -/
def encode_entries (SET : Nat) : List attrl → Wire → Int × Wire
  | [], w => (0, w)
  | ps :: rest, w =>
    let value := ps.value.getD []
    let r1 := diswui (name_len ps) w
    if r1.1 ≠ 0 then r1
    else
      let r2 := diswst ps.name r1.2
      if r2.1 ≠ 0 then r2
      else
        match ps.resource with
        | some res =>
          let r3 := diswui 1 r2.2
          if r3.1 ≠ 0 then r3
          else
            let r4 := diswst res r3.2
            if r4.1 ≠ 0 then r4
            else
              let r5 := encode_value_op SET value r4.2
              if r5.1 ≠ 0 then r5 else encode_entries SET rest r5.2
        | none =>
          let r3 := diswui 0 r2.2
          if r3.1 ≠ 0 then r3
          else
            let r5 := encode_value_op SET value r3.2
            if r5.1 ≠ 0 then r5 else encode_entries SET rest r5.2

/-- The function `encode_DIS_attrl(sock, pattrl)` (enc_attrl.c:99-142).  `SET`
is the value of the enumerator `SET` of `enum batch_op` (pbs_ifl.h, not in the
sources), which is not negative; the counter `ct` is an `unsigned int`. -/
def encode_DIS_attrl (SET : Nat) (pattrl : List attrl) (w : Wire) : Int × Wire :=
  let r := diswui (pattrl.length % 4294967296) w
  if r.1 ≠ 0 then r
  else encode_entries SET pattrl r.2

/-- The frame of one entry in the words of the interface: the length of the
strings with their terminating nulls, the name, the flag 1 and the resource
name or the flag 0 alone, the value (empty when NULL) and the operator tag. -/
def attrl_frame (SET : Nat) (a : attrl) : List dis_item :=
  [dis_item.ui (a.name.length + (a.value.getD []).length + 2
      + (match a.resource with
         | some r => r.length + 1
         | none => 0)),
    dis_item.st a.name]
  ++ (match a.resource with
      | some r => [dis_item.ui 1, dis_item.st r]
      | none => [dis_item.ui 0])
  ++ [dis_item.st (a.value.getD []), dis_item.ui SET]

/-- The frame of a whole list in the words of the interface: the count, then
the frames of the entries in list order. -/
def attrl_frames (SET : Nat) (l : List attrl) : List dis_item :=
  dis_item.ui l.length :: (l.map (attrl_frame SET)).flatten

/-- The numbers of an entry fit the `int` arithmetic of `name_len`. -/
def attrl.fits (a : attrl) : Prop :=
  a.name.length + (a.value.getD []).length + 2
    + (match a.resource with
       | some r => r.length + 1
       | none => 0) < 2147483648

instance attrl.fits_decidable (a : attrl) : Decidable a.fits := by
  unfold attrl.fits
  exact inferInstance

/-- An attribute entry as read back from the wire: name, resource name if
any, value and operator. -/
structure svrattrl where
  name : List Char
  resource : Option (List Char)
  value : List Char
  op : Nat
deriving DecidableEq

/-- Modelled from the spec: the decoder of the request frame is not among the
sources.  One entry is read in the layout `u32 combinedStringLength`,
`string name`, `u32 hasSecondaryName {0,1}`, `[string secondaryName]`,
`string value`, `u32 operatorTag`; a short read, another flag, or strings
longer than the combined length announces fail. -/
def decode_entry : List dis_item → Option (svrattrl × List dis_item)
  | dis_item.ui len :: dis_item.st name :: dis_item.ui flag :: rest =>
    if flag = 1 then
      match rest with
      | dis_item.st res :: dis_item.st value :: dis_item.ui op :: rest1 =>
        if name.length + 1 + (res.length + 1) + (value.length + 1) ≤ len then
          some ({ name := name, resource := some res, value := value, op := op }, rest1)
        else none
      | _ => none
    else if flag = 0 then
      match rest with
      | dis_item.st value :: dis_item.ui op :: rest1 =>
        if name.length + 1 + (value.length + 1) ≤ len then
          some ({ name := name, resource := none, value := value, op := op }, rest1)
        else none
      | _ => none
    else none
  | _ => none

/-- Modelled from the spec: `ct` entries read one after the other. -/
def decode_entries : Nat → List dis_item → Option (List svrattrl × List dis_item)
  | 0, items => some ([], items)
  | ct + 1, items =>
    match decode_entry items with
    | none => none
    | some (a, rest) =>
      match decode_entries ct rest with
      | none => none
      | some (l, rest1) => some (a :: l, rest1)

/-- Modelled from the spec: the decoder of an attribute list, `u32 attrCount`
followed by that many entries; the whole input is to be consumed. -/
def decode_attrl (items : List dis_item) : Option (List svrattrl) :=
  match items with
  | dis_item.ui ct :: rest =>
    match decode_entries ct rest with
    | some (l, []) => some l
    | _ => none
  | _ => none

/-- The function `encode_DIS_RescUpdate(sock, jobid, selectspec, op)`
(multi_svr.c:317-328).  Each assignment has the form
`rc = diswst(sock, jobid) != 0`, so `rc` receives the value of the comparison,
0 or 1. -/
def encode_DIS_RescUpdate (jobid selectspec : List Char) (op : Int) (w : Wire) : Int × Wire :=
  let r1 := diswst jobid w
  let rc1 : Int := if r1.1 ≠ 0 then 1 else 0
  if rc1 ≠ 0 then (rc1, r1.2)
  else
    let r2 := diswsi op r1.2
    let rc2 : Int := if r2.1 ≠ 0 then 1 else 0
    if rc2 ≠ 0 then (rc2, r2.2)
    else
      let r3 := diswcs selectspec selectspec.length r2.2
      let rc3 : Int := if r3.1 ≠ 0 then 1 else 0
      if rc3 ≠ 0 then (rc3, r3.2)
      else (0, r3.2)

/-- The entry that an `attrl` is read back as: same name and resource name,
the value with NULL read as the empty string, and the operator `SET`. -/
def attrl.decoded (SET : Nat) (a : attrl) : svrattrl :=
  { name := a.name, resource := a.resource, value := a.value.getD [], op := SET }

/-! ## Concrete constants and states used in examples -/

/-- Concrete constants used in examples: `PBS_MAXHOSTNAME` 255, `INUSE_UNKNOWN`
0x100, `INUSE_DOWN` 0x02. -/
def K0 : Consts := { PBS_MAXHOSTNAME := 255, INUSE_UNKNOWN := 256, INUSE_DOWN := 2 }

/-- A host name of 256 characters, one more than `K0.PBS_MAXHOSTNAME`. -/
def long_host : List Char := List.replicate 256 'a'

/-- A registry of ten slots holding one record, for `nodeA:15002`, in slot 0. -/
def one_mom : Server :=
  { Server.init with
    heap := [some (new_mominfo K0 "nodeA".toList 15002 none)]
    mominfo_array := some 0 :: List.replicate 9 none
    svr_num_moms := 1 }

/-- A registry of two slots, both in use, for `nodeA:15002` and `nodeB:15002`. -/
def full_moms : Server :=
  { Server.init with
    heap := [some (new_mominfo K0 "nodeA".toList 15002 none),
      some (new_mominfo K0 "nodeB".toList 15002 none)]
    mominfo_array := [some 0, some 1]
    svr_num_moms := 2 }

/-- The registry after `create_mom_entry(long_host, 15002)` was called twice
from the empty registry: two records, in slots 0 and 1, both with the first 255
characters of `long_host` as `mi_host`. -/
def two_long : Server :=
  { Server.init with
    heap := [some (new_mominfo K0 long_host 15002 none),
      some (new_mominfo K0 long_host 15002 none)]
    mominfo_array := some 0 :: some 1 :: List.replicate 8 none
    svr_num_moms := 2 }

/-- A sequence of calls with host names that fit `mi_host`: three creations
(the third finds `nodeA` again, in other letter case), the deletion of the
`nodeA` record and one more creation, which reuses slot 0. -/
def sample_calls : List mom_call :=
  [mom_call.create "nodeA".toList 15002 true true none,
   mom_call.create "nodeB".toList 15002 true true none,
   mom_call.create "NODEA".toList 15002 true true none,
   mom_call.delete (some 0),
   mom_call.create "nodeC".toList 15003 true true none]

/-- The registry reached by `sample_calls` from the empty registry. -/
def sample_final : Server :=
  { Server.init with
    heap := [none, some (new_mominfo K0 "nodeB".toList 15002 none),
      some (new_mominfo K0 "nodeC".toList 15003 none)]
    mominfo_array := some 2 :: some 1 :: List.replicate 8 none
    svr_num_moms := 2 }

/-- The address list of `nodeA`: 10.0.0.1 and 10.0.0.2, then the terminator. -/
def pul0 : ulbuf := { base := 0, words := [167772161, 167772162, 0] }

/-- The registry after `create_svrmom_entry("nodeA", 15002, pul0)` succeeded on
the empty registry: one record with role data, its two addresses in `ipaddrs`. -/
def one_svrmom : Server :=
  { Server.init with
    heap := [some { new_mominfo K0 "nodeA".toList 15002 none with
      mi_data := some (new_svrinfo K0 pul0) }]
    mominfo_array := some 0 :: List.replicate 9 none
    svr_num_moms := 1
    ipaddrs := [(167772162, 15002, 0), (167772161, 15002, 0)] }

/-- A registry of ten empty slots whose only record has been freed. -/
def no_moms : Server :=
  { Server.init with heap := [none], mominfo_array := List.replicate 10 none }

/-- Every allocation of `make_host_addresses_list` succeeds. -/
def all_ok : cache_allocs :=
  { pul_ok := true, tpul_ok := true, tpul_pul_ok := true, create_tree_ok := true,
    tree_add_ok := true }

/-- The allocation of the result list `*pul` fails. -/
def pul_fails : cache_allocs := { all_ok with pul_ok := false }

/-- A resolver that knows every host under one IPv6 address (family 10) and the
IPv4 address 10.0.0.1. -/
def resolve_dual : List Char → Option (List addrinfo) :=
  fun _ => some [{ ai_family := 10, ipaddr := 0 }, { ai_family := AF_INET, ipaddr := 167772161 }]

/-- A resolver that succeeds for every host with one IPv6 address (family 10)
and no IPv4 address. -/
def resolve_v6_only : List Char → Option (List addrinfo) :=
  fun _ => some [{ ai_family := 10, ipaddr := 0 }]

/-- A resolver that fails for every host. -/
def resolve_fails : List Char → Option (List addrinfo) := fun _ => none

/-- The state after `nodeA` was resolved by `resolve_dual` from the initial
state: the result list took address 0, the cached copy address 1. -/
def cached_nodeA : Server :=
  { Server.init with
    hostaddr_tree := some [("nodeA".toList,
      { pul := { base := 1, words := [167772161, 0] }, len := 2 })]
    brk := 2
    resolutions := 1 }

/-- The state after `nodeV6` was resolved by `resolve_v6_only` from the initial
state: an address list holding the terminator only is cached. -/
def cached_nodeV6 : Server :=
  { Server.init with
    hostaddr_tree := some [("nodeV6".toList, { pul := { base := 1, words := [0] }, len := 1 })]
    brk := 2
    resolutions := 1 }


/-! ## Concrete states used in the examples of the connection manager -/

/-- Concrete network constants: `PBS_LOCAL_CONNECTION` 2147483647, `PROT_TPP`
1, `ECONNREFUSED` 111, `PBS_NET_CONN_AUTHENTICATED` 1. -/
def N0 : NetConsts :=
  { PBS_LOCAL_CONNECTION := 2147483647, PROT_TPP := 1, ECONNREFUSED := 111,
    PBS_NET_CONN_AUTHENTICATED := 1 }

/-- The server at 10.0.0.9:15001 with the registry `one_svrmom`: `nodeA`, down
and unknown, reachable at 10.0.0.1 and 10.0.0.2, port 15002. -/
def net0 : Net :=
  { srv := one_svrmom, pbs_errno := pbs_error.PBSE_NONE, errno := 0,
    pbs_server_addr := 167772169, pbs_server_port_dis := 15001, conns := [],
    client_to_svr_calls := [], closed := [] }

/-- The role data of `nodeA` once it is up on stream 4. -/
def nodeA_up_data : mom_svrinfo_t :=
  { new_svrinfo K0 pul0 with msr_state := 0, msr_stream := 4 }

/-- The record of `nodeA` once it is up on stream 4. -/
def nodeA_up : mominfo_t :=
  { new_mominfo K0 "nodeA".toList 15002 none with mi_data := some nodeA_up_data }

/-- The registry `one_svrmom` after `open_momstream` returned stream 4 for
`nodeA`: the state bits are clear and stream 4 is in the `streams` index. -/
def one_svrmom_up : Server :=
  { one_svrmom with heap := [some nodeA_up], streams := [(4, 0, 0)] }

/-- The server of `net0` with `nodeA` up on stream 4. -/
def net_up : Net := { net0 with srv := one_svrmom_up }

/-- A successful connect on the first attempt: socket 7. -/
def connects_first : connect_env :=
  { rpp_stream := 4, first := { sock := 7, errno := 0, sets := none },
    second := { sock := 8, errno := 0, sets := none }, add_conn_ok := true }

/-- A refused first attempt, then socket 8 on the second attempt. -/
def connects_second : connect_env :=
  { rpp_stream := 4, first := { sock := -2, errno := 111, sets := none },
    second := { sock := 8, errno := 0, sets := none }, add_conn_ok := true }

/-- A successful connect on the first attempt (socket 7) that `add_conn` cannot
register. -/
def connects_unregistered : connect_env := { connects_first with add_conn_ok := false }

/-- The connection table entry made for socket 8 when no callback is given. -/
def conn_second : conn_t :=
  { cn_sock := 8, cn_active := conn_type.ToServerDIS, cn_addr := 0, cn_port := 0,
    cn_func := none, cn_authen := 1 }

/-- A disconnect in which every call succeeds and the peer closes at once. -/
def disc_fine : disc_env :=
  { lock_ok := true, hdr_ok := true, flush_ok := true, pending := 0, conn_found := true }

/-! ## Concrete configurations used in the examples of the client library -/

/-- The value of `SVR_CONN_STATE_UP` used in the examples. -/
def UP0 : Int := 1

/-- Three server instances on sockets 10, 11 and 12; instances 0 and 1 are up,
instance 2 is down. -/
def conns3 : List (Option svr_conn_t) :=
  [some { sd := 10, state := 1 }, some { sd := 11, state := 1 }, some { sd := 12, state := 0 }]

/-- Two server instances on sockets 10 and 11, both up. -/
def conns2 : List (Option svr_conn_t) :=
  [some { sd := 10, state := 1 }, some { sd := 11, state := 1 }]

/-- Two server instances on sockets 10 and 11, both down. -/
def conns_down : List (Option svr_conn_t) :=
  [some { sd := 10, state := 0 }, some { sd := 11, state := 0 }]

/-- A client that has done nothing yet and whose `pbs_errno` is 0. -/
def client0 : Client := { pbs_errno := pbs_error.PBSE_NONE, trace := [] }

/-- Signal requests: instance 0 knows the job, every other instance replies
`PBSE_UNKJOBID`. -/
def sig_only0 : Nat → sig_env :=
  fun i => if i = 0 then sig_reply pbs_error.PBSE_NONE else sig_reply pbs_error.PBSE_UNKJOBID

/-- Signal requests: instance 1 knows the job, every other instance replies
`PBSE_UNKJOBID`. -/
def sig_only1 : Nat → sig_env :=
  fun i => if i = 1 then sig_reply pbs_error.PBSE_NONE else sig_reply pbs_error.PBSE_UNKJOBID

/-- Modify requests: instance 0 knows the reservation and replies `ok`, every
other instance fails with `PBSE_UNKRESVID`. -/
def resv_only0 : Nat → outcome (Option (List Char)) :=
  fun i => if i = 0 then resv_ok "ok".toList else resv_error pbs_error.PBSE_UNKRESVID

/-- Modify requests: instance 1 knows the reservation and replies `ok`, every
other instance fails with `PBSE_UNKRESVID`. -/
def resv_only1 : Nat → outcome (Option (List Char)) :=
  fun i => if i = 1 then resv_ok "ok".toList else resv_error pbs_error.PBSE_UNKRESVID

/-- The attribute verification succeeds and leaves `pbs_errno` alone. -/
def verify_ok : outcome Bool := { ret := true, sets := none }

/-- Signal requests: every instance replies `PBSE_PROTOCOL`. -/
def sig_broken : Nat → sig_env := fun _ => sig_reply pbs_error.PBSE_PROTOCOL

/-- Modify requests: every instance fails with `PBSE_PROTOCOL`. -/
def resv_broken : Nat → outcome (Option (List Char)) :=
  fun _ => resv_error pbs_error.PBSE_PROTOCOL

/-- The values of `brp_choice` used in the examples. -/
def R0 : ReplyConsts :=
  { BATCH_REPLY_CHOICE_NULL := 1, BATCH_REPLY_CHOICE_Text := 7, BATCH_REPLY_CHOICE_Select := 6 }

/-- The array of `get_conn_servers()` for two server instances on sockets 10
and 11, both down. -/
def servers_down : List svr_conn_t := [{ sd := 10, state := 0 }, { sd := 11, state := 0 }]

/-- A select call in which every library call succeeds and every instance
replies with an empty selection. -/
def select_fine : select_env :=
  { calloc_ok := true
    init := { ret := true, sets := none }
    verify := { ret := true, sets := none }
    lock0 := { ret := true, sets := none }
    lock := fun _ => { ret := true, sets := none }
    put := fun _ => { encode := 0, set_conn_errtxt := true, dis_flush := true }
    get := fun _ =>
      { rdrpy := { ret := some { brp_choice := 6, brp_select := [] },
                   sets := some pbs_error.PBSE_NONE }
        conn_errno := pbs_error.PBSE_NONE
        node_ok := true }
    unlock := { ret := true, sets := none }
    malloc_ok := true }

/-- Signal requests: every instance replies `PBSE_UNKJOBID`. -/
def sig_unknown : Nat → sig_env := fun _ => sig_reply pbs_error.PBSE_UNKJOBID

/-- The array of `get_conn_servers()` for three server instances on sockets 10,
11 and 12; instance 1 is down. -/
def servers3 : List svr_conn_t :=
  [{ sd := 10, state := 1 }, { sd := 11, state := 0 }, { sd := 12, state := 1 }]

/-- The array of `get_conn_servers()` for one server instance on socket 10,
which is up. -/
def servers_one_up : List svr_conn_t := [{ sd := 10, state := 1 }]

/-- A select call as `select_fine`, except that the request to instance 0
cannot be flushed. -/
def select_put0_fails : select_env :=
  { select_fine with
    put := fun i =>
      if i = 0 then { encode := 0, set_conn_errtxt := true, dis_flush := false }
      else { encode := 0, set_conn_errtxt := true, dis_flush := true } }

/-- Two select replies, the first with the job ids `1.svr` and `2.svr`, the
second with `7.svr`. -/
def replies2 : List batch_reply :=
  [{ brp_choice := 6, brp_select := ["1.svr".toList, "2.svr".toList] },
   { brp_choice := 6, brp_select := ["7.svr".toList] }]

/-- A select call as `select_fine`, except that the lock calls made in the
loop fail. -/
def select_lock_fails : select_env :=
  { select_fine with lock := fun _ => { ret := false, sets := none } }

/-! ## Concrete values used in the examples of the peer servers -/

/-- A server with an empty registry and no peer server. -/
def cluster0 : Cluster := { srv := Server.init, peersvrl := [], tpp_closed := [] }

/-- A server whose list of peer servers holds one record, for `peerA:15001`. -/
def cluster1 : Cluster :=
  { srv := { Server.init with
      heap := [some { mi_host := "peerA".toList, mi_port := 15001, mi_rmport := 15001,
                      mi_modtime := 0, mi_data := none, mi_action := none,
                      mi_num_action := 0 }] }
    peersvrl := [0]
    tpp_closed := [] }

/-- A join in which every step succeeds: the address resolves to `peerB`, the
record is created with role data by `create_svrmom_entry`, the tunnel opens on
stream 5 as `open_momstream` does, and the hello is sent. -/
def join_fine : join_env :=
  { hostname := some "peerB".toList
    create := fun hostname port s =>
      (create_svrmom_entry K0 hostname port pul0 true true none true true s).getD (none, s)
    open_tppstream := fun psvr s =>
      match psvr with
      | some p => (open_momstream K0 p 0 5 s).getD (-1, s)
      | none => (-1, s)
    compose_ok := true
    flush_ok := true }

/-- Every member joins the multicast group on handle 9. -/
def add_all : Ptr → Int → Int := fun _ _ => 9

/-! ## Concrete values used in the examples of the wire encoding -/

/-- The value of the enumerator `SET` used in the examples. -/
def SET0 : Nat := 0

/-- An empty stream on which every write succeeds. -/
def wire0 : Wire := { out := [], rcs := [] }

/-- Two attribute entries, the first with a resource name and the second
without one and with a NULL value. -/
def attrs2 : List attrl :=
  [{ name := "Resource_List".toList, resource := some "ncpus".toList, value := some "4".toList },
   { name := "queue".toList, resource := none, value := none }]

/-! ## Lemmas on the search loops and on `create_mom_entry` -/

theorem strcasecmp_self (a : List Char) : strcasecmp a a = 0 := by
  induction a with
  | nil => rfl
  | cons c cs ih => simp [strcasecmp, ih]

theorem first_empty_none {slots : List (Option Ptr)} (h : first_empty slots = none) :
    ∀ x ∈ slots, x ≠ none := by
  induction slots with
  | nil => simp
  | cons x rest ih =>
    cases x with
    | none => simp [first_empty] at h
    | some q =>
      simp only [first_empty, Option.map_eq_none'] at h
      intro y hy
      rcases List.mem_cons.1 hy with rfl | hy
      · simp
      · exact ih h y hy

theorem first_empty_some {slots : List (Option Ptr)} {k : Nat} (h : first_empty slots = some k) :
    slots[k]? = some none ∧ ∀ j, j < k → ∃ q, slots[j]? = some (some q) := by
  induction slots generalizing k with
  | nil => simp [first_empty] at h
  | cons x rest ih =>
    cases x with
    | none =>
      simp only [first_empty, Option.some.injEq] at h
      subst h
      simp
    | some q =>
      simp only [first_empty, Option.map_eq_some'] at h
      obtain ⟨k', hk', rfl⟩ := h
      obtain ⟨h1, h2⟩ := ih hk'
      refine ⟨by simpa using h1, ?_⟩
      intro j hj
      cases j with
      | zero => exact ⟨q, by simp⟩
      | succ j => simpa using h2 j (by omega)

theorem create_scan_missing_empty (heap : List (Option mominfo_t)) (hostname : List Char)
    (port : Nat) (slots : List (Option Ptr)) (i : Nat) (empty e : Option Nat)
    (h : create_scan heap hostname port slots i empty = some (scan_result.missing e)) :
    e = if empty = none then (first_empty slots).map (fun k => k + i) else empty := by
  induction slots generalizing i empty with
  | nil =>
    simp only [create_scan, Option.some.injEq, scan_result.missing.injEq] at h
    subst h
    cases empty <;> simp [first_empty]
  | cons x rest ih =>
    cases x with
    | none =>
      simp only [create_scan] at h
      have := ih _ _ h
      cases empty with
      | none => simpa [first_empty] using this
      | some v => simpa using this
    | some q =>
      simp only [create_scan] at h
      cases hd : deref heap q with
      | none => simp [hd] at h
      | some r =>
        simp only [hd] at h
        split at h
        · simp at h
        · have := ih _ _ h
          cases empty with
          | none =>
            simp only [↓reduceIte] at this
            simp only [first_empty, ↓reduceIte, Option.map_map, this]
            congr 1
            funext k
            simp only [Function.comp]
            omega
          | some v => simpa using this

theorem create_scan_find_scan (heap : List (Option mominfo_t)) (hostname : List Char)
    (port : Nat) (slots : List (Option Ptr)) (i : Nat) (empty : Option Nat) :
    (create_scan heap hostname port slots i empty).map scan_result.ptr
      = find_scan heap hostname port slots := by
  induction slots generalizing i empty with
  | nil => simp [create_scan, find_scan, scan_result.ptr]
  | cons x rest ih =>
    cases x with
    | none => simp only [create_scan, find_scan]; exact ih _ _
    | some q =>
      simp only [create_scan, find_scan]
      cases hd : deref heap q with
      | none => simp
      | some r =>
        simp only
        split
        · simp [scan_result.ptr]
        · exact ih _ _

theorem find_scan_total (heap : List (Option mominfo_t)) (hostname : List Char)
    (port : Nat) (slots : List (Option Ptr))
    (hl : ∀ q : Ptr, some q ∈ slots → (deref heap q).isSome = true) :
    (find_scan heap hostname port slots).isSome = true := by
  induction slots with
  | nil => simp [find_scan]
  | cons x rest ih =>
    have hrest : ∀ q : Ptr, some q ∈ rest → (deref heap q).isSome = true :=
      fun q hq => hl q (List.mem_cons_of_mem _ hq)
    cases x with
    | none => simpa [find_scan] using ih hrest
    | some q =>
      have hq := hl q (List.mem_cons_self _ _)
      obtain ⟨r, hr⟩ := Option.isSome_iff_exists.1 hq
      simp only [find_scan, hr]
      split
      · simp
      · exact ih hrest

theorem find_scan_some (heap : List (Option mominfo_t)) (hostname : List Char)
    (port : Nat) (slots : List (Option Ptr)) (q : Ptr)
    (h : find_scan heap hostname port slots = some (some q)) :
    some q ∈ slots ∧ ∃ r, deref heap q = some r ∧ strcasecmp r.mi_host hostname = 0
      ∧ r.mi_port = port := by
  induction slots with
  | nil => simp [find_scan] at h
  | cons x rest ih =>
    cases x with
    | none =>
      simp only [find_scan] at h
      obtain ⟨h1, h2⟩ := ih h
      exact ⟨List.mem_cons_of_mem _ h1, h2⟩
    | some q' =>
      simp only [find_scan] at h
      cases hd : deref heap q' with
      | none => simp [hd] at h
      | some r =>
        simp only [hd] at h
        split at h
        · rename_i hm
          simp only [Option.some.injEq] at h
          subst h
          exact ⟨List.mem_cons_self _ _, r, hd, hm.1, hm.2⟩
        · obtain ⟨h1, h2⟩ := ih h
          exact ⟨List.mem_cons_of_mem _ h1, h2⟩

theorem find_scan_none (heap : List (Option mominfo_t)) (hostname : List Char)
    (port : Nat) (slots : List (Option Ptr))
    (h : find_scan heap hostname port slots = some none) :
    ∀ (q : Ptr) (r : mominfo_t), some q ∈ slots → deref heap q = some r →
      ¬ (strcasecmp r.mi_host hostname = 0 ∧ r.mi_port = port) := by
  induction slots with
  | nil => simp
  | cons x rest ih =>
    cases x with
    | none =>
      simp only [find_scan] at h
      intro q r hq hr
      simp only [List.mem_cons, reduceCtorEq, false_or] at hq
      exact ih h q r hq hr
    | some q' =>
      simp only [find_scan] at h
      cases hd : deref heap q' with
      | none => simp [hd] at h
      | some r' =>
        simp only [hd] at h
        split at h
        · simp at h
        · rename_i hm
          intro q r hq hr
          simp only [List.mem_cons, Option.some.injEq] at hq
          rcases hq with rfl | hq
          · rw [hd] at hr
            cases hr
            exact hm
          · exact ih h q r hq hr

theorem find_scan_congr (heap heap1 : List (Option mominfo_t)) (hostname : List Char)
    (port : Nat) (slots : List (Option Ptr))
    (hc : ∀ q : Ptr, some q ∈ slots → deref heap1 q = deref heap q) :
    find_scan heap1 hostname port slots = find_scan heap hostname port slots := by
  induction slots with
  | nil => rfl
  | cons x rest ih =>
    have hrest : ∀ q : Ptr, some q ∈ rest → deref heap1 q = deref heap q :=
      fun q hq => hc q (List.mem_cons_of_mem _ hq)
    cases x with
    | none => simpa [find_scan] using ih hrest
    | some q =>
      simp only [find_scan, hc q (List.mem_cons_self _ _), ih hrest]

theorem find_scan_append_none (heap : List (Option mominfo_t)) (hostname : List Char)
    (port : Nat) (slots : List (Option Ptr)) (n : Nat) :
    find_scan heap hostname port (slots ++ List.replicate n none)
      = find_scan heap hostname port slots := by
  induction slots with
  | nil =>
    induction n with
    | zero => rfl
    | succ n ih => simpa [List.replicate_succ, find_scan] using ih
  | cons x rest ih =>
    cases x with
    | none => simpa [find_scan] using ih
    | some q => simp only [List.cons_append, find_scan, List.append_eq, ih]

theorem first_empty_eq_some {slots : List (Option Ptr)} {e : Nat}
    (h1 : slots[e]? = some none) (h2 : ∀ j, j < e → slots[j]? ≠ some none) :
    first_empty slots = some e := by
  induction slots generalizing e with
  | nil => simp at h1
  | cons x rest ih =>
    cases x with
    | none =>
      cases e with
      | zero => rfl
      | succ e => exact absurd (by simp) (h2 0 (by omega))
    | some q =>
      cases e with
      | zero => simp at h1
      | succ e =>
        have h1' : rest[e]? = some none := by simpa using h1
        have h2' : ∀ j, j < e → rest[j]? ≠ some none := by
          intro j hj
          simpa using h2 (j + 1) (by omega)
        simp [first_empty, ih h1' h2']

theorem first_empty_eq_none {slots : List (Option Ptr)} (h : ∀ x ∈ slots, x ≠ none) :
    first_empty slots = none := by
  cases hf : first_empty slots with
  | none => rfl
  | some k =>
    have h1 := (first_empty_some hf).1
    exact absurd rfl (h none (List.getElem?_mem h1))

theorem create_mom_entry_eq (K : Consts) (hostname : List Char) (port : Nat)
    (realloc_ok malloc_ok : Bool) (pending : Option (List (Option Nat))) (s : Server) :
    create_mom_entry K hostname port realloc_ok malloc_ok pending s =
      match find_mom_entry hostname port s with
      | none => none
      | some (some pmom) => some (some pmom, s)
      | some none =>
        match place_slot realloc_ok s.mominfo_array with
        | none => some (none, s)
        | some (e, arr) =>
          if malloc_ok then
            some (some s.heap.length,
              { s with
                heap := s.heap ++ [some (new_mominfo K hostname port pending)]
                mominfo_array := arr.set e (some s.heap.length)
                svr_num_moms := s.svr_num_moms + 1 })
          else some (none, { s with mominfo_array := arr }) := by
  have hfs := create_scan_find_scan s.heap hostname port s.mominfo_array 0 none
  unfold create_mom_entry find_mom_entry
  cases hc : create_scan s.heap hostname port s.mominfo_array 0 none with
  | none =>
    rw [hc] at hfs
    simp only [Option.map_none'] at hfs
    simp [← hfs]
  | some res =>
    rw [hc] at hfs
    cases res with
    | found q =>
      simp only [Option.map_some', scan_result.ptr] at hfs
      simp [← hfs]
    | missing e =>
      simp only [Option.map_some', scan_result.ptr] at hfs
      have he := create_scan_missing_empty _ _ _ _ _ _ _ hc
      simp only [↓reduceIte, Nat.add_zero, Option.map_id'] at he
      simp only [← hfs, place_slot]
      subst he
      cases hf : first_empty s.mominfo_array with
      | none => rfl
      | some k => rfl

theorem deref_lt {heap : List (Option mominfo_t)} {q : Ptr}
    (h : (deref heap q).isSome = true) : q < heap.length := by
  by_contra hn
  have : heap[q]? = none := List.getElem?_eq_none (Nat.le_of_not_lt hn)
  simp [deref, this] at h

theorem deref_append (heap : List (Option mominfo_t)) (x : Option mominfo_t) (q : Ptr)
    (h : q < heap.length) : deref (heap ++ [x]) q = deref heap q := by
  simp [deref, List.getElem?_append_left h]

theorem deref_append_new (heap : List (Option mominfo_t)) (x : Option mominfo_t) :
    deref (heap ++ [x]) heap.length = x := by
  simp [deref]

theorem find_scan_live (heap : List (Option mominfo_t)) (hostname : List Char)
    (port : Nat) (slots : List (Option Ptr))
    (h : find_scan heap hostname port slots = some none) :
    ∀ q : Ptr, some q ∈ slots → (deref heap q).isSome = true := by
  induction slots with
  | nil => simp
  | cons x rest ih =>
    cases x with
    | none =>
      simp only [find_scan] at h
      intro q hq
      simp only [List.mem_cons, reduceCtorEq, false_or] at hq
      exact ih h q hq
    | some q' =>
      simp only [find_scan] at h
      cases hd : deref heap q' with
      | none => simp [hd] at h
      | some r' =>
        simp only [hd] at h
        split at h
        · simp at h
        · intro q hq
          simp only [List.mem_cons, Option.some.injEq] at hq
          rcases hq with rfl | hq
          · simp [hd]
          · exact ih h q hq

theorem find_scan_set (heap : List (Option mominfo_t)) (hostname : List Char)
    (port : Nat) (slots : List (Option Ptr)) (e : Nat) (pn : Ptr) (n : mominfo_t)
    (he : e < slots.length) (hnone : find_scan heap hostname port slots = some none)
    (hn : deref heap pn = some n) (hm : strcasecmp n.mi_host hostname = 0 ∧ n.mi_port = port) :
    find_scan heap hostname port (slots.set e (some pn)) = some (some pn) := by
  induction slots generalizing e with
  | nil => simp at he
  | cons x rest ih =>
    cases e with
    | zero => simp [find_scan, hn, hm]
    | succ e =>
      have he' : e < rest.length := by simpa using he
      cases x with
      | none =>
        simp only [find_scan] at hnone
        simpa [find_scan] using ih e he' hnone
      | some q =>
        simp only [find_scan] at hnone
        cases hd : deref heap q with
        | none => simp [hd] at hnone
        | some r =>
          simp only [hd] at hnone
          split at hnone
          · simp at hnone
          · rename_i hnm
            simp only [List.set_cons_succ, find_scan, hd, hnm, ↓reduceIte]
            exact ih e he' hnone

theorem find_scan_append_found (heap : List (Option mominfo_t)) (hostname : List Char)
    (port : Nat) (slots more : List (Option Ptr)) (q : Ptr)
    (h : find_scan heap hostname port slots = some (some q)) :
    find_scan heap hostname port (slots ++ more) = some (some q) := by
  induction slots with
  | nil => simp [find_scan] at h
  | cons x rest ih =>
    cases x with
    | none =>
      simp only [find_scan] at h
      simpa [find_scan] using ih h
    | some q' =>
      simp only [find_scan] at h
      cases hd : deref heap q' with
      | none => simp [hd] at h
      | some r =>
        simp only [hd] at h
        simp only [List.cons_append, find_scan, hd]
        split
        · rename_i hm
          simpa [hm] using h
        · rename_i hm
          simp only [hm, ↓reduceIte] at h
          exact ih h

theorem first_empty_lt {slots : List (Option Ptr)} {e : Nat} (h : first_empty slots = some e) :
    e < slots.length := by
  have := (first_empty_some h).1
  exact (List.getElem?_eq_some.1 this).1

theorem place_slot_lt {realloc_ok : Bool} {arr arr1 : List (Option Ptr)} {e : Nat}
    (h : place_slot realloc_ok arr = some (e, arr1)) : e < arr1.length := by
  unfold place_slot at h
  cases hf : first_empty arr with
  | some k =>
    simp only [hf, Option.some.injEq, Prod.mk.injEq] at h
    obtain ⟨rfl, rfl⟩ := h
    exact first_empty_lt hf
  | none =>
    simp only [hf] at h
    split at h
    · simp only [Option.some.injEq, Prod.mk.injEq] at h
      obtain ⟨rfl, rfl⟩ := h
      simp [GROW_MOMINFO_ARRAY_AMT]
    · simp at h

theorem place_slot_find (heap : List (Option mominfo_t)) (hostname : List Char) (port : Nat)
    {realloc_ok : Bool} {arr arr1 : List (Option Ptr)} {e : Nat}
    (h : place_slot realloc_ok arr = some (e, arr1)) :
    find_scan heap hostname port arr1 = find_scan heap hostname port arr := by
  unfold place_slot at h
  cases hf : first_empty arr with
  | some k =>
    simp only [hf, Option.some.injEq, Prod.mk.injEq] at h
    rw [← h.2]
  | none =>
    simp only [hf] at h
    split at h
    · simp only [Option.some.injEq, Prod.mk.injEq] at h
      rw [← h.2]
      exact find_scan_append_none _ _ _ _ _
    · simp at h

theorem place_slot_mem {realloc_ok : Bool} {arr arr1 : List (Option Ptr)} {e : Nat}
    (h : place_slot realloc_ok arr = some (e, arr1)) (q : Ptr) :
    some q ∈ arr1 ↔ some q ∈ arr := by
  unfold place_slot at h
  cases hf : first_empty arr with
  | some k =>
    simp only [hf, Option.some.injEq, Prod.mk.injEq] at h
    rw [← h.2]
  | none =>
    simp only [hf] at h
    split at h
    · simp only [Option.some.injEq, Prod.mk.injEq] at h
      rw [← h.2]
      simp [List.mem_replicate]
    · simp at h

theorem strncpy_fits (hostname : List Char) (n : Nat) (h : hostname.length ≤ n) :
    strncpy hostname n = hostname := by
  simp [strncpy, List.take_of_length_le h]

/-- Second call of `create_mom_entry` with the same host and port, after a
first call that returned a record. -/
theorem create_mom_entry_again (K : Consts) (hostname : List Char) (port : Nat)
    (hlen : hostname.length ≤ K.PBS_MAXHOSTNAME)
    (realloc_ok malloc_ok : Bool) (pending : Option (List (Option Nat))) (s s1 : Server)
    (r : Ptr)
    (h1 : create_mom_entry K hostname port realloc_ok malloc_ok pending s = some (some r, s1)) :
    find_mom_entry hostname port s1 = some (some r) := by
  rw [create_mom_entry_eq] at h1
  cases hf : find_mom_entry hostname port s with
  | none => simp [hf] at h1
  | some res =>
    cases res with
    | some q =>
      simp only [hf, Option.some.injEq, Prod.mk.injEq] at h1
      obtain ⟨rfl, rfl⟩ := h1
      exact hf
    | none =>
      simp only [hf] at h1
      cases hp : place_slot realloc_ok s.mominfo_array with
      | none => simp [hp] at h1
      | some ea =>
        obtain ⟨e, arr⟩ := ea
        simp only [hp] at h1
        cases malloc_ok with
        | false => simp at h1
        | true =>
          simp only [↓reduceIte, Option.some.injEq, Prod.mk.injEq] at h1
          obtain ⟨rfl, rfl⟩ := h1
          have hlive := find_scan_live _ _ _ _ hf
          have hfa : find_scan s.heap hostname port arr = some none := by
            rw [place_slot_find s.heap hostname port hp]; exact hf
          have hcongr : find_scan (s.heap ++ [some (new_mominfo K hostname port pending)])
              hostname port arr = some none := by
            rw [find_scan_congr _ _ _ _ _ _]
            · exact hfa
            · intro q hq
              exact deref_append _ _ _ (deref_lt (hlive q ((place_slot_mem hp q).1 hq)))
          simp only [find_mom_entry]
          refine find_scan_set _ _ _ _ _ _ (new_mominfo K hostname port pending)
            (place_slot_lt hp) hcongr (deref_append_new _ _) ?_
          simp [new_mominfo, strncpy_fits _ _ hlen, strcasecmp_self]

theorem find_scan_exists (heap : List (Option mominfo_t)) (hostname : List Char)
    (port : Nat) (slots : List (Option Ptr)) (q : Ptr) (r : mominfo_t)
    (hl : ∀ q : Ptr, some q ∈ slots → (deref heap q).isSome = true)
    (hq : some q ∈ slots) (hr : deref heap q = some r)
    (hm : strcasecmp r.mi_host hostname = 0 ∧ r.mi_port = port) :
    ∃ q0, find_scan heap hostname port slots = some (some q0) := by
  obtain ⟨x, hx⟩ := Option.isSome_iff_exists.1 (find_scan_total heap hostname port slots hl)
  cases x with
  | none => exact absurd hm (find_scan_none _ _ _ _ hx q r hq hr)
  | some q0 => exact ⟨q0, hx⟩

theorem null_slot_eq_set (r : Ptr) (arr : List (Option Ptr)) (i : Nat)
    (h1 : arr[i]? = some (some r)) (h2 : ∀ j, j < i → arr[j]? ≠ some (some r)) :
    null_slot r arr = arr.set i none := by
  induction arr generalizing i with
  | nil => simp at h1
  | cons x rest ih =>
    cases i with
    | zero =>
      simp only [List.getElem?_cons_zero, Option.some.injEq] at h1
      simp [null_slot, h1]
    | succ i =>
      have hx : x ≠ some r := by
        have := h2 0 (by omega)
        simpa using this
      have h1' : rest[i]? = some (some r) := by simpa using h1
      have h2' : ∀ j, j < i → rest[j]? ≠ some (some r) := by
        intro j hj
        simpa using h2 (j + 1) (by omega)
      simp [null_slot, hx, ih i h1' h2']

/-! ## The registry invariant -/

theorem deref_set_ne (heap : List (Option mominfo_t)) (p q : Ptr) (x : Option mominfo_t)
    (h : q ≠ p) : deref (heap.set p x) q = deref heap q := by
  simp [deref, List.getElem?_set_ne (Ne.symm h)]

theorem place_slot_get {realloc_ok : Bool} {arr arr1 : List (Option Ptr)} {e : Nat}
    (h : place_slot realloc_ok arr = some (e, arr1)) :
    arr1[e]? = some none ∧ ∀ (i : Nat) (q : Ptr), arr1[i]? = some (some q) →
      arr[i]? = some (some q) := by
  unfold place_slot at h
  cases hf : first_empty arr with
  | some k =>
    simp only [hf, Option.some.injEq, Prod.mk.injEq] at h
    obtain ⟨rfl, rfl⟩ := h
    exact ⟨(first_empty_some hf).1, fun i q hi => hi⟩
  | none =>
    simp only [hf] at h
    split at h
    · simp only [Option.some.injEq, Prod.mk.injEq] at h
      obtain ⟨rfl, rfl⟩ := h
      refine ⟨by
        rw [List.getElem?_append_right (Nat.le_refl _)]
        simp [GROW_MOMINFO_ARRAY_AMT], ?_⟩
      intro i q hi
      by_cases hlt : i < arr.length
      · rwa [List.getElem?_append_left hlt] at hi
      · rw [List.getElem?_append_right (Nat.le_of_not_lt hlt), List.getElem?_replicate] at hi
        split at hi <;> simp at hi
    · simp at h

theorem null_slot_get (p : Ptr) (arr : List (Option Ptr)) (j : Nat) (q : Ptr)
    (h : (null_slot p arr)[j]? = some (some q)) : arr[j]? = some (some q) := by
  induction arr generalizing j with
  | nil => simp [null_slot] at h
  | cons x rest ih =>
    simp only [null_slot] at h
    split at h
    · cases j with
      | zero => simp at h
      | succ j => simpa using h
    · cases j with
      | zero => simpa using h
      | succ j =>
        simp only [List.getElem?_cons_succ] at h ⊢
        exact ih j h

theorem null_slot_not_mem (p : Ptr) (arr : List (Option Ptr))
    (hu : ∀ i j : Nat, arr[i]? = some (some p) → arr[j]? = some (some p) → i = j)
    (j : Nat) : (null_slot p arr)[j]? ≠ some (some p) := by
  induction arr generalizing j with
  | nil => simp [null_slot]
  | cons x rest ih =>
    simp only [null_slot]
    split
    · rename_i hx
      cases j with
      | zero => simp
      | succ j =>
        simp only [List.getElem?_cons_succ]
        intro hj
        have := hu 0 (j + 1) (by simp [hx]) (by simpa using hj)
        omega
    · rename_i hx
      cases j with
      | zero => simpa using hx
      | succ j =>
        simp only [List.getElem?_cons_succ]
        refine ih ?_ j
        intro a b ha hb
        have := hu (a + 1) (b + 1) (by simpa using ha) (by simpa using hb)
        omega

theorem registry_inv_init : registry_inv Server.init := by
  constructor
  · intro p hp
    simp [Server.init] at hp
  · intro i j p q ri rj hi
    simp [Server.init] at hi

theorem registry_inv_create (K : Consts) (hostname : List Char) (port : Nat)
    (hlen : hostname.length ≤ K.PBS_MAXHOSTNAME)
    (realloc_ok malloc_ok : Bool) (pending : Option (List (Option Nat))) (s s1 : Server)
    (r : Option Ptr) (hinv : registry_inv s)
    (hc : create_mom_entry K hostname port realloc_ok malloc_ok pending s = some (r, s1)) :
    registry_inv s1 := by
  obtain ⟨hlive, huniq⟩ := hinv
  rw [create_mom_entry_eq] at hc
  cases hf : find_mom_entry hostname port s with
  | none => simp [hf] at hc
  | some res =>
    cases res with
    | some q =>
      simp only [hf, Option.some.injEq, Prod.mk.injEq] at hc
      rw [← hc.2]
      exact ⟨hlive, huniq⟩
    | none =>
      simp only [hf] at hc
      cases hp : place_slot realloc_ok s.mominfo_array with
      | none =>
        simp only [hp, Option.some.injEq, Prod.mk.injEq] at hc
        rw [← hc.2]
        exact ⟨hlive, huniq⟩
      | some ea =>
        obtain ⟨e, arr⟩ := ea
        obtain ⟨he, hget⟩ := place_slot_get hp
        simp only [hp] at hc
        cases malloc_ok with
        | false =>
          simp only [Bool.false_eq_true, ↓reduceIte, Option.some.injEq, Prod.mk.injEq] at hc
          obtain ⟨-, rfl⟩ := hc
          constructor
          · intro p hp'
            exact hlive p ((place_slot_mem hp p).1 hp')
          · intro i j p q ri rj hi hj hri hrj hh hpt
            exact huniq i j p q ri rj (hget i p hi) (hget j q hj) hri hrj hh hpt
        | true =>
          simp only [↓reduceIte, Option.some.injEq, Prod.mk.injEq] at hc
          obtain ⟨-, rfl⟩ := hc
          have hnomatch := find_scan_none _ _ _ _ hf
          have hnew : deref (s.heap ++ [some (new_mominfo K hostname port pending)])
              s.heap.length = some (new_mominfo K hostname port pending) :=
            deref_append_new _ _
          have hold : ∀ (i : Nat) (p : Ptr),
              (arr.set e (some s.heap.length))[i]? = some (some p) → i ≠ e →
              s.mominfo_array[i]? = some (some p) ∧
              deref (s.heap ++ [some (new_mominfo K hostname port pending)]) p
                = deref s.heap p := by
            intro i p hi hne
            rw [List.getElem?_set_ne (Ne.symm hne)] at hi
            have h0 := hget i p hi
            exact ⟨h0, deref_append _ _ _ (deref_lt (hlive p (List.getElem?_mem h0)))⟩
          have hat : ∀ (p : Ptr), (arr.set e (some s.heap.length))[e]? = some (some p) →
              p = s.heap.length := by
            intro p hi
            have hlt : e < arr.length := (List.getElem?_eq_some.1 he).1
            simpa [List.getElem?_set_eq_of_lt _ hlt] using hi.symm
          have hclash : ∀ (j : Nat) (q : Ptr) (rj : mominfo_t),
              s.mominfo_array[j]? = some (some q) → deref s.heap q = some rj →
              rj.mi_host = (new_mominfo K hostname port pending).mi_host →
              rj.mi_port = (new_mominfo K hostname port pending).mi_port → False := by
            intro j q rj hj hrj hh hpt
            refine hnomatch q rj (List.getElem?_mem hj) hrj ⟨?_, ?_⟩
            · rw [hh]
              simp [new_mominfo, strncpy_fits _ _ hlen, strcasecmp_self]
            · simpa [new_mominfo] using hpt
          constructor
          · intro p hp'
            simp only at hp' ⊢
            obtain ⟨i, hi⟩ := List.mem_iff_getElem?.1 hp'
            by_cases hie : i = e
            · subst hie
              rw [hat p hi, hnew]
              rfl
            · obtain ⟨h0, h1⟩ := hold i p hi hie
              rw [h1]
              exact hlive p (List.getElem?_mem h0)
          · intro i j p q ri rj hi hj hri hrj hh hpt
            simp only at hi hj hri hrj
            by_cases hie : i = e
            · by_cases hje : j = e
              · rw [hie, hje]
              · exfalso
                subst hie
                obtain ⟨h0, h1⟩ := hold j q hj hje
                rw [hat p hi, hnew] at hri
                cases hri
                rw [h1] at hrj
                exact hclash j q rj h0 hrj hh.symm hpt.symm
            · by_cases hje : j = e
              · exfalso
                subst hje
                obtain ⟨h0, h1⟩ := hold i p hi hie
                rw [hat q hj, hnew] at hrj
                cases hrj
                rw [h1] at hri
                exact hclash i p ri h0 hri hh hpt
              · obtain ⟨h0, h1⟩ := hold i p hi hie
                obtain ⟨h2, h3⟩ := hold j q hj hje
                rw [h1] at hri
                rw [h3] at hrj
                exact huniq i j p q ri rj h0 h2 hri hrj hh hpt

theorem registry_inv_delete (pmom : Option Ptr) (s s1 : Server) (hinv : registry_inv s)
    (hd : delete_mom_entry pmom s = some s1) : registry_inv s1 := by
  obtain ⟨hlive, huniq⟩ := hinv
  cases pmom with
  | none =>
    simp only [delete_mom_entry, Option.some.injEq] at hd
    rw [← hd]
    exact ⟨hlive, huniq⟩
  | some p =>
    simp only [delete_mom_entry] at hd
    cases hp : deref s.heap p with
    | none => simp [hp] at hd
    | some rp =>
      simp only [hp, Option.some.injEq] at hd
      subst hd
      have hptr : ∀ i j : Nat, s.mominfo_array[i]? = some (some p) →
          s.mominfo_array[j]? = some (some p) → i = j :=
        fun i j hi hj => huniq i j p p rp rp hi hj hp hp rfl rfl
      have hold : ∀ (i : Nat) (q : Ptr), (null_slot p s.mominfo_array)[i]? = some (some q) →
          s.mominfo_array[i]? = some (some q) ∧ deref (s.heap.set p none) q = deref s.heap q := by
        intro i q hi
        refine ⟨null_slot_get p _ i q hi, deref_set_ne _ _ _ _ ?_⟩
        rintro rfl
        exact null_slot_not_mem q _ hptr i hi
      constructor
      · intro q hq
        simp only at hq ⊢
        obtain ⟨i, hi⟩ := List.mem_iff_getElem?.1 hq
        obtain ⟨h0, h1⟩ := hold i q hi
        rw [h1]
        exact hlive q (List.getElem?_mem h0)
      · intro i j a b ri rj hi hj hri hrj hh hpt
        simp only at hi hj hri hrj
        obtain ⟨h0, h1⟩ := hold i a hi
        obtain ⟨h2, h3⟩ := hold j b hj
        rw [h1] at hri
        rw [h3] at hrj
        exact huniq i j a b ri rj h0 h2 hri hrj hh hpt

theorem registry_inv_run (K : Consts) (calls : List mom_call) (s s1 : Server)
    (hfits : ∀ c ∈ calls, mom_call.fits K c) (hinv : registry_inv s)
    (hrun : run_calls K calls s = some s1) : registry_inv s1 := by
  induction calls generalizing s with
  | nil =>
    simp only [run_calls, Option.some.injEq] at hrun
    rw [← hrun]
    exact hinv
  | cons c cs ih =>
    simp only [run_calls] at hrun
    cases hc : run_call K c s with
    | none => simp [hc] at hrun
    | some s2 =>
      simp only [hc] at hrun
      refine ih s2 (fun c' hc' => hfits c' (List.mem_cons_of_mem _ hc')) ?_ hrun
      have hfit := hfits c (List.mem_cons_self _ _)
      cases c with
      | create hostname port realloc_ok malloc_ok pending =>
        simp only [run_call, Option.map_eq_some'] at hc
        obtain ⟨⟨r, s3⟩, hcr, rfl⟩ := hc
        exact registry_inv_create K hostname port hfit realloc_ok malloc_ok pending s s3 r
          hinv hcr
      | delete pmom => exact registry_inv_delete pmom s s2 hinv hc

/-! ## Lemmas on the reverse index -/

theorem tfind2_tdelete2_same (key1 key2 : Nat) (t : tree) :
    tfind2 key1 key2 (tdelete2 key1 key2 t) = none := by
  simp only [tfind2, tdelete2, Option.map_eq_none', List.find?_eq_none]
  intro x hx
  have := (List.mem_filter.1 hx).2
  simp only [Bool.not_eq_true', Bool.and_eq_false_imp, beq_iff_eq, beq_eq_false_iff_ne] at this
  simp only [Bool.and_eq_true, beq_iff_eq, not_and]
  exact this

theorem find?_filter_of_imp {α : Type} (p q : α → Bool) (l : List α)
    (h : ∀ x, p x = true → q x = true) : (l.filter q).find? p = l.find? p := by
  induction l with
  | nil => rfl
  | cons x rest ih =>
    by_cases hq : q x = true
    · rw [List.filter_cons_of_pos hq]
      by_cases hp : p x = true
      · rw [List.find?_cons_of_pos _ hp, List.find?_cons_of_pos _ hp]
      · rw [List.find?_cons_of_neg _ hp, List.find?_cons_of_neg _ hp, ih]
    · rw [List.filter_cons_of_neg hq, List.find?_cons_of_neg _ (fun hp => hq (h x hp)), ih]

theorem tfind2_tdelete2_ne (a b key1 key2 : Nat) (t : tree) (hne : ¬ (key1 = a ∧ key2 = b)) :
    tfind2 a b (tdelete2 key1 key2 t) = tfind2 a b t := by
  simp only [tfind2, tdelete2]
  rw [find?_filter_of_imp]
  intro x hx
  simp only [Bool.and_eq_true, beq_iff_eq] at hx
  simp only [Bool.not_eq_true', Bool.and_eq_false_imp, beq_iff_eq, beq_eq_false_iff_ne]
  intro h1 h2
  exact hne ⟨h1.symm.trans hx.1, h2.symm.trans hx.2⟩

theorem tfind2_tdelete2_none (a b key1 key2 : Nat) (t : tree)
    (h : tfind2 a b t = none) : tfind2 a b (tdelete2 key1 key2 t) = none := by
  simp only [tfind2, tdelete2, Option.map_eq_none', List.find?_eq_none] at h ⊢
  intro x hx
  exact h x (List.mem_filter.1 hx).1

theorem tfind2_tinsert2_same (key1 key2 : Nat) (momp : Ptr) (t : tree) :
    tfind2 key1 key2 (tinsert2 key1 key2 momp t) = some momp := by
  simp [tfind2, tinsert2]

theorem tfind2_tinsert2_keep (a b key1 : Nat) (momp : Ptr) (t : tree)
    (h : tfind2 a b t = some momp) : tfind2 a b (tinsert2 key1 b momp t) = some momp := by
  by_cases hk : key1 = a
  · subst hk
    exact tfind2_tinsert2_same _ _ _ _
  · have h1 := tfind2_tdelete2_ne a b key1 b t (fun hh => hk hh.1)
    simp only [tfind2, tinsert2] at h h1 ⊢
    rw [List.find?_cons_of_neg _ (by simp [hk]), h1]
    exact h

theorem tfind2_delete_addrs_none (a b port : Nat) (addrs : List Nat) (t : tree)
    (h : tfind2 a b t = none) : tfind2 a b (delete_addrs port addrs t) = none := by
  induction addrs generalizing t with
  | nil => exact h
  | cons x rest ih =>
    simp only [delete_addrs, List.foldl_cons]
    exact ih _ (tfind2_tdelete2_none _ _ _ _ _ h)

theorem tfind2_delete_addrs (a port : Nat) (addrs : List Nat) (t : tree)
    (ha : a ∈ addrs) : tfind2 a port (delete_addrs port addrs t) = none := by
  induction addrs generalizing t with
  | nil => simp at ha
  | cons x rest ih =>
    simp only [delete_addrs, List.foldl_cons]
    rcases List.mem_cons.1 ha with rfl | hr
    · exact tfind2_delete_addrs_none _ _ _ _ _ (tfind2_tdelete2_same _ _ _)
    · exact ih _ hr

theorem tfind2_insert_addrs_keep (a port : Nat) (pmom : Ptr) (addrs : List Nat) (t : tree)
    (h : tfind2 a port t = some pmom) :
    tfind2 a port (insert_addrs port pmom addrs t) = some pmom := by
  induction addrs generalizing t with
  | nil => exact h
  | cons x rest ih =>
    simp only [insert_addrs, List.foldl_cons]
    exact ih _ (tfind2_tinsert2_keep _ _ _ _ _ h)

theorem tfind2_insert_addrs (a port : Nat) (pmom : Ptr) (addrs : List Nat) (t : tree)
    (ha : a ∈ addrs) : tfind2 a port (insert_addrs port pmom addrs t) = some pmom := by
  induction addrs generalizing t with
  | nil => simp at ha
  | cons x rest ih =>
    simp only [insert_addrs, List.foldl_cons]
    rcases List.mem_cons.1 ha with rfl | hr
    · exact tfind2_insert_addrs_keep _ _ _ _ _ (tfind2_tinsert2_same _ _ _ _)
    · exact ih _ hr

/-! ## Lemmas on `create_svrmom_entry` and `delete_svrmom_entry` -/

theorem deref_length (heap : List (Option mominfo_t)) : deref heap heap.length = none := by
  simp [deref]

theorem deref_set_same (heap : List (Option mominfo_t)) (p : Ptr) (x : Option mominfo_t)
    (h : p < heap.length) : deref (heap.set p x) p = x := by
  simp [deref, List.getElem?_set_eq_of_lt _ h]

theorem create_mom_entry_record (K : Consts) (hostname : List Char) (port : Nat)
    (realloc_ok malloc_ok : Bool) (pending : Option (List (Option Nat))) (s s1 : Server)
    (q : Ptr)
    (hc : create_mom_entry K hostname port realloc_ok malloc_ok pending s = some (some q, s1)) :
    ∃ r, deref s1.heap q = some r ∧ r.mi_port = port ∧
      (deref s.heap q = some r ∨ (deref s.heap q = none ∧ r.mi_data = none)) := by
  rw [create_mom_entry_eq] at hc
  cases hf : find_mom_entry hostname port s with
  | none => simp [hf] at hc
  | some res =>
    cases res with
    | some q0 =>
      simp only [hf, Option.some.injEq, Prod.mk.injEq] at hc
      obtain ⟨rfl, rfl⟩ := hc
      obtain ⟨-, r, hr, -, hp⟩ := find_scan_some _ _ _ _ _ hf
      exact ⟨r, hr, hp, Or.inl hr⟩
    | none =>
      simp only [hf] at hc
      cases hp : place_slot realloc_ok s.mominfo_array with
      | none => simp [hp] at hc
      | some ea =>
        obtain ⟨e, arr⟩ := ea
        simp only [hp] at hc
        cases malloc_ok with
        | false => simp at hc
        | true =>
          simp only [↓reduceIte, Option.some.injEq, Prod.mk.injEq] at hc
          obtain ⟨rfl, rfl⟩ := hc
          exact ⟨new_mominfo K hostname port pending, deref_append_new _ _, rfl,
            Or.inr ⟨deref_length _, rfl⟩⟩

theorem create_svrmom_entry_success (K : Consts) (hostname : List Char) (port : Nat)
    (pul : ulbuf) (realloc_ok malloc_ok : Bool) (pending : Option (List (Option Nat)))
    (svrinfo_ok children_ok : Bool) (s s2 : Server) (pmom : Ptr)
    (hc : create_svrmom_entry K hostname port pul realloc_ok malloc_ok pending svrinfo_ok
      children_ok s = some (some pmom, s2))
    (hnodata : ∀ r, deref s.heap pmom = some r → r.mi_data = none) :
    ∃ (s1 : Server) (r : mominfo_t),
      create_mom_entry K hostname port realloc_ok malloc_ok pending s = some (some pmom, s1) ∧
      deref s1.heap pmom = some r ∧ r.mi_data = none ∧ r.mi_port = port ∧
      s2 = { s1 with
        heap := s1.heap.set pmom (some { r with mi_data := some (new_svrinfo K pul) })
        ipaddrs := insert_addrs port pmom (addr_list pul.words) s1.ipaddrs } := by
  unfold create_svrmom_entry at hc
  cases hcm : create_mom_entry K hostname port realloc_ok malloc_ok pending s with
  | none => simp [hcm] at hc
  | some res =>
    obtain ⟨q, s1⟩ := res
    cases q with
    | none => simp [hcm] at hc
    | some q =>
      obtain ⟨r, hr, hport, hold⟩ := create_mom_entry_record _ _ _ _ _ _ _ _ _ hcm
      simp only [hcm, hr] at hc
      have hdata_of : q = pmom → r.mi_data = none := by
        rintro rfl
        rcases hold with h | h
        · exact hnodata r h
        · exact h.2
      by_cases hd : r.mi_data.isSome = true
      · simp only [hd, ↓reduceIte, Option.some.injEq, Prod.mk.injEq] at hc
        have := hdata_of hc.1
        simp [this] at hd
      · simp only [hd, Bool.false_eq_true, ↓reduceIte] at hc
        cases svrinfo_ok with
        | false =>
          simp only [Bool.not_false, ↓reduceIte, Option.map_eq_some'] at hc
          obtain ⟨_, _, h⟩ := hc
          simp at h
        | true =>
          cases children_ok with
          | false =>
            simp only [Bool.not_true, Bool.false_eq_true, ↓reduceIte, Bool.not_false,
              Option.map_eq_some'] at hc
            obtain ⟨_, _, h⟩ := hc
            simp at h
          | true =>
            simp only [Bool.not_true, Bool.false_eq_true, ↓reduceIte, Option.some.injEq,
              Prod.mk.injEq] at hc
            obtain ⟨rfl, rfl⟩ := hc
            exact ⟨s1, r, rfl, hr, hdata_of rfl, hport, rfl⟩

theorem remove_mom_ipaddresses_list_frame (r : mominfo_t) (s : Server) :
    (remove_mom_ipaddresses_list r s).2.heap = s.heap ∧
    (remove_mom_ipaddresses_list r s).2.mominfo_array = s.mominfo_array ∧
    (remove_mom_ipaddresses_list r s).2.svr_num_moms = s.svr_num_moms ∧
    ∀ a b, tfind2 a b s.ipaddrs = none →
      tfind2 a b (remove_mom_ipaddresses_list r s).2.ipaddrs = none := by
  unfold remove_mom_ipaddresses_list
  cases ht : s.hostaddr_tree with
  | none => exact ⟨rfl, rfl, rfl, fun _ _ h => h⟩
  | some t =>
    simp only
    cases hf : find_tree t r.mi_host with
    | none => exact ⟨rfl, rfl, rfl, fun _ _ h => h⟩
    | some tpul =>
      simp only
      cases hd : tree_del t r.mi_host with
      | none => exact ⟨rfl, rfl, rfl, fun a b h => tfind2_delete_addrs_none _ _ _ _ _ h⟩
      | some t1 => exact ⟨rfl, rfl, rfl, fun a b h => tfind2_delete_addrs_none _ _ _ _ _ h⟩

theorem delete_svrmom_entry_unmaps (s : Server) (pmom : Ptr) (r : mominfo_t)
    (d : mom_svrinfo_t) (pul : ulbuf)
    (hr : deref s.heap pmom = some r) (hd : r.mi_data = some d)
    (ha : d.msr_addrs = some pul) :
    ∃ s2, delete_svrmom_entry (some pmom) s = some s2 ∧
      ∀ a ∈ addr_list pul.words, tfind2 a r.mi_port s2.ipaddrs = none := by
  simp only [delete_svrmom_entry, hr, hd, ha]
  by_cases hs : d.msr_stream ≥ 0
  · simp only [hs, ↓reduceIte]
    obtain ⟨h1, -, -, h4⟩ := remove_mom_ipaddresses_list_frame r
      { s with
        ipaddrs := delete_addrs r.mi_port (addr_list pul.words) s.ipaddrs
        rpp_closed := d.msr_stream :: s.rpp_closed
        streams := tdelete2 d.msr_stream.toNat 0 s.streams }
    simp only [delete_mom_entry, h1, hr]
    exact ⟨_, rfl, fun a ha' => h4 a r.mi_port (tfind2_delete_addrs _ _ _ _ ha')⟩
  · simp only [hs, ↓reduceIte]
    obtain ⟨h1, -, -, h4⟩ := remove_mom_ipaddresses_list_frame r
      { s with ipaddrs := delete_addrs r.mi_port (addr_list pul.words) s.ipaddrs }
    simp only [delete_mom_entry, h1, hr]
    exact ⟨_, rfl, fun a ha' => h4 a r.mi_port (tfind2_delete_addrs _ _ _ _ ha')⟩

/-! ## Lemmas on the failure paths of `create_svrmom_entry` -/

theorem place_slot_live_records (heap : List (Option mominfo_t)) {realloc_ok : Bool}
    {arr arr1 : List (Option Ptr)} {e : Nat} (h : place_slot realloc_ok arr = some (e, arr1)) :
    arr1.filterMap (fun x => x.map (fun p => (p, deref heap p)))
      = arr.filterMap (fun x => x.map (fun p => (p, deref heap p))) := by
  unfold place_slot at h
  cases hf : first_empty arr with
  | some k =>
    simp only [hf, Option.some.injEq, Prod.mk.injEq] at h
    rw [← h.2]
  | none =>
    simp only [hf] at h
    split at h
    · simp only [Option.some.injEq, Prod.mk.injEq] at h
      rw [← h.2]
      simp
    · simp at h

theorem null_slot_set_new (pn : Ptr) (arr : List (Option Ptr)) (e : Nat)
    (he : arr[e]? = some none) (hn : some pn ∉ arr) :
    null_slot pn (arr.set e (some pn)) = arr := by
  induction arr generalizing e with
  | nil => simp at he
  | cons x rest ih =>
    cases e with
    | zero =>
      simp only [List.getElem?_cons_zero, Option.some.injEq] at he
      simp [null_slot, he]
    | succ e =>
      have hx : x ≠ some pn := fun hx => hn (by simp [hx])
      have hr : some pn ∉ rest := fun hr => hn (List.mem_cons_of_mem _ hr)
      simp only [List.getElem?_cons_succ] at he
      simp [null_slot, hx, ih e he hr]

theorem live_records_congr (heap heap1 : List (Option mominfo_t)) (arr : List (Option Ptr))
    (h : ∀ q : Ptr, some q ∈ arr → deref heap1 q = deref heap q) :
    arr.filterMap (fun x => x.map (fun p => (p, deref heap1 p)))
      = arr.filterMap (fun x => x.map (fun p => (p, deref heap p))) := by
  apply List.filterMap_congr
  intro x hx
  cases x with
  | none => rfl
  | some q => simp [h q hx]

/-! ## Lemmas on the address cache -/

theorem find_tree_tree_add (t t1 : List (List Char × pul_store)) (key : List Char)
    (data : pul_store) (alloc_ok : Bool) (h : tree_add t key data alloc_ok = some t1) :
    find_tree t1 key = some data := by
  unfold tree_add at h
  split at h
  · simp only [Option.some.injEq] at h
    subst h
    simp [find_tree]
  · simp at h

/-- What a successful call of `make_host_addresses_list` leaves behind: the
host is cached, the cached words are those of the returned list, which was
allocated at the old `brk`. -/
theorem make_host_addresses_list_ok (getaddrinfo : List Char → Option (List addrinfo))
    (al : cache_allocs) (host : List Char) (s s1 : Server) (out : Option ulbuf)
    (h : make_host_addresses_list getaddrinfo al (some host) s
      = (pbs_error.PBSE_NONE, out, s1)) :
    ∃ (tpul : pul_store) (b1 : ulbuf), host ≠ [] ∧
      s1.hostaddr_tree.bind (fun t => find_tree t host) = some tpul ∧
      out = some b1 ∧ b1.base = s.brk ∧ s.brk < s1.brk ∧
      tpul.pul.words.take tpul.len = b1.words := by
  cases host with
  | nil => simp [make_host_addresses_list] at h
  | cons c cs =>
    simp only [make_host_addresses_list] at h
    cases hf : s.hostaddr_tree.bind (fun t => find_tree t (c :: cs)) with
    | some tpul =>
      simp only [hf] at h
      split at h
      · simp only [Prod.mk.injEq, true_and] at h
        obtain ⟨rfl, rfl⟩ := h
        exact ⟨tpul, _, by simp, hf, rfl, rfl, Nat.lt_succ_self _, rfl⟩
      · simp at h
    | none =>
      simp only [hf] at h
      cases hg : getaddrinfo (c :: cs) with
      | none => simp [hg] at h
      | some pai =>
        simp only [hg] at h
        split at h
        · simp at h
        · split at h
          · simp at h
          · split at h
            · simp at h
            · cases ht : s.hostaddr_tree with
              | none =>
                simp only [ht] at h
                split at h
                · simp at h
                · cases hadd : tree_add [] (c :: cs)
                    { pul := { base := s.brk + 1, words := ipv4_words pai },
                      len := (ipv4_words pai).length } al.tree_add_ok with
                  | none => simp [hadd] at h
                  | some t1 =>
                    simp only [hadd, Prod.mk.injEq, true_and] at h
                    obtain ⟨rfl, rfl⟩ := h
                    refine ⟨pul_store.mk (ulbuf.mk (s.brk + 1) (ipv4_words pai)) (ipv4_words pai).length,
                    _, by simp, ?_, rfl, rfl, Nat.lt_succ_of_lt (Nat.lt_succ_self _), ?_⟩
                    · simpa using find_tree_tree_add _ _ _ _ _ hadd
                    · simp
              | some t =>
                simp only [ht] at h
                cases hadd : tree_add t (c :: cs)
                    { pul := { base := s.brk + 1, words := ipv4_words pai },
                      len := (ipv4_words pai).length } al.tree_add_ok with
                | none => simp [hadd] at h
                | some t1 =>
                  simp only [hadd, Prod.mk.injEq, true_and] at h
                  obtain ⟨rfl, rfl⟩ := h
                  refine ⟨pul_store.mk (ulbuf.mk (s.brk + 1) (ipv4_words pai)) (ipv4_words pai).length,
                    _, by simp, ?_, rfl, rfl, Nat.lt_succ_of_lt (Nat.lt_succ_self _), ?_⟩
                  · simpa using find_tree_tree_add _ _ _ _ _ hadd
                  · simp

/-- A call of `make_host_addresses_list` for a cached host. -/
theorem make_host_addresses_list_hit (getaddrinfo : List Char → Option (List addrinfo))
    (al : cache_allocs) (host : List Char) (s : Server) (tpul : pul_store)
    (hne : host ≠ []) (hc : s.hostaddr_tree.bind (fun t => find_tree t host) = some tpul) :
    make_host_addresses_list getaddrinfo al (some host) s =
      if al.pul_ok then
        (pbs_error.PBSE_NONE, some { base := s.brk, words := tpul.pul.words.take tpul.len },
          { s with brk := s.brk + 1 })
      else (pbs_error.PBSE_SYSTEM, none, s) := by
  cases host with
  | nil => exact absurd rfl hne
  | cons c cs => simp only [make_host_addresses_list, hc]

theorem make_host_addresses_list_resolved (getaddrinfo : List Char → Option (List addrinfo))
    (al : cache_allocs) (c : Char) (cs : List Char) (s : Server) (pai : List addrinfo)
    (hf : s.hostaddr_tree.bind (fun t => find_tree t (c :: cs)) = none)
    (hg : getaddrinfo (c :: cs) = some pai) :
    (make_host_addresses_list getaddrinfo al (some (c :: cs)) s).1
      ≠ pbs_error.PBSE_UNKNODE := by
  simp only [make_host_addresses_list, hf, hg]
  split
  · simp
  · split
    · simp
    · split
      · simp
      · cases ht : s.hostaddr_tree with
        | none =>
          simp only
          split
          · simp
          · split <;> simp
        | some t =>
          simp only
          split <;> simp

theorem make_host_addresses_list_unresolved (getaddrinfo : List Char → Option (List addrinfo))
    (al : cache_allocs) (c : Char) (cs : List Char) (s : Server)
    (hf : s.hostaddr_tree.bind (fun t => find_tree t (c :: cs)) = none)
    (hg : getaddrinfo (c :: cs) = none) :
    make_host_addresses_list getaddrinfo al (some (c :: cs)) s
      = (pbs_error.PBSE_UNKNODE, none, { s with resolutions := s.resolutions + 1 }) := by
  simp only [make_host_addresses_list, hf, hg]

/-! ## Lemmas on the connection manager -/

theorem testBit_clear_bits (x m i : Nat) :
    (clear_bits x m).testBit i = (x.testBit i && !m.testBit i) := by
  simp only [clear_bits, Nat.testBit_xor, Nat.testBit_and]
  cases x.testBit i <;> cases m.testBit i <;> rfl

theorem clear_bits_and_left (x a b : Nat) : clear_bits x (a ||| b) &&& a = 0 := by
  apply Nat.eq_of_testBit_eq
  intro i
  simp only [Nat.testBit_and, testBit_clear_bits, Nat.testBit_or, Nat.zero_testBit]
  cases x.testBit i <;> cases a.testBit i <;> cases b.testBit i <;> rfl

theorem clear_bits_and_right (x a b : Nat) : clear_bits x (a ||| b) &&& b = 0 := by
  apply Nat.eq_of_testBit_eq
  intro i
  simp only [Nat.testBit_and, testBit_clear_bits, Nat.testBit_or, Nat.zero_testBit]
  cases x.testBit i <;> cases a.testBit i <;> cases b.testBit i <;> rfl

/-! ## Lemmas on the failover loops -/

theorem circ_from_lt (NSVR : Nat) (i n : Nat) (hi : i < NSVR) :
    ∀ j ∈ circ_from NSVR i n, j < NSVR := by
  induction n generalizing i with
  | zero => simp [circ_from]
  | succ n ih =>
    intro j hj
    simp only [circ_from, List.mem_cons] at hj
    rcases hj with rfl | hj
    · exact hi
    · exact ih _ (Nat.mod_lt _ (Nat.lt_of_le_of_lt (Nat.zero_le _) hi)) j hj

theorem circ_from_eq_map (NSVR : Nat) (i n : Nat) (hi : i < NSVR) :
    circ_from NSVR i n = (List.range n).map (fun j => (i + j) % NSVR) := by
  induction n generalizing i with
  | zero => rfl
  | succ n ih =>
    have hpos : 0 < NSVR := Nat.lt_of_le_of_lt (Nat.zero_le _) hi
    rw [circ_from, ih _ (Nat.mod_lt _ hpos), List.range_succ_eq_map, List.map_cons,
      List.map_map]
    congr 1
    · simp [Nat.mod_eq_of_lt hi]
    · apply List.map_congr_left
      intro j _
      simp only [Function.comp, Nat.mod_add_mod, Nat.succ_eq_add_one]
      congr 1
      omega

theorem circ_from_nodup (NSVR : Nat) (i n : Nat) (hi : i < NSVR) (hn : n ≤ NSVR) :
    (circ_from NSVR i n).Nodup := by
  rw [circ_from_eq_map NSVR i n hi]
  refine List.Nodup.map_on ?_ (List.nodup_range n)
  intro a ha b hb hab
  have ha' : a < NSVR := Nat.lt_of_lt_of_le (List.mem_range.1 ha) hn
  have hb' : b < NSVR := Nat.lt_of_lt_of_le (List.mem_range.1 hb) hn
  exact Nat.ModEq.eq_of_lt_of_lt (Nat.ModEq.add_left_cancel' i hab) ha' hb'

theorem circ_from_length (NSVR : Nat) (i n : Nat) : (circ_from NSVR i n).length = n := by
  induction n generalizing i with
  | zero => rfl
  | succ n ih => simp [circ_from, ih]

theorem up_conns_fst (UP : Int) (arr : List (Option svr_conn_t)) (l : List Nat) :
    (up_conns UP arr l).map Prod.fst
      = l.filter (fun i =>
          match arr[i]? with
          | some (some conn) => decide (conn.state = UP)
          | _ => false) := by
  induction l with
  | nil => rfl
  | cons x rest ih =>
    simp only [up_conns, List.filterMap_cons, List.filter_cons] at ih ⊢
    cases hx : arr[x]? with
    | none => simpa using ih
    | some slot =>
      cases slot with
      | none => simpa using ih
      | some conn =>
        by_cases hs : conn.state = UP
        · simpa [hs] using ih
        · simpa [hs] using ih

theorem up_conns_mem (UP : Int) (arr : List (Option svr_conn_t)) (l : List Nat) (i : Nat)
    (conn : svr_conn_t) (h : (i, conn) ∈ up_conns UP arr l) :
    i ∈ l ∧ arr[i]? = some (some conn) ∧ conn.state = UP := by
  simp only [up_conns, List.mem_filterMap] at h
  obtain ⟨j, hj, hm⟩ := h
  cases hx : arr[j]? with
  | none => simp [hx] at hm
  | some slot =>
    cases slot with
    | none => simp [hx] at hm
    | some cj =>
      simp only [hx] at hm
      split at hm
      · rename_i hs
        simp only [Option.some.injEq, Prod.mk.injEq] at hm
        obtain ⟨rfl, rfl⟩ := hm
        exact ⟨hj, hx, hs⟩
      · simp at hm

theorem sigjob_loop_eq (NSVR : Nat) (UP : Int) (arr : List (Option svr_conn_t))
    (envs : Nat → sig_env) (c : Int) (i n : Nat) (st : Client)
    (h : ∀ j ∈ circ_from NSVR i n, j < arr.length) :
    sigjob_loop NSVR UP arr envs c i n st
      = some (sig_route envs c (up_conns UP arr (circ_from NSVR i n)) st) := by
  induction n generalizing i st with
  | zero => rfl
  | succ n ih =>
    have hi : i < arr.length := h i (by simp [circ_from])
    have hrest : ∀ j ∈ circ_from NSVR ((i + 1) % NSVR) n, j < arr.length :=
      fun j hj => h j (by simp [circ_from, hj])
    simp only [sigjob_loop, circ_from, up_conns, List.filterMap_cons]
    cases hx : arr[i]? with
    | none => simp [List.getElem?_eq_getElem hi] at hx
    | some slot =>
      cases slot with
      | none => exact ih _ _ hrest
      | some conn =>
        simp only
        by_cases hs : conn.state = UP
        · simp only [hs, ne_eq, not_true_eq_false, ↓reduceIte, sig_route]
          split
          · rfl
          · split
            · rfl
            · exact ih _ _ hrest
        · simp only [hs, ne_eq, not_false_eq_true, ↓reduceIte]
          exact ih _ _ hrest

theorem modify_resv_loop_eq (NSVR : Nat) (UP : Int) (arr : List (Option svr_conn_t))
    (envs : Nat → outcome (Option (List Char))) (ret : Option (List Char)) (i n : Nat)
    (st : Client) (h : ∀ j ∈ circ_from NSVR i n, j < arr.length) :
    modify_resv_loop NSVR UP arr envs ret i n st
      = some (resv_route envs ret (up_conns UP arr (circ_from NSVR i n)) st) := by
  induction n generalizing i st ret with
  | zero => rfl
  | succ n ih =>
    have hi : i < arr.length := h i (by simp [circ_from])
    have hrest : ∀ j ∈ circ_from NSVR ((i + 1) % NSVR) n, j < arr.length :=
      fun j hj => h j (by simp [circ_from, hj])
    simp only [modify_resv_loop, circ_from, up_conns, List.filterMap_cons]
    cases hx : arr[i]? with
    | none => simp [List.getElem?_eq_getElem hi] at hx
    | some slot =>
      cases slot with
      | none => exact ih _ _ _ hrest
      | some conn =>
        simp only
        by_cases hs : conn.state = UP
        · simp only [hs, ne_eq, not_true_eq_false, ↓reduceIte, resv_route]
          split
          · rfl
          · split
            · rfl
            · exact ih _ _ _ hrest
        · simp only [hs, ne_eq, not_false_eq_true, ↓reduceIte]
          exact ih _ _ _ hrest

theorem contacts_append (a b : List event) : contacts (a ++ b) = contacts a ++ contacts b := by
  simp [contacts]

theorem requests_append (a b : List event) : requests (a ++ b) = requests a ++ requests b := by
  simp [requests]

theorem inner_contacts (e : sig_env) (sd : Int) (st : Client) :
    contacts (__pbs_sigjob_inner e sd st).2.trace = contacts st.trace := by
  simp only [__pbs_sigjob_inner]
  split
  · simp [outcome.apply]
  · split
    · simp [outcome.apply, Client.log, contacts]
    · split
      · simp [outcome.apply, Client.log, contacts]
      · split <;> simp [outcome.apply, Client.log, contacts]

theorem inner_requests (e : sig_env) (sd : Int) (st : Client) :
    requests (__pbs_sigjob_inner e sd st).2.trace = requests st.trace := by
  simp only [__pbs_sigjob_inner]
  split
  · simp [outcome.apply]
  · split
    · simp [outcome.apply, Client.log, requests]
    · split
      · simp [outcome.apply, Client.log, requests]
      · split <;> simp [outcome.apply, Client.log, requests]

theorem inner_contacts_log (e : sig_env) (i : Nat) (sd : Int) (st : Client) :
    contacts (__pbs_sigjob_inner e sd (st.log (event.request (some i) sd))).2.trace
      = contacts st.trace ++ [i] := by
  rw [inner_contacts]
  simp [Client.log, contacts]

theorem modify_contacts_log (o : outcome (Option (List Char))) (i : Nat) (sd : Int)
    (st : Client) :
    contacts (PBSD_modify_resv o (some i) sd st).2.trace = contacts st.trace ++ [i] := by
  simp [PBSD_modify_resv, outcome.apply, Client.log, contacts]

theorem sig_route_take (envs : Nat → sig_env) (c : Int) (l : List (Nat × svr_conn_t))
    (st : Client) :
    ∃ k, contacts (sig_route envs c l st).2.trace
      = contacts st.trace ++ (l.map Prod.fst).take k := by
  induction l generalizing st with
  | nil => exact ⟨0, by simp [sig_route]⟩
  | cons x rest ih =>
    obtain ⟨i, conn⟩ := x
    simp only [sig_route]
    split
    · exact ⟨1, by simp [inner_contacts_log]⟩
    · split
      · exact ⟨1, by simp [inner_contacts_log]⟩
      · obtain ⟨k, hk⟩ := ih
          (__pbs_sigjob_inner (envs i) conn.sd (st.log (event.request (some i) conn.sd))).2
        exact ⟨k + 1, by simp [hk, inner_contacts_log]⟩

theorem resv_route_take (envs : Nat → outcome (Option (List Char)))
    (ret : Option (List Char)) (l : List (Nat × svr_conn_t)) (st : Client) :
    ∃ k, contacts (resv_route envs ret l st).2.trace
      = contacts st.trace ++ (l.map Prod.fst).take k := by
  induction l generalizing st ret with
  | nil => exact ⟨0, by simp [resv_route]⟩
  | cons x rest ih =>
    obtain ⟨i, conn⟩ := x
    simp only [resv_route]
    split
    · exact ⟨1, by simp [modify_contacts_log]⟩
    · split
      · exact ⟨1, by simp [modify_contacts_log]⟩
      · obtain ⟨k, hk⟩ := ih (PBSD_modify_resv (envs i) (some i) conn.sd st).1
          (PBSD_modify_resv (envs i) (some i) conn.sd st).2
        exact ⟨k + 1, by simp [hk, modify_contacts_log]⟩

theorem sig_route_misses (envs : Nat → sig_env) (c : Int)
    (pre rest : List (Nat × svr_conn_t)) (st : Client)
    (hpre : ∀ x ∈ pre, x.2.sd ≠ c ∧ sig_replies (envs x.1) pbs_error.PBSE_UNKJOBID) :
    ∃ st1, sig_route envs c (pre ++ rest) st = sig_route envs c rest st1 ∧
      contacts st1.trace = contacts st.trace ++ pre.map Prod.fst := by
  induction pre generalizing st with
  | nil => exact ⟨st, rfl, by simp⟩
  | cons x pre ih =>
    obtain ⟨i, conn⟩ := x
    obtain ⟨hsd, hrep⟩ := hpre (i, conn) (List.mem_cons_self _ _)
    obtain ⟨h1, h2⟩ := hrep conn.sd (st.log (event.request (some i) conn.sd))
    obtain ⟨st1, hst1, hc1⟩ := ih
      (__pbs_sigjob_inner (envs i) conn.sd (st.log (event.request (some i) conn.sd))).2
      (fun y hy => hpre y (List.mem_cons_of_mem _ hy))
    refine ⟨st1, ?_, ?_⟩
    · simp only [List.cons_append, sig_route]
      rw [if_neg hsd, if_neg (by simp [h1, h2])]
      exact hst1
    · rw [hc1, inner_contacts_log]
      simp

theorem resv_route_misses (envs : Nat → outcome (Option (List Char)))
    (pre rest : List (Nat × svr_conn_t)) (st : Client)
    (hpre : ∀ x ∈ pre, resv_fails (envs x.1) pbs_error.PBSE_UNKRESVID) :
    ∃ st1, resv_route envs none (pre ++ rest) st = resv_route envs none rest st1 ∧
      contacts st1.trace = contacts st.trace ++ pre.map Prod.fst := by
  induction pre generalizing st with
  | nil => exact ⟨st, rfl, by simp⟩
  | cons x pre ih =>
    obtain ⟨i, conn⟩ := x
    obtain ⟨hret, hsets⟩ := hpre (i, conn) (List.mem_cons_self _ _)
    obtain ⟨st1, hst1, hc1⟩ := ih (PBSD_modify_resv (envs i) (some i) conn.sd st).2
      (fun y hy => hpre y (List.mem_cons_of_mem _ hy))
    have hr1 : (PBSD_modify_resv (envs i) (some i) conn.sd st).1 = none := by
      simp [PBSD_modify_resv, hret]
    have hr2 : (PBSD_modify_resv (envs i) (some i) conn.sd st).2.pbs_errno
        = pbs_error.PBSE_UNKRESVID := by
      simp [PBSD_modify_resv, outcome.apply, hsets]
    refine ⟨st1, ?_, ?_⟩
    · simp only [List.cons_append, resv_route]
      rw [if_neg (by simp [hr1]), if_neg (by simp [hr2]), hr1]
      exact hst1
    · rw [hc1, modify_contacts_log]
      simp

theorem sig_reply_replies (E : pbs_error) : sig_replies (sig_reply E) E := by
  intro sd st
  by_cases hE : E = pbs_error.PBSE_NONE <;>
    simp [__pbs_sigjob_inner, sig_reply, outcome.apply, Client.log, hE]

theorem up_conns_order (NSVR : Nat) (UP : Int) (arr : List (Option svr_conn_t)) (start : Nat)
    (hstart : start < NSVR) :
    (up_conns UP arr (circ_from NSVR start NSVR)).map Prod.fst = up_order NSVR UP arr start := by
  rw [up_conns_fst, circ_from_eq_map NSVR start NSVR hstart]
  rfl

theorem up_order_nodup (NSVR : Nat) (UP : Int) (arr : List (Option svr_conn_t)) (start : Nat)
    (hstart : start < NSVR) : (up_order NSVR UP arr start).Nodup := by
  unfold up_order
  rw [← circ_from_eq_map NSVR start NSVR hstart]
  exact List.Nodup.filter _ (circ_from_nodup NSVR start NSVR hstart (Nat.le_refl _))

theorem up_order_length (NSVR : Nat) (UP : Int) (arr : List (Option svr_conn_t)) (start : Nat) :
    (up_order NSVR UP arr start).length ≤ NSVR := by
  unfold up_order
  refine Nat.le_trans (List.length_filter_le _ _) ?_
  simp

/-! ## Lemmas linking the client functions to the walks -/

theorem up_conns_split (NSVR : Nat) (UP : Int) (arr : List (Option svr_conn_t)) (start : Nat)
    (hstart : start < NSVR) (pre post : List Nat) (k : Nat)
    (horder : up_order NSVR UP arr start = pre ++ k :: post) :
    ∃ (l1 l2 : List (Nat × svr_conn_t)) (conn : svr_conn_t),
      up_conns UP arr (circ_from NSVR start NSVR) = l1 ++ (k, conn) :: l2 ∧
      l1.map Prod.fst = pre ∧ l2.map Prod.fst = post ∧ arr[k]? = some (some conn) ∧
      (∀ x ∈ l1, x.1 ∈ pre ∧ arr[x.1]? = some (some x.2)) ∧
      (∀ x ∈ l2, x.1 ∈ post ∧ arr[x.1]? = some (some x.2)) := by
  rw [← up_conns_order NSVR UP arr start hstart] at horder
  obtain ⟨l1, l2', hl, h1, h2⟩ := List.map_eq_append_iff.1 horder
  obtain ⟨x, l2, rfl, hx, h3⟩ := List.map_eq_cons_iff.1 h2
  obtain ⟨k', conn⟩ := x
  simp only at hx
  subst hx
  have hmem : ∀ y ∈ up_conns UP arr (circ_from NSVR start NSVR), arr[y.1]? = some (some y.2) :=
    fun y hy => (up_conns_mem UP arr _ y.1 y.2 hy).2.1
  refine ⟨l1, l2, conn, hl, h1, h3, ?_, ?_, ?_⟩
  · exact hmem (k', conn) (by rw [hl]; simp)
  · intro y hy
    exact ⟨by rw [← h1]; exact List.mem_map_of_mem _ hy, hmem y (by rw [hl]; simp [hy])⟩
  · intro y hy
    exact ⟨by rw [← h3]; exact List.mem_map_of_mem _ hy, hmem y (by rw [hl]; simp [hy])⟩

theorem failover_start_ok (NSVR : Nat) (hint : Int)
    (hvalid : hint = -1 ∨ (0 ≤ hint ∧ hint < NSVR)) (hpos : 0 < NSVR) :
    ¬ failover_start hint < 0 ∧ (failover_start hint).toNat < NSVR := by
  unfold failover_start
  split
  · exact ⟨by omega, by simpa using hpos⟩
  · exact ⟨by omega, by omega⟩

theorem pbs_sigjob_eq_route (NSVR : Nat) (UP : Int) (arr : List (Option svr_conn_t))
    (hint : Int) (envs : Nat → sig_env) (env_c : sig_env) (c : Int)
    (jobid sig : Option (List Char)) (st : Client)
    (hjob : jobid ≠ none) (hjob2 : jobid ≠ some []) (hsig : sig ≠ none)
    (hlen : arr.length = NSVR) (hpos : 0 < NSVR)
    (hvalid : hint = -1 ∨ (0 ≤ hint ∧ hint < NSVR)) :
    __pbs_sigjob NSVR UP (some arr) hint envs env_c c jobid sig st
      = some (sig_route envs c
          (up_conns UP arr (circ_from NSVR (failover_start hint).toNat NSVR)) st) := by
  obtain ⟨h0, hlt⟩ := failover_start_ok NSVR hint hvalid hpos
  simp only [__pbs_sigjob, hjob, hjob2, hsig, or_self, ↓reduceIte, Nat.ne_of_gt hpos, h0]
  exact sigjob_loop_eq NSVR UP arr envs c _ NSVR st
    (by rw [hlen]; exact circ_from_lt NSVR _ NSVR hlt)

theorem pbs_modify_resv_eq_route (NSVR : Nat) (UP : Int) (arr : List (Option svr_conn_t))
    (hint : Int) (verify_rc : outcome Bool) (envs : Nat → outcome (Option (List Char)))
    (env_c : outcome (Option (List Char))) (c : Int) (st : Client) (conn0 : svr_conn_t)
    (hver : verify_rc.ret = true) (h0 : arr[0]? = some (some conn0)) (hsd : conn0.sd ≠ c)
    (hlen : arr.length = NSVR) (hpos : 0 < NSVR)
    (hvalid : hint = -1 ∨ (0 ≤ hint ∧ hint < NSVR)) :
    pbs_modify_resv NSVR UP (some arr) hint verify_rc envs env_c c st
      = some (resv_route envs none
          (up_conns UP arr (circ_from NSVR (failover_start hint).toNat NSVR))
          (verify_rc.apply st)) := by
  obtain ⟨hs0, hlt⟩ := failover_start_ok NSVR hint hvalid hpos
  simp only [pbs_modify_resv, hver, Bool.not_true, Bool.false_eq_true, ↓reduceIte, h0, hsd,
    Nat.ne_of_gt hpos, hs0]
  exact modify_resv_loop_eq NSVR UP arr envs none _ NSVR _
    (by rw [hlen]; exact circ_from_lt NSVR _ NSVR hlt)

theorem apply_contacts {α : Type} (o : outcome α) (st : Client) :
    contacts (o.apply st).trace = contacts st.trace := rfl

theorem sig_route_head (envs : Nat → sig_env) (c : Int) (i : Nat) (conn : svr_conn_t)
    (rest : List (Nat × svr_conn_t)) (st : Client) :
    ∃ tail, contacts (sig_route envs c ((i, conn) :: rest) st).2.trace
      = contacts st.trace ++ i :: tail := by
  simp only [sig_route]
  split
  · exact ⟨[], by simp [inner_contacts_log]⟩
  · split
    · exact ⟨[], by simp [inner_contacts_log]⟩
    · obtain ⟨k, hk⟩ := sig_route_take envs c rest
        (__pbs_sigjob_inner (envs i) conn.sd (st.log (event.request (some i) conn.sd))).2
      exact ⟨_, by rw [hk, inner_contacts_log, List.append_assoc]; rfl⟩

theorem resv_route_head (envs : Nat → outcome (Option (List Char)))
    (ret : Option (List Char)) (i : Nat) (conn : svr_conn_t)
    (rest : List (Nat × svr_conn_t)) (st : Client) :
    ∃ tail, contacts (resv_route envs ret ((i, conn) :: rest) st).2.trace
      = contacts st.trace ++ i :: tail := by
  simp only [resv_route]
  split
  · exact ⟨[], by simp [modify_contacts_log]⟩
  · split
    · exact ⟨[], by simp [modify_contacts_log]⟩
    · obtain ⟨k, hk⟩ := resv_route_take envs
        (PBSD_modify_resv (envs i) (some i) conn.sd st).1 rest
        (PBSD_modify_resv (envs i) (some i) conn.sd st).2
      exact ⟨_, by rw [hk, modify_contacts_log, List.append_assoc]; rfl⟩

theorem singleton_eq_append_cons {α : Type} (i k : α) (P tail : List α)
    (h : [i] = P ++ k :: tail) : P = [] ∧ i = k ∧ tail = [] := by
  cases P with
  | nil =>
    simp only [List.nil_append, List.cons.injEq] at h
    exact ⟨rfl, h.1, h.2.symm⟩
  | cons p P1 =>
    simp at h

theorem sig_route_stop (envs : Nat → sig_env) (c : Int) (k : Nat) (E : pbs_error)
    (hE : E ≠ pbs_error.PBSE_UNKJOBID) (hk : sig_replies (envs k) E) :
    ∀ (l : List (Nat × svr_conn_t)) (st : Client) (P tail : List Nat),
      contacts (sig_route envs c l st).2.trace = contacts st.trace ++ (P ++ k :: tail) →
      (sig_route envs c l st).1 = E ∧ (sig_route envs c l st).2.pbs_errno = E ∧ tail = [] := by
  intro l
  induction l with
  | nil =>
    intro st P tail h
    simp [sig_route] at h
  | cons x rest ih =>
    obtain ⟨i, conn⟩ := x
    intro st P tail h
    have hr := inner_contacts_log (envs i) i conn.sd st
    by_cases h1 : conn.sd = c
    · simp only [sig_route, h1, ↓reduceIte] at h ⊢
      rw [h1] at hr
      rw [hr] at h
      obtain ⟨-, hik, ht⟩ := singleton_eq_append_cons i k P tail (List.append_cancel_left h)
      subst hik
      exact ⟨(hk _ _).1, (hk _ _).2, ht⟩
    · by_cases h2 : (__pbs_sigjob_inner (envs i) conn.sd
          (st.log (event.request (some i) conn.sd))).1 = pbs_error.PBSE_NONE ∨
          (__pbs_sigjob_inner (envs i) conn.sd
          (st.log (event.request (some i) conn.sd))).2.pbs_errno ≠ pbs_error.PBSE_UNKJOBID
      · simp only [sig_route, h1, h2, ↓reduceIte] at h ⊢
        rw [hr] at h
        obtain ⟨-, hik, ht⟩ := singleton_eq_append_cons i k P tail (List.append_cancel_left h)
        subst hik
        exact ⟨(hk _ _).2, (hk _ _).2, ht⟩
      · simp only [sig_route, h1, h2, ↓reduceIte] at h ⊢
        cases P with
        | nil =>
          obtain ⟨m, hm⟩ := sig_route_take envs c rest (__pbs_sigjob_inner (envs i) conn.sd
            (st.log (event.request (some i) conn.sd))).2
          rw [hm, hr, List.append_assoc] at h
          have h3 := List.append_cancel_left h
          simp only [List.singleton_append, List.nil_append, List.cons.injEq] at h3
          obtain ⟨hik, -⟩ := h3
          subst hik
          exact absurd (Or.inr (by rw [(hk _ _).2]; exact hE)) h2
        | cons p P1 =>
          apply ih _ P1 tail
          obtain ⟨m, hm⟩ := sig_route_take envs c rest (__pbs_sigjob_inner (envs i) conn.sd
            (st.log (event.request (some i) conn.sd))).2
          have h4 := h
          rw [hm, hr, List.append_assoc] at h4
          have h3 := List.append_cancel_left h4
          simp only [List.singleton_append, List.cons_append, List.cons.injEq] at h3
          rw [h, hr, h3.1]
          simp

theorem resv_route_stop (envs : Nat → outcome (Option (List Char))) (k : Nat)
    (hk : (envs k).ret ≠ none ∨
      ∃ E, (envs k).sets = some E ∧ E ≠ pbs_error.PBSE_UNKRESVID) :
    ∀ (l : List (Nat × svr_conn_t)) (ret : Option (List Char)) (st : Client)
      (P tail : List Nat),
      contacts (resv_route envs ret l st).2.trace = contacts st.trace ++ (P ++ k :: tail) →
      (resv_route envs ret l st).1 = (envs k).ret ∧
      (∀ E, (envs k).sets = some E → (resv_route envs ret l st).2.pbs_errno = E) ∧
      tail = [] := by
  intro l
  induction l with
  | nil =>
    intro ret st P tail h
    simp [resv_route] at h
  | cons x rest ih =>
    obtain ⟨i, conn⟩ := x
    intro ret st P tail h
    have hr := modify_contacts_log (envs i) i conn.sd st
    simp only [resv_route] at h ⊢
    by_cases h1 : (PBSD_modify_resv (envs i) (some i) conn.sd st).1 ≠ none
    · rw [if_pos h1] at h ⊢
      rw [hr] at h
      obtain ⟨-, hik, ht⟩ := singleton_eq_append_cons i k P tail (List.append_cancel_left h)
      subst hik
      refine ⟨rfl, ?_, ht⟩
      intro E hs
      simp [PBSD_modify_resv, outcome.apply, hs]
    · rw [if_neg h1] at h ⊢
      by_cases h2 : (PBSD_modify_resv (envs i) (some i) conn.sd st).2.pbs_errno
          ≠ pbs_error.PBSE_UNKRESVID
      · rw [if_pos h2] at h ⊢
        rw [hr] at h
        obtain ⟨-, hik, ht⟩ := singleton_eq_append_cons i k P tail (List.append_cancel_left h)
        subst hik
        refine ⟨rfl, ?_, ht⟩
        intro E hs
        simp [PBSD_modify_resv, outcome.apply, hs]
      · rw [if_neg h2] at h ⊢
        obtain ⟨m, hm⟩ := resv_route_take envs (PBSD_modify_resv (envs i) (some i) conn.sd st).1
          rest (PBSD_modify_resv (envs i) (some i) conn.sd st).2
        have h4 := h
        rw [hm, hr, List.append_assoc] at h4
        have h3 := List.append_cancel_left h4
        cases P with
        | nil =>
          simp only [List.singleton_append, List.nil_append, List.cons.injEq] at h3
          obtain ⟨hik, -⟩ := h3
          subst hik
          exfalso
          rcases hk with hk | ⟨E, hs, hE⟩
          · exact h1 hk
          · apply h2
            simp only [PBSD_modify_resv, outcome.apply, hs, Option.getD_some]
            exact hE
        | cons p P1 =>
          simp only [List.singleton_append, List.cons_append, List.cons.injEq] at h3
          apply ih _ _ P1 tail
          rw [h, hr, h3.1]
          simp

theorem sig_route_head_stop (envs : Nat → sig_env) (c : Int) (k : Nat) (conn : svr_conn_t)
    (rest : List (Nat × svr_conn_t)) (st : Client) (E : pbs_error)
    (hE : E ≠ pbs_error.PBSE_UNKJOBID) (hk : sig_replies (envs k) E) :
    (sig_route envs c ((k, conn) :: rest) st).1 = E ∧
    (sig_route envs c ((k, conn) :: rest) st).2.pbs_errno = E ∧
    contacts (sig_route envs c ((k, conn) :: rest) st).2.trace = contacts st.trace ++ [k] := by
  have hr := inner_contacts_log (envs k) k conn.sd st
  simp only [sig_route]
  by_cases h1 : conn.sd = c
  · rw [if_pos h1]
    exact ⟨(hk _ _).1, (hk _ _).2, hr⟩
  · rw [if_neg h1, if_pos (Or.inr (by rw [(hk _ _).2]; exact hE))]
    exact ⟨(hk _ _).2, (hk _ _).2, hr⟩

theorem sig_route_head_own (envs : Nat → sig_env) (c : Int) (k : Nat) (conn : svr_conn_t)
    (rest : List (Nat × svr_conn_t)) (st : Client) (hown : conn.sd = c) :
    sig_route envs c ((k, conn) :: rest) st
      = __pbs_sigjob_inner (envs k) c (st.log (event.request (some k) c)) := by
  simp only [sig_route]
  rw [if_pos hown, hown]

theorem resv_route_head_stop (envs : Nat → outcome (Option (List Char))) (k : Nat)
    (conn : svr_conn_t) (rest : List (Nat × svr_conn_t)) (ret : Option (List Char))
    (st : Client)
    (hk : (envs k).ret ≠ none ∨
      ∃ E, (envs k).sets = some E ∧ E ≠ pbs_error.PBSE_UNKRESVID) :
    resv_route envs ret ((k, conn) :: rest) st
      = PBSD_modify_resv (envs k) (some k) conn.sd st := by
  simp only [resv_route]
  by_cases h1 : (PBSD_modify_resv (envs k) (some k) conn.sd st).1 ≠ none
  · rw [if_pos h1]
  · rw [if_neg h1]
    rcases hk with hk | ⟨E, hs, hE⟩
    · exact absurd hk h1
    · rw [if_pos]
      simp only [PBSD_modify_resv, outcome.apply, hs, Option.getD_some]
      exact hE

theorem pbs_sigjob_reach (NSVR : Nat) (UP : Int) (arr : List (Option svr_conn_t))
    (hint : Int) (envs : Nat → sig_env) (env_c : sig_env) (c : Int)
    (jobid sig : Option (List Char)) (st : Client) (pre post : List Nat) (k : Nat)
    (hjob : jobid ≠ none) (hjob2 : jobid ≠ some []) (hsig : sig ≠ none)
    (hlen : arr.length = NSVR) (hpos : 0 < NSVR)
    (hvalid : hint = -1 ∨ (0 ≤ hint ∧ hint < NSVR))
    (horder : up_order NSVR UP arr (failover_start hint).toNat = pre ++ k :: post)
    (hmiss : ∀ j ∈ pre, sig_replies (envs j) pbs_error.PBSE_UNKJOBID)
    (hown : ∀ j ∈ pre, ∀ cj, arr[j]? = some (some cj) → cj.sd ≠ c) :
    ∃ (stk : Client) (conn : svr_conn_t) (l2 : List (Nat × svr_conn_t)),
      arr[k]? = some (some conn) ∧ l2.map Prod.fst = post ∧
      __pbs_sigjob NSVR UP (some arr) hint envs env_c c jobid sig st
        = some (sig_route envs c ((k, conn) :: l2) stk) ∧
      contacts stk.trace = contacts st.trace ++ pre := by
  obtain ⟨l1, l2, conn, hl, h1, h2, hk, hm1, -⟩ := up_conns_split NSVR UP arr _
    (failover_start_ok NSVR hint hvalid hpos).2 pre post k horder
  obtain ⟨stk, hroute, hc⟩ := sig_route_misses envs c l1 ((k, conn) :: l2) st
    (fun x hx => ⟨hown x.1 (hm1 x hx).1 x.2 (hm1 x hx).2, hmiss x.1 (hm1 x hx).1⟩)
  refine ⟨stk, conn, l2, hk, h2, ?_, by rw [hc, h1]⟩
  rw [pbs_sigjob_eq_route NSVR UP arr hint envs env_c c jobid sig st hjob hjob2 hsig hlen hpos
    hvalid, hl, hroute]

theorem pbs_modify_resv_reach (NSVR : Nat) (UP : Int) (arr : List (Option svr_conn_t))
    (hint : Int) (verify_rc : outcome Bool) (envs : Nat → outcome (Option (List Char)))
    (env_c : outcome (Option (List Char))) (c : Int) (st : Client) (conn0 : svr_conn_t)
    (pre post : List Nat) (k : Nat)
    (hver : verify_rc.ret = true) (h0 : arr[0]? = some (some conn0)) (hsd : conn0.sd ≠ c)
    (hlen : arr.length = NSVR) (hpos : 0 < NSVR)
    (hvalid : hint = -1 ∨ (0 ≤ hint ∧ hint < NSVR))
    (horder : up_order NSVR UP arr (failover_start hint).toNat = pre ++ k :: post)
    (hmiss : ∀ j ∈ pre, resv_fails (envs j) pbs_error.PBSE_UNKRESVID) :
    ∃ (stk : Client) (conn : svr_conn_t) (l2 : List (Nat × svr_conn_t)),
      arr[k]? = some (some conn) ∧ l2.map Prod.fst = post ∧
      pbs_modify_resv NSVR UP (some arr) hint verify_rc envs env_c c st
        = some (resv_route envs none ((k, conn) :: l2) stk) ∧
      contacts stk.trace = contacts st.trace ++ pre := by
  obtain ⟨l1, l2, conn, hl, h1, h2, hk, hm1, -⟩ := up_conns_split NSVR UP arr _
    (failover_start_ok NSVR hint hvalid hpos).2 pre post k horder
  obtain ⟨stk, hroute, hc⟩ := resv_route_misses envs l1 ((k, conn) :: l2) (verify_rc.apply st)
    (fun x hx => hmiss x.1 (hm1 x hx).1)
  refine ⟨stk, conn, l2, hk, h2, ?_, by rw [hc, h1]; rfl⟩
  rw [pbs_modify_resv_eq_route NSVR UP arr hint verify_rc envs env_c c st conn0 hver h0 hsd hlen
    hpos hvalid, hl, hroute]

/-! ## Lemmas on the select request -/

theorem puts_append (a b : List event) : puts (a ++ b) = puts a ++ puts b := by
  simp [puts, List.filterMap_append]

theorem gets_append (a b : List event) : gets (a ++ b) = gets a ++ gets b := by
  simp [gets, List.filterMap_append]

theorem select_put_trace (p : select_put_env) (sd : Int) (st : Client) :
    (PBSD_select_put p sd st).2.trace = st.trace ++ [event.put sd] := by
  simp only [PBSD_select_put, Client.log]
  split
  · split <;> rfl
  · split <;> rfl

theorem select_put_ret (p : select_put_env) (sd : Int) (st : Client) :
    (PBSD_select_put p sd st).1 = pbs_error.PBSE_NONE ↔ put_ok p = true := by
  simp only [PBSD_select_put, put_ok]
  by_cases h1 : p.encode = 0
  · cases h2 : p.dis_flush <;> simp [h1]
  · cases h3 : p.set_conn_errtxt <;> simp [h1]

theorem select_get_trace (R : ReplyConsts) (g : select_get_env) (sd : Int)
    (rlist : List batch_reply) (st : Client) (hnode : g.node_ok = true) :
    ∃ r, PBSD_select_get R g sd rlist st = some r ∧
      r.2.trace = st.trace ++ [event.get sd] := by
  simp only [PBSD_select_get, hnode, Bool.not_true, Bool.false_eq_true, ↓reduceIte]
  cases g.rdrpy.ret with
  | none => exact ⟨_, rfl, rfl⟩
  | some reply =>
    simp only
    split
    · exact ⟨_, rfl, rfl⟩
    · split
      · split
        · exact ⟨_, rfl, rfl⟩
        · exact ⟨_, rfl, rfl⟩
      · exact ⟨_, rfl, rfl⟩

theorem up_servers_nil (UP : Int) (conns : List svr_conn_t) : up_servers UP conns [] = [] := rfl

theorem up_servers_cons_up (UP : Int) (conns : List svr_conn_t) (i : Nat) (l : List Nat)
    (conn : svr_conn_t) (h : conns[i]? = some conn) (hup : conn.state = UP) :
    up_servers UP conns (i :: l) = (i, conn) :: up_servers UP conns l := by
  simp [up_servers, List.filterMap_cons, h, hup]

theorem up_servers_cons_down (UP : Int) (conns : List svr_conn_t) (i : Nat) (l : List Nat)
    (conn : svr_conn_t) (h : conns[i]? = some conn) (hup : conn.state ≠ UP) :
    up_servers UP conns (i :: l) = up_servers UP conns l := by
  simp [up_servers, List.filterMap_cons, h, hup]

theorem select_send_ok (UP : Int) (conns : List svr_conn_t) (e : select_env) (c : Int)
    (hcalloc : e.calloc_ok = true) (hlock : ∀ i, (e.lock i).ret = true) :
    ∀ (l : List Nat) (rc : pbs_error) (failed : List Nat) (st : Client),
      (∀ i ∈ l, i < conns.length) →
      ∃ (rc1 : pbs_error) (st1 : Client),
        select_send UP conns e c l rc failed st
          = some (some (rc1, failed ++
              ((up_servers UP conns l).filter (fun x => !put_ok (e.put x.1))).map Prod.fst),
            st1) ∧
        puts st1.trace = puts st.trace ++ (up_servers UP conns l).map (fun x => x.2.sd) ∧
        gets st1.trace = gets st.trace ∧
        contacts st1.trace = contacts st.trace ++ (up_servers UP conns l).map Prod.fst := by
  intro l
  induction l with
  | nil =>
    intro rc failed st _
    exact ⟨rc, st, by simp [select_send, up_servers], by simp [up_servers], rfl,
      by simp [up_servers]⟩
  | cons i rest ih =>
    intro rc failed st hidx
    have hi : i < conns.length := hidx i (List.mem_cons_self _ _)
    have hrest : ∀ j ∈ rest, j < conns.length := fun j hj => hidx j (List.mem_cons_of_mem _ hj)
    have hget : conns[i]? = some conns[i] := List.getElem?_eq_getElem hi
    by_cases hup : conns[i].state = UP
    · rw [up_servers_cons_up UP conns i rest _ hget hup]
      have hstep : ∀ st2 : Client,
          st2 = (e.lock i).apply (st.log (event.lock c (e.lock i).ret)) →
          select_send UP conns e c (i :: rest) rc failed st
            = select_send UP conns e c rest
                (PBSD_select_put (e.put i) conns[i].sd
                  (st2.log (event.request (some i) conns[i].sd))).1
                (if put_ok (e.put i) then failed else failed ++ [i])
                (PBSD_select_put (e.put i) conns[i].sd
                  (st2.log (event.request (some i) conns[i].sd))).2 := by
        intro st2 hst2
        subst hst2
        have hr := select_put_ret (e.put i) conns[i].sd
          (((e.lock i).apply (st.log (event.lock c (e.lock i).ret))).log
            (event.request (some i) conns[i].sd))
        simp only [select_send, hget, hup, hlock i, hcalloc, ne_eq, not_true_eq_false,
          Bool.not_true, Bool.false_eq_true, ↓reduceIte]
        simp only [hlock i] at hr
        by_cases hok : put_ok (e.put i) = true
        · rw [if_neg (not_not.2 (hr.2 hok)), if_pos hok]
        · rw [if_pos (fun h => hok (hr.1 h)), if_neg hok]
      rw [hstep _ rfl]
      obtain ⟨rc1, st1, h1, h2, h3, h4⟩ := ih
        (PBSD_select_put (e.put i) conns[i].sd
          (((e.lock i).apply (st.log (event.lock c (e.lock i).ret))).log
            (event.request (some i) conns[i].sd))).1
        (if put_ok (e.put i) then failed else failed ++ [i])
        (PBSD_select_put (e.put i) conns[i].sd
          (((e.lock i).apply (st.log (event.lock c (e.lock i).ret))).log
            (event.request (some i) conns[i].sd))).2 hrest
      refine ⟨rc1, st1, ?_, ?_, ?_, ?_⟩
      · rw [h1]
        by_cases hok : put_ok (e.put i) = true
        · simp [hok, List.filter_cons]
        · simp [hok, List.filter_cons]
      · rw [h2, select_put_trace]
        simp [puts, Client.log, outcome.apply, List.filterMap_append]
      · rw [h3, select_put_trace]
        simp [gets, Client.log, outcome.apply, List.filterMap_append]
      · rw [h4, select_put_trace]
        simp [contacts, Client.log, outcome.apply, List.filterMap_append]
    · rw [up_servers_cons_down UP conns i rest _ hget hup]
      have hstep : select_send UP conns e c (i :: rest) rc failed st
          = select_send UP conns e c rest rc failed
              { st with pbs_errno := pbs_error.PBSE_NOSERVER } := by
        simp only [select_send, hget, hup, ne_eq, not_false_eq_true, ↓reduceIte]
      rw [hstep]
      exact ih rc failed _ hrest

theorem select_recv_ok (R : ReplyConsts) (UP : Int) (conns : List svr_conn_t) (e : select_env)
    (failed : List Nat) (hcalloc : e.calloc_ok = true)
    (hnode : ∀ i, (e.get i).node_ok = true) :
    ∀ (l : List Nat) (rlist : List batch_reply) (st : Client),
      (∀ i ∈ l, i < conns.length) →
      ∃ (rl : List batch_reply) (st1 : Client),
        select_recv R UP conns e failed l rlist st = some (rl, st1) ∧
        gets st1.trace = gets st.trace ++
          ((up_servers UP conns l).filter (fun x => decide (x.1 ∉ failed))).map
            (fun x => x.2.sd) ∧
        puts st1.trace = puts st.trace ∧
        contacts st1.trace = contacts st.trace := by
  intro l
  induction l with
  | nil =>
    intro rlist st _
    exact ⟨rlist, st, rfl, by simp [up_servers], rfl, rfl⟩
  | cons i rest ih =>
    intro rlist st hidx
    have hi : i < conns.length := hidx i (List.mem_cons_self _ _)
    have hrest : ∀ j ∈ rest, j < conns.length := fun j hj => hidx j (List.mem_cons_of_mem _ hj)
    have hget : conns[i]? = some conns[i] := List.getElem?_eq_getElem hi
    by_cases hup : conns[i].state = UP
    · rw [up_servers_cons_up UP conns i rest _ hget hup]
      by_cases hf : i ∈ failed
      · have hstep : select_recv R UP conns e failed (i :: rest) rlist st
            = select_recv R UP conns e failed rest rlist st := by
          simp only [select_recv, hget, hup, hcalloc, hf, ne_eq, not_true_eq_false,
            Bool.not_true, Bool.false_eq_true, ↓reduceIte]
        rw [hstep]
        obtain ⟨rl, st1, h1, h2, h3, h4⟩ := ih rlist st hrest
        exact ⟨rl, st1, h1, by rw [h2]; simp [List.filter_cons, hf], h3, h4⟩
      · obtain ⟨r, hr, htr⟩ := select_get_trace R (e.get i) conns[i].sd rlist st (hnode i)
        have hstep : select_recv R UP conns e failed (i :: rest) rlist st
            = select_recv R UP conns e failed rest r.1 r.2 := by
          simp only [select_recv, hget, hup, hcalloc, hf, hr, ne_eq, not_true_eq_false,
            Bool.not_true, Bool.false_eq_true, ↓reduceIte]
        rw [hstep]
        obtain ⟨rl, st1, h1, h2, h3, h4⟩ := ih r.1 r.2 hrest
        refine ⟨rl, st1, h1, ?_, ?_, ?_⟩
        · rw [h2, htr]
          simp [gets, List.filterMap_append, List.filter_cons, hf]
        · rw [h3, htr]
          simp [puts, List.filterMap_append]
        · rw [h4, htr]
          simp [contacts, List.filterMap_append]
    · rw [up_servers_cons_down UP conns i rest _ hget hup]
      have hstep : select_recv R UP conns e failed (i :: rest) rlist st
          = select_recv R UP conns e failed rest rlist st := by
        simp only [select_recv, hget, hup, ne_eq, not_false_eq_true, ↓reduceIte]
      rw [hstep]
      exact ih rlist st hrest

theorem up_servers_mem (UP : Int) (conns : List svr_conn_t) (l : List Nat)
    (x : Nat × svr_conn_t) (h : x ∈ up_servers UP conns l) :
    x.1 ∈ l ∧ conns[x.1]? = some x.2 ∧ x.2.state = UP := by
  simp only [up_servers, List.mem_filterMap] at h
  obtain ⟨i, hi, hx⟩ := h
  cases hc : conns[i]? with
  | none => simp [hc] at hx
  | some conn =>
    simp only [hc] at hx
    by_cases hup : conn.state = UP
    · simp only [hup, ↓reduceIte, Option.some.injEq] at hx
      subst hx
      exact ⟨hi, hc, hup⟩
    · simp [hup] at hx

theorem up_servers_fst (UP : Int) (conns : List svr_conn_t) (l : List Nat) :
    ((up_servers UP conns l).map Prod.fst).Sublist l := by
  induction l with
  | nil => simp [up_servers]
  | cons i rest ih =>
    cases hc : conns[i]? with
    | none =>
      have : up_servers UP conns (i :: rest) = up_servers UP conns rest := by
        simp [up_servers, List.filterMap_cons, hc]
      rw [this]
      exact ih.trans (List.sublist_cons_self _ _)
    | some conn =>
      by_cases hup : conn.state = UP
      · rw [up_servers_cons_up UP conns i rest conn hc hup]
        simpa using ih
      · rw [up_servers_cons_down UP conns i rest conn hc hup]
        exact ih.trans (List.sublist_cons_self _ _)

theorem up_servers_complete (UP : Int) (conns : List svr_conn_t) (l : List Nat) (i : Nat)
    (conn : svr_conn_t) (hi : i ∈ l) (hc : conns[i]? = some conn) (hup : conn.state = UP) :
    (i, conn) ∈ up_servers UP conns l := by
  simp only [up_servers, List.mem_filterMap]
  exact ⟨i, hi, by simp [hc, hup]⟩

theorem reply_to_jobarray_trace (malloc_ok : Bool) (rlist : List batch_reply) (st : Client) :
    (reply_to_jobarray malloc_ok rlist st).2.trace = st.trace := by
  simp only [reply_to_jobarray]
  split
  · rfl
  · split <;> rfl

theorem failed_filter (e : select_env) (up : List (Nat × svr_conn_t)) :
    up.filter (fun x =>
        decide (x.1 ∉ [] ++ (up.filter (fun y => !put_ok (e.put y.1))).map Prod.fst))
      = up.filter (fun x => put_ok (e.put x.1)) := by
  apply List.filter_congr
  intro x hx
  cases hok : put_ok (e.put x.1) with
  | true =>
    simp only [List.nil_append, decide_eq_true_eq, List.mem_map, List.mem_filter, not_exists,
      not_and]
    intro y hy hfst
    rw [hfst, hok] at hy
    exact absurd hy.2 (by decide)
  | false =>
    simp only [List.nil_append, decide_eq_false_iff_not, not_not, List.mem_map, List.mem_filter]
    exact ⟨x, ⟨hx, by simp [hok]⟩, rfl⟩

theorem select_jobids_all (rlist : List batch_reply)
    (hall : ∀ r ∈ rlist, r.brp_select ≠ []) :
    select_jobids rlist = (rlist.map (fun r => r.brp_select)).flatten := by
  induction rlist with
  | nil => rfl
  | cons r rest ih =>
    simp only [select_jobids, List.map_cons, List.flatten_cons]
    rw [if_neg (hall r (List.mem_cons_self _ _)),
      ih (fun x hx => hall x (List.mem_cons_of_mem _ hx))]

theorem inner_lock_balance (e : sig_env) (c : Int) (st : Client) :
    locks_taken (__pbs_sigjob_inner e c st).2.trace + unlock_calls st.trace
      = unlock_calls (__pbs_sigjob_inner e c st).2.trace + locks_taken st.trace := by
  simp only [__pbs_sigjob_inner]
  cases h1 : e.init.ret
  · simp [outcome.apply, Nat.add_comm]
  · cases h2 : e.lock.ret
    · simp [outcome.apply, Client.log, locks_taken, unlock_calls, List.filter_append,
        Nat.add_comm]
    · by_cases h3 : e.put.ret = pbs_error.PBSE_NONE
      · cases h4 : e.unlock.ret <;>
          simp [h3, outcome.apply, Client.log, locks_taken, unlock_calls, List.filter_append] <;>
          omega
      · simp [h3, outcome.apply, Client.log, locks_taken, unlock_calls, List.filter_append]
        omega

theorem inner_trace_shapes (e : sig_env) (c : Int) (st : Client) :
    (__pbs_sigjob_inner e c st).2.trace = st.trace ∨
    (__pbs_sigjob_inner e c st).2.trace = st.trace ++ [event.lock c false] ∨
    (__pbs_sigjob_inner e c st).2.trace
      = st.trace ++ [event.lock c true, event.put c, event.unlock c e.unlock.ret] ∨
    (__pbs_sigjob_inner e c st).2.trace
      = st.trace ++ [event.lock c true, event.put c, event.get c,
          event.unlock c e.unlock.ret] := by
  simp only [__pbs_sigjob_inner]
  cases h1 : e.init.ret
  · exact Or.inl rfl
  · cases h2 : e.lock.ret
    · exact Or.inr (Or.inl rfl)
    · by_cases h3 : e.put.ret = pbs_error.PBSE_NONE
      · refine Or.inr (Or.inr (Or.inr ?_))
        cases h4 : e.unlock.ret <;> simp [h3, outcome.apply, Client.log]
      · refine Or.inr (Or.inr (Or.inl ?_))
        simp [h3, outcome.apply, Client.log]

/-! ## Lemmas on the wire encoding -/

theorem dis_write_ok (item : dis_item) (w : Wire) (h : ∀ rc ∈ w.rcs, rc = 0) :
    ∃ w1 : Wire, dis_write item w = (0, w1) ∧ w1.out = w.out ++ [item] ∧
      ∀ rc ∈ w1.rcs, rc = 0 := by
  cases hr : w.rcs with
  | nil =>
    refine ⟨{ w with out := w.out ++ [item] }, by simp [dis_write, hr], rfl, ?_⟩
    intro rc hrc
    exact h rc hrc
  | cons rc rest =>
    have h0 : rc = 0 := h rc (by rw [hr]; exact List.mem_cons_self _ _)
    refine ⟨{ out := w.out ++ [item], rcs := rest }, by simp [dis_write, hr, h0], rfl, ?_⟩
    intro rc1 hrc1
    exact h rc1 (by rw [hr]; exact List.mem_cons_of_mem _ hrc1)

theorem name_len_fits (a : attrl) (h : a.fits) :
    name_len a = a.name.length + (a.value.getD []).length + 2
      + (match a.resource with
         | some r => r.length + 1
         | none => 0) := by
  unfold attrl.fits at h
  unfold name_len
  exact Nat.mod_eq_of_lt (by omega)

theorem encode_value_op_ok (SET : Nat) (value : List Char) (w : Wire)
    (h : ∀ rc ∈ w.rcs, rc = 0) :
    ∃ w1 : Wire, encode_value_op SET value w = (0, w1) ∧
      w1.out = w.out ++ [dis_item.st value, dis_item.ui SET] ∧ ∀ rc ∈ w1.rcs, rc = 0 := by
  obtain ⟨w1, h1, ho1, hz1⟩ := dis_write_ok (dis_item.st value) w h
  obtain ⟨w2, h2, ho2, hz2⟩ := dis_write_ok (dis_item.ui SET) w1 hz1
  refine ⟨w2, ?_, by rw [ho2, ho1]; simp, hz2⟩
  simp [encode_value_op, diswst, diswui, h1, h2]

theorem encode_entries_ok (SET : Nat) :
    ∀ (l : List attrl) (w : Wire), (∀ rc ∈ w.rcs, rc = 0) → (∀ a ∈ l, a.fits) →
      ∃ w1 : Wire, encode_entries SET l w = (0, w1) ∧
        w1.out = w.out ++ (l.map (attrl_frame SET)).flatten ∧ ∀ rc ∈ w1.rcs, rc = 0 := by
  intro l
  induction l with
  | nil =>
    intro w h _
    exact ⟨w, rfl, by simp, h⟩
  | cons ps rest ih =>
    intro w h hfit
    have hps : ps.fits := hfit ps (List.mem_cons_self _ _)
    have hrest : ∀ a ∈ rest, a.fits := fun a ha => hfit a (List.mem_cons_of_mem _ ha)
    obtain ⟨w1, h1, ho1, hz1⟩ := dis_write_ok (dis_item.ui (name_len ps)) w h
    obtain ⟨w2, h2, ho2, hz2⟩ := dis_write_ok (dis_item.st ps.name) w1 hz1
    cases hres : ps.resource with
    | some res =>
      obtain ⟨w3, h3, ho3, hz3⟩ := dis_write_ok (dis_item.ui 1) w2 hz2
      obtain ⟨w4, h4, ho4, hz4⟩ := dis_write_ok (dis_item.st res) w3 hz3
      obtain ⟨w5, h5, ho5, hz5⟩ := encode_value_op_ok SET (ps.value.getD []) w4 hz4
      obtain ⟨w6, h6, ho6, hz6⟩ := ih w5 hz5 hrest
      refine ⟨w6, ?_, ?_, hz6⟩
      · simp [encode_entries, diswui, diswst, h1, h2, hres, h3, h4, h5, h6]
      · rw [ho6, ho5, ho4, ho3, ho2, ho1, name_len_fits ps hps]
        simp [attrl_frame, hres]
    | none =>
      obtain ⟨w3, h3, ho3, hz3⟩ := dis_write_ok (dis_item.ui 0) w2 hz2
      obtain ⟨w5, h5, ho5, hz5⟩ := encode_value_op_ok SET (ps.value.getD []) w3 hz3
      obtain ⟨w6, h6, ho6, hz6⟩ := ih w5 hz5 hrest
      refine ⟨w6, ?_, ?_, hz6⟩
      · simp [encode_entries, diswui, diswst, h1, h2, hres, h3, h5, h6]
      · rw [ho6, ho5, ho3, ho2, ho1, name_len_fits ps hps]
        simp [attrl_frame, hres]

theorem encode_DIS_attrl_ok (SET : Nat) (l : List attrl) (w : Wire)
    (h : ∀ rc ∈ w.rcs, rc = 0) (hn : l.length < 4294967296) (hfit : ∀ a ∈ l, a.fits) :
    ∃ w1 : Wire, encode_DIS_attrl SET l w = (0, w1) ∧
      w1.out = w.out ++ attrl_frames SET l ∧ ∀ rc ∈ w1.rcs, rc = 0 := by
  obtain ⟨w1, h1, ho1, hz1⟩ := dis_write_ok (dis_item.ui (l.length % 4294967296)) w h
  obtain ⟨w2, h2, ho2, hz2⟩ := encode_entries_ok SET l w1 hz1 hfit
  refine ⟨w2, ?_, ?_, hz2⟩
  · simp [encode_DIS_attrl, diswui, h1, h2]
  · rw [ho2, ho1, Nat.mod_eq_of_lt hn]
    simp [attrl_frames]

theorem decode_entry_frame (SET : Nat) (a : attrl) (rest : List dis_item) :
    decode_entry (attrl_frame SET a ++ rest) = some (a.decoded SET, rest) := by
  cases hres : a.resource with
  | some res =>
    simp only [attrl_frame, hres, List.cons_append, List.nil_append, decode_entry,
      ↓reduceIte, attrl.decoded]
    rw [if_pos (by omega)]
  | none =>
    simp only [attrl_frame, hres, List.cons_append, List.nil_append, decode_entry,
      attrl.decoded]
    rw [if_neg (by decide), if_pos trivial, if_pos (by omega)]

theorem decode_entries_frames (SET : Nat) :
    ∀ (l : List attrl) (rest : List dis_item),
      decode_entries l.length ((l.map (attrl_frame SET)).flatten ++ rest)
        = some (l.map (attrl.decoded SET), rest) := by
  intro l
  induction l with
  | nil =>
    intro rest
    simp [decode_entries]
  | cons a l ih =>
    intro rest
    simp only [List.length_cons, List.map_cons, List.flatten_cons, List.append_assoc,
      decode_entries, decode_entry_frame, ih]

theorem decode_attrl_frames (SET : Nat) (l : List attrl) :
    decode_attrl (attrl_frames SET l) = some (l.map (attrl.decoded SET)) := by
  have h := decode_entries_frames SET l []
  rw [List.append_nil] at h
  simp only [decode_attrl, attrl_frames, h]

/-! ## Uniqueness of host and port in the registry -/

/-- C1 fails as stated: two `create_mom_entry` calls with the same host name of
256 characters (one more than `PBS_MAXHOSTNAME`) and the same port leave two
non-empty slots whose records have the same `(mi_host, mi_port)` pair. -/
theorem long_host_breaks_uniqueness :
    run_calls K0 [mom_call.create long_host 15002 true true none,
        mom_call.create long_host 15002 true true none] Server.init = some two_long ∧
      ¬ mom_unique two_long := by
  constructor
  · set_option maxRecDepth 100000 in
    decide
  · intro h
    have h01 := h 0 1 0 1 (new_mominfo K0 long_host 15002 none)
      (new_mominfo K0 long_host 15002 none) rfl rfl rfl rfl rfl rfl
    exact absurd h01 (by decide)

/-- C1, amended: for every sequence of `create_mom_entry` and
`delete_mom_entry` calls starting from the empty registry in which every host
name passed to `create_mom_entry` has at most `PBS_MAXHOSTNAME` characters,
`mominfo_array` never holds two non-empty slots whose records have the same
`(mi_host, mi_port)` pair. -/
theorem registry_unique (K : Consts) (calls : List mom_call) (s : Server)
    (hfits : ∀ c ∈ calls, mom_call.fits K c)
    (hrun : run_calls K calls Server.init = some s) : mom_unique s :=
  (registry_inv_run K calls Server.init s hfits registry_inv_init hrun).2

/-- Witness for C1: `sample_calls` runs to `sample_final`, whose two records
differ in host name. -/
theorem registry_unique_witness :
    (∀ c ∈ sample_calls, mom_call.fits K0 c) ∧
      run_calls K0 sample_calls Server.init = some sample_final ∧
      mom_unique sample_final :=
  have hfits : ∀ c ∈ sample_calls, mom_call.fits K0 c := by
    simp [sample_calls, mom_call.fits, K0]
  have hrun : run_calls K0 sample_calls Server.init = some sample_final := by decide
  ⟨hfits, hrun, registry_unique K0 sample_calls sample_final hfits hrun⟩

/-! ## Theorems on the peer registry -/

/-- C4: when `create_mom_entry` finds no matching record and the record can be
allocated, the record is stored in the lowest-index empty slot if there is one
and the array keeps its size; when no slot is empty (and the array can be
reallocated) the array grows by `GROW_MOMINFO_ARRAY_AMT` slots, the record is
stored at the index equal to the old size and the other new slots are empty.
Whatever the call does, the array changes size only when no slot was empty, and
then by exactly `GROW_MOMINFO_ARRAY_AMT`. -/
theorem create_mom_entry_placement (K : Consts) (hostname : List Char) (port : Nat)
    (pending : Option (List (Option Nat))) (s : Server)
    (hfind : find_mom_entry hostname port s = some none) :
    (∀ (e : Nat) (realloc_ok : Bool), s.mominfo_array[e]? = some none →
      (∀ j, j < e → s.mominfo_array[j]? ≠ some none) →
      create_mom_entry K hostname port realloc_ok true pending s =
        some (some s.heap.length,
          { s with
            heap := s.heap ++ [some (new_mominfo K hostname port pending)]
            mominfo_array := s.mominfo_array.set e (some s.heap.length)
            svr_num_moms := s.svr_num_moms + 1 })) ∧
    ((∀ x ∈ s.mominfo_array, x ≠ none) →
      create_mom_entry K hostname port true true pending s =
        some (some s.heap.length,
          { s with
            heap := s.heap ++ [some (new_mominfo K hostname port pending)]
            mominfo_array := s.mominfo_array ++
              some s.heap.length :: List.replicate (GROW_MOMINFO_ARRAY_AMT - 1) none
            svr_num_moms := s.svr_num_moms + 1 })) ∧
    (∀ (realloc_ok malloc_ok : Bool) (r : Option Ptr) (s1 : Server),
      create_mom_entry K hostname port realloc_ok malloc_ok pending s = some (r, s1) →
      s1.mominfo_array.length ≠ s.mominfo_array.length →
      (∀ x ∈ s.mominfo_array, x ≠ none) ∧
        s1.mominfo_array.length = s.mominfo_array.length + GROW_MOMINFO_ARRAY_AMT) := by
  refine ⟨?_, ?_, ?_⟩
  · intro e realloc_ok h1 h2
    rw [create_mom_entry_eq, hfind]
    simp [place_slot, first_empty_eq_some h1 h2]
  · intro hfull
    rw [create_mom_entry_eq, hfind]
    simp [place_slot, first_empty_eq_none hfull, GROW_MOMINFO_ARRAY_AMT,
      List.replicate_succ]
  · intro realloc_ok malloc_ok r s1 hc hne
    rw [create_mom_entry_eq, hfind] at hc
    simp only [place_slot] at hc
    cases hf : first_empty s.mominfo_array with
    | some k =>
      simp only [hf] at hc
      cases malloc_ok <;> simp at hc <;> obtain ⟨-, rfl⟩ := hc <;> simp at hne
    | none =>
      refine ⟨first_empty_none hf, ?_⟩
      simp only [hf] at hc
      cases realloc_ok <;> cases malloc_ok <;> simp at hc <;> obtain ⟨-, rfl⟩ := hc
        <;> simp at hne ⊢

/-- Witness for C4: on `one_mom` a new record for `nodeB` goes to slot 1, the
lowest empty slot; on `full_moms` a new record for `nodeC` goes to slot 2 of
the array grown to 12 slots. -/
theorem create_mom_entry_placement_witness :
    create_mom_entry K0 "nodeB".toList 15002 false true none one_mom =
        some (some 1,
          { one_mom with
            heap := one_mom.heap ++ [some (new_mominfo K0 "nodeB".toList 15002 none)]
            mominfo_array := one_mom.mominfo_array.set 1 (some 1)
            svr_num_moms := 2 }) ∧
    create_mom_entry K0 "nodeC".toList 15002 true true none full_moms =
        some (some 2,
          { full_moms with
            heap := full_moms.heap ++ [some (new_mominfo K0 "nodeC".toList 15002 none)]
            mominfo_array := [some 0, some 1, some 2] ++ List.replicate 9 none
            svr_num_moms := 3 }) :=
  ⟨(create_mom_entry_placement K0 "nodeB".toList 15002 none one_mom (by decide)).1 1 false
      (by decide) (by decide),
    (create_mom_entry_placement K0 "nodeC".toList 15002 none full_moms (by decide)).2.1
      (by decide)⟩

/-- C2 fails as stated. With a host name longer than `PBS_MAXHOSTNAME` the
stored `mi_host` is the truncated name, which `strcasecmp` tells apart from the
full name: the second call creates a second record (pointer 1, slot 1,
`svr_num_moms` 2) instead of returning the first (pointer 0).  And when the
`malloc` of the record fails the first call returns NULL while the second call
may return a record. -/
theorem create_mom_entry_twice_differs :
    (create_mom_entry K0 long_host 15002 true true none Server.init).map
        (fun r => (r.1, r.2.svr_num_moms)) = some (some 0, 1) ∧
    ((create_mom_entry K0 long_host 15002 true true none Server.init).bind
        (fun r => create_mom_entry K0 long_host 15002 true true none r.2)).map
        (fun r => (r.1, r.2.mominfo_array.take 2, r.2.svr_num_moms))
      = some (some 1, [some 0, some 1], 2) ∧
    (create_mom_entry K0 "nodeA".toList 15002 true false none Server.init).map
        (fun r => r.1) = some none ∧
    ((create_mom_entry K0 "nodeA".toList 15002 true false none Server.init).bind
        (fun r => create_mom_entry K0 "nodeA".toList 15002 true true none r.2)).map
        (fun r => (r.1, r.2.svr_num_moms)) = some (some 0, 1) := by
  set_option maxRecDepth 100000 in
  decide

/-- C2, amended: for a host name of at most `PBS_MAXHOSTNAME` characters, if a
call of `create_mom_entry` returns a record then a second call with the same
host and port, whatever its allocation outcomes, returns the same record and
leaves the whole state unchanged, in particular `mominfo_array`,
`mominfo_array_size` and `svr_num_moms`. -/
theorem create_mom_entry_idempotent (K : Consts) (hostname : List Char) (port : Nat)
    (hlen : hostname.length ≤ K.PBS_MAXHOSTNAME)
    (realloc_ok malloc_ok : Bool) (pending : Option (List (Option Nat))) (s s1 : Server)
    (r : Ptr)
    (h1 : create_mom_entry K hostname port realloc_ok malloc_ok pending s = some (some r, s1))
    (realloc_ok2 malloc_ok2 : Bool) (pending2 : Option (List (Option Nat))) :
    create_mom_entry K hostname port realloc_ok2 malloc_ok2 pending2 s1 = some (some r, s1) := by
  rw [create_mom_entry_eq,
    create_mom_entry_again K hostname port hlen realloc_ok malloc_ok pending s s1 r h1]

/-- Witness for C2: `nodeA:15002` created in the empty registry, then asked for
again while no allocation can succeed. -/
theorem create_mom_entry_idempotent_witness :
    create_mom_entry K0 "nodeA".toList 15002 true true none Server.init
        = some (some 0, one_mom) ∧
      create_mom_entry K0 "nodeA".toList 15002 false false none one_mom
        = some (some 0, one_mom) :=
  ⟨by decide, create_mom_entry_idempotent K0 "nodeA".toList 15002 (by decide) true true none
    Server.init one_mom 0 (by decide) false false none⟩

/-- C3: registry growth never loses records.  In a registry with no empty slot,
a `create_mom_entry` call that finds no match and can reallocate the array
grows it by `GROW_MOMINFO_ARRAY_AMT` slots; every record that was live before
the call is still in its slot, unchanged, and `find_mom_entry` for its own host
and port finds a record and returns the same pointer as before the call. -/
theorem growth_keeps_records (K : Consts) (hostname : List Char) (port : Nat)
    (malloc_ok : Bool) (pending : Option (List (Option Nat))) (s : Server)
    (hfull : ∀ x ∈ s.mominfo_array, x ≠ none)
    (hfind : find_mom_entry hostname port s = some none) :
    ∃ (r : Option Ptr) (s1 : Server),
      create_mom_entry K hostname port true malloc_ok pending s = some (r, s1) ∧
      s1.mominfo_array.length = s.mominfo_array.length + GROW_MOMINFO_ARRAY_AMT ∧
      ∀ (i : Nat) (q : Ptr) (rec : mominfo_t),
        s.mominfo_array[i]? = some (some q) → deref s.heap q = some rec →
        s1.mominfo_array[i]? = some (some q) ∧ deref s1.heap q = some rec ∧
        find_mom_entry rec.mi_host rec.mi_port s1 = find_mom_entry rec.mi_host rec.mi_port s ∧
        ∃ q0, find_mom_entry rec.mi_host rec.mi_port s1 = some (some q0) := by
  have hlive := find_scan_live _ _ _ _ hfind
  have hself : ∀ (i : Nat) (q : Ptr) (rec : mominfo_t),
      s.mominfo_array[i]? = some (some q) → deref s.heap q = some rec →
      ∃ q0, find_scan s.heap rec.mi_host rec.mi_port s.mominfo_array = some (some q0) :=
    fun i q rec hi hq => find_scan_exists _ _ _ _ q rec hlive (List.getElem?_mem hi) hq
      ⟨strcasecmp_self _, rfl⟩
  rw [create_mom_entry_eq, hfind]
  simp only [place_slot, first_empty_eq_none hfull, ↓reduceIte]
  cases malloc_ok with
  | false =>
    refine ⟨_, _, rfl, by simp, ?_⟩
    intro i q rec hi hq
    have hlt : i < s.mominfo_array.length := (List.getElem?_eq_some.1 hi).1
    obtain ⟨q0, hq0⟩ := hself i q rec hi hq
    refine ⟨by simpa [List.getElem?_append_left hlt] using hi, hq, ?_, ?_⟩
    · simp only [find_mom_entry]
      exact find_scan_append_none _ _ _ _ _
    · exact ⟨q0, by simpa [find_mom_entry, find_scan_append_none] using hq0⟩
  | true =>
    refine ⟨_, _, rfl, by simp, ?_⟩
    intro i q rec hi hq
    have hlt : i < s.mominfo_array.length := (List.getElem?_eq_some.1 hi).1
    obtain ⟨q0, hq0⟩ := hself i q rec hi hq
    have hq0' : find_scan (s.heap ++ [some (new_mominfo K hostname port pending)])
        rec.mi_host rec.mi_port s.mominfo_array = some (some q0) := by
      rw [find_scan_congr _ _ _ _ _ _]
      · exact hq0
      · intro p hp
        exact deref_append _ _ _ (deref_lt (hlive p hp))
    have hfound : find_mom_entry rec.mi_host rec.mi_port
        { s with
          heap := s.heap ++ [some (new_mominfo K hostname port pending)]
          mominfo_array := (s.mominfo_array ++ List.replicate GROW_MOMINFO_ARRAY_AMT none).set
            s.mominfo_array.length (some s.heap.length)
          svr_num_moms := s.svr_num_moms + 1 } = some (some q0) := by
      simp only [find_mom_entry, List.set_append_right _ _ (Nat.le_refl _)]
      exact find_scan_append_found _ _ _ _ _ _ hq0'
    refine ⟨?_, ?_, ?_, q0, hfound⟩
    · simp only
      rw [List.getElem?_set_ne (by omega), List.getElem?_append_left hlt]
      exact hi
    · simp only
      rw [deref_append _ _ _ (deref_lt (by simp [hq]))]
      exact hq
    · rw [hfound]
      exact hq0.symm

/-- Witness for C3: `full_moms` has no empty slot; creating `nodeC` grows the
array from 2 to 12 slots and both records stay where they were. -/
theorem growth_keeps_records_witness :
    ∃ (r : Option Ptr) (s1 : Server),
      create_mom_entry K0 "nodeC".toList 15002 true true none full_moms = some (r, s1) ∧
      s1.mominfo_array.length = 2 + GROW_MOMINFO_ARRAY_AMT ∧
      ∀ (i : Nat) (q : Ptr) (rec : mominfo_t),
        full_moms.mominfo_array[i]? = some (some q) → deref full_moms.heap q = some rec →
        s1.mominfo_array[i]? = some (some q) ∧ deref s1.heap q = some rec ∧
        find_mom_entry rec.mi_host rec.mi_port s1
          = find_mom_entry rec.mi_host rec.mi_port full_moms ∧
        ∃ q0, find_mom_entry rec.mi_host rec.mi_port s1 = some (some q0) :=
  growth_keeps_records K0 "nodeC".toList 15002 true none full_moms (by decide) (by decide)

/-- C8: for a record `r` held in slot `i` of the registry (the first slot that
holds it; a registry built by `create_mom_entry` holds a record in one slot
only), `delete_mom_entry(r)` sets slot `i` to NULL, leaves every other slot and
the array size unchanged, frees the record and decrements `svr_num_moms` by
one; nothing else changes.  `delete_mom_entry(NULL)` changes nothing. -/
theorem delete_mom_entry_frame (s : Server) :
    (∀ (i : Nat) (r : Ptr), s.mominfo_array[i]? = some (some r) →
      (∀ j, j < i → s.mominfo_array[j]? ≠ some (some r)) →
      (deref s.heap r).isSome = true →
      delete_mom_entry (some r) s =
        some { s with
          mominfo_array := s.mominfo_array.set i none
          heap := s.heap.set r none
          svr_num_moms := s.svr_num_moms - 1 } ∧
      (s.mominfo_array.set i none).length = s.mominfo_array.length ∧
      ∀ j, j ≠ i → (s.mominfo_array.set i none)[j]? = s.mominfo_array[j]?) ∧
    delete_mom_entry none s = some s := by
  refine ⟨?_, rfl⟩
  intro i r h1 h2 h3
  obtain ⟨rec, hrec⟩ := Option.isSome_iff_exists.1 h3
  refine ⟨?_, by simp, ?_⟩
  · simp [delete_mom_entry, hrec, null_slot_eq_set r _ i h1 h2]
  · intro j hj
    exact List.getElem?_set_ne (Ne.symm hj)

/-- Witness for C8: deleting the only record of `one_mom` empties slot 0 and
brings `svr_num_moms` from 1 to 0. -/
theorem delete_mom_entry_frame_witness :
    delete_mom_entry (some 0) one_mom =
      some { one_mom with
        mominfo_array := List.replicate 10 none
        heap := [none]
        svr_num_moms := 0 } :=
  ((delete_mom_entry_frame one_mom).1 0 0 (by decide) (by decide) (by decide)).1

/-! ## Theorems on role data and the reverse index -/

/-- C6: after a successful `create_svrmom_entry(host, port, addrs)` on a record
that had no role data (a record created by the call, or found with `mi_data`
NULL), every address of the zero terminated list `addrs` is mapped in the
reverse index: `tfind2(a, port, ipaddrs)` returns the record, and the record's
`msr_addrs` is `addrs`. -/
theorem create_svrmom_entry_maps (K : Consts) (hostname : List Char) (port : Nat)
    (pul : ulbuf) (realloc_ok malloc_ok : Bool) (pending : Option (List (Option Nat)))
    (svrinfo_ok children_ok : Bool) (s s2 : Server) (pmom : Ptr)
    (hc : create_svrmom_entry K hostname port pul realloc_ok malloc_ok pending svrinfo_ok
      children_ok s = some (some pmom, s2))
    (hnodata : ∀ r, deref s.heap pmom = some r → r.mi_data = none) :
    (∀ a ∈ addr_list pul.words, tfind2 a port s2.ipaddrs = some pmom) ∧
    ∃ (r : mominfo_t) (d : mom_svrinfo_t),
      deref s2.heap pmom = some r ∧ r.mi_data = some d ∧ d.msr_addrs = some pul := by
  obtain ⟨s1, r, -, hr, -, -, rfl⟩ := create_svrmom_entry_success K hostname port pul
    realloc_ok malloc_ok pending svrinfo_ok children_ok s s2 pmom hc hnodata
  refine ⟨fun a ha => tfind2_insert_addrs _ _ _ _ _ ha,
    { r with mi_data := some (new_svrinfo K pul) }, new_svrinfo K pul, ?_, rfl, rfl⟩
  exact deref_set_same _ _ _ (deref_lt (by simp [hr]))

/-- Witness for C6: `nodeA` with addresses 10.0.0.1 and 10.0.0.2 created in the
empty registry. -/
theorem create_svrmom_entry_maps_witness :
    create_svrmom_entry K0 "nodeA".toList 15002 pul0 true true none true true Server.init
        = some (some 0, one_svrmom) ∧
      (∀ a ∈ addr_list pul0.words, tfind2 a 15002 one_svrmom.ipaddrs = some 0) ∧
      ∃ (r : mominfo_t) (d : mom_svrinfo_t),
        deref one_svrmom.heap 0 = some r ∧ r.mi_data = some d ∧ d.msr_addrs = some pul0 :=
  ⟨by decide,
    create_svrmom_entry_maps K0 "nodeA".toList 15002 pul0 true true none true true
      Server.init one_svrmom 0 (by decide) (fun _ h => nomatch h)⟩

/-- C5: deleting a record removes all of its addresses from the reverse index.
If `create_svrmom_entry(host, port, addrs)` succeeded on a record that had no
role data, then in every state in which the record is as the call left it,
`delete_svrmom_entry` of the record is defined and afterwards
`tfind2(a, port, ipaddrs)` is not found for every address `a` of `addrs`. -/
theorem delete_svrmom_entry_removes_addrs (K : Consts) (hostname : List Char) (port : Nat)
    (pul : ulbuf) (realloc_ok malloc_ok : Bool) (pending : Option (List (Option Nat)))
    (svrinfo_ok children_ok : Bool) (s s2 s3 : Server) (pmom : Ptr)
    (hc : create_svrmom_entry K hostname port pul realloc_ok malloc_ok pending svrinfo_ok
      children_ok s = some (some pmom, s2))
    (hnodata : ∀ r, deref s.heap pmom = some r → r.mi_data = none)
    (hsame : deref s3.heap pmom = deref s2.heap pmom) :
    ∃ s4, delete_svrmom_entry (some pmom) s3 = some s4 ∧
      ∀ a ∈ addr_list pul.words, tfind2 a port s4.ipaddrs = none := by
  obtain ⟨s1, r, -, hr, -, hport, rfl⟩ := create_svrmom_entry_success K hostname port pul
    realloc_ok malloc_ok pending svrinfo_ok children_ok s s2 pmom hc hnodata
  have hr2 : deref s3.heap pmom = some { r with mi_data := some (new_svrinfo K pul) } := by
    rw [hsame]
    exact deref_set_same _ _ _ (deref_lt (by simp [hr]))
  have := delete_svrmom_entry_unmaps s3 pmom _ (new_svrinfo K pul) pul hr2 rfl rfl
  simpa [hport] using this

/-- Witness for C5: `nodeA` created with two addresses, then deleted: the
registry and the reverse index are empty again. -/
theorem delete_svrmom_entry_removes_addrs_witness :
    create_svrmom_entry K0 "nodeA".toList 15002 pul0 true true none true true Server.init
        = some (some 0, one_svrmom) ∧
      delete_svrmom_entry (some 0) one_svrmom = some no_moms ∧
      ∃ s4, delete_svrmom_entry (some 0) one_svrmom = some s4 ∧
        ∀ a ∈ addr_list pul0.words, tfind2 a 15002 s4.ipaddrs = none :=
  ⟨by decide, by decide,
    delete_svrmom_entry_removes_addrs K0 "nodeA".toList 15002 pul0 true true none true true
      Server.init one_svrmom one_svrmom 0 (by decide) (fun _ h => nomatch h) rfl⟩

/-- C7 fails as stated: when the record for the host and port exists already
without role data (here the `nodeA:15002` record of `one_mom`, made by
`create_mom_entry`), a failed allocation of the role data makes
`create_svrmom_entry` delete that record: the call returns NULL, the set of
live records goes from one record to none and `svr_num_moms` from 1 to 0. -/
theorem create_svrmom_entry_deletes_existing :
    create_svrmom_entry K0 "nodeA".toList 15002 pul0 true true none false true one_mom
        = some (none, no_moms) ∧
      live_records one_mom = [(0, some (new_mominfo K0 "nodeA".toList 15002 none))] ∧
      live_records no_moms = [] ∧
      one_mom.svr_num_moms = 1 ∧ no_moms.svr_num_moms = 0 := by
  decide

/-- C7, amended: if no record for the host and port is registered before the
call and the allocation of the role data or of its children array fails, then
`create_svrmom_entry` returns NULL and the live records (with their role data),
`svr_num_moms` and the reverse index are the same as before the call. -/
theorem create_svrmom_entry_rollback (K : Consts) (hostname : List Char) (port : Nat)
    (pul : ulbuf) (realloc_ok malloc_ok : Bool) (pending : Option (List (Option Nat)))
    (svrinfo_ok children_ok : Bool) (s : Server)
    (hfind : find_mom_entry hostname port s = some none)
    (hfail : svrinfo_ok = false ∨ children_ok = false) :
    ∃ s1, create_svrmom_entry K hostname port pul realloc_ok malloc_ok pending svrinfo_ok
        children_ok s = some (none, s1) ∧
      live_records s1 = live_records s ∧ s1.svr_num_moms = s.svr_num_moms ∧
      s1.ipaddrs = s.ipaddrs := by
  have hlive := find_scan_live _ _ _ _ hfind
  unfold create_svrmom_entry
  rw [create_mom_entry_eq, hfind]
  simp only
  cases hp : place_slot realloc_ok s.mominfo_array with
  | none => exact ⟨s, rfl, rfl, rfl, rfl⟩
  | some ea =>
    obtain ⟨e, arr⟩ := ea
    simp only
    cases malloc_ok with
    | false =>
      refine ⟨_, rfl, ?_, rfl, rfl⟩
      exact place_slot_live_records s.heap hp
    | true =>
      simp only [↓reduceIte, deref_append_new]
      have hdel : delete_mom_entry (some s.heap.length)
          { s with
            heap := s.heap ++ [some (new_mominfo K hostname port pending)]
            mominfo_array := arr.set e (some s.heap.length)
            svr_num_moms := s.svr_num_moms + 1 } =
          some { s with
            heap := (s.heap ++ [some (new_mominfo K hostname port pending)]).set
              s.heap.length none
            mominfo_array := arr
            svr_num_moms := s.svr_num_moms } := by
        have hnot : some s.heap.length ∉ arr := by
          intro hm
          exact Nat.lt_irrefl _ (deref_lt (hlive _ ((place_slot_mem hp _).1 hm)))
        simp [delete_mom_entry, deref_append_new, null_slot_set_new _ _ _ (place_slot_get hp).1 hnot]
      have hres : ∃ s1,
          (Option.map (fun s2 => ((none : Option Ptr), s2))
            (delete_mom_entry (some s.heap.length)
              { s with
                heap := s.heap ++ [some (new_mominfo K hostname port pending)]
                mominfo_array := arr.set e (some s.heap.length)
                svr_num_moms := s.svr_num_moms + 1 })) = some (none, s1) ∧
          live_records s1 = live_records s ∧ s1.svr_num_moms = s.svr_num_moms ∧
          s1.ipaddrs = s.ipaddrs := by
        rw [hdel]
        refine ⟨_, rfl, ?_, rfl, rfl⟩
        simp only [live_records]
        rw [live_records_congr s.heap, place_slot_live_records s.heap hp]
        intro q hq
        have hq' := deref_lt (hlive q ((place_slot_mem hp q).1 hq))
        rw [deref_set_ne _ _ _ _ (Nat.ne_of_lt hq'), deref_append _ _ _ hq']
      have hnd : (new_mominfo K hostname port pending).mi_data.isSome = false := rfl
      simp only [hnd, Bool.false_eq_true, ↓reduceIte]
      rcases hfail with rfl | rfl
      · simpa using hres
      · cases svrinfo_ok <;> simpa using hres

/-- Witness for C7: on `one_mom`, creating `nodeB` while the role data cannot be
allocated returns NULL and leaves the `nodeA` record, the counter and the
reverse index as they were. -/
theorem create_svrmom_entry_rollback_witness :
    find_mom_entry "nodeB".toList 15002 one_mom = some none ∧
      ∃ s1, create_svrmom_entry K0 "nodeB".toList 15002 pul0 true true none false true
          one_mom = some (none, s1) ∧
        live_records s1 = live_records one_mom ∧ s1.svr_num_moms = one_mom.svr_num_moms ∧
        s1.ipaddrs = one_mom.ipaddrs :=
  ⟨by decide,
    create_svrmom_entry_rollback K0 "nodeB".toList 15002 pul0 true true none false true
      one_mom (by decide) (Or.inl rfl)⟩

/-! ## Theorems on the address cache -/

/-- C9 fails as stated.  After `nodeA` was resolved once (result list at
address 0, cached copy at address 1), a second call performs no resolution but
does not return the same list object: it returns a newly allocated copy (at
address 2) with the same words, and when that allocation fails it returns
`PBSE_SYSTEM` and no list at all. -/
theorem make_host_addresses_list_second_call :
    make_host_addresses_list resolve_dual all_ok (some "nodeA".toList) Server.init
        = (pbs_error.PBSE_NONE, some { base := 0, words := [167772161, 0] }, cached_nodeA) ∧
      make_host_addresses_list resolve_dual all_ok (some "nodeA".toList) cached_nodeA
        = (pbs_error.PBSE_NONE, some { base := 2, words := [167772161, 0] },
            { cached_nodeA with brk := 3 }) ∧
      make_host_addresses_list resolve_dual pul_fails (some "nodeA".toList) cached_nodeA
        = (pbs_error.PBSE_SYSTEM, none, cached_nodeA) := by
  decide

/-- C9, amended: if `make_host_addresses_list(h)` succeeds and is called again
in a state with the same cache (no removal in between), the second call
performs no external resolution, whatever the resolver would answer; when the
allocation of its result succeeds it returns success and a newly allocated
list, at an address other than that of the first call's list, holding the same
words; when that allocation fails it returns `PBSE_SYSTEM` and no list. -/
theorem make_host_addresses_list_cached (g1 g2 : List Char → Option (List addrinfo))
    (al1 al2 : cache_allocs) (host : List Char) (s s1 s2 : Server) (out1 : Option ulbuf)
    (h1 : make_host_addresses_list g1 al1 (some host) s = (pbs_error.PBSE_NONE, out1, s1))
    (hcache : s2.hostaddr_tree = s1.hostaddr_tree) (hbrk : s1.brk ≤ s2.brk) :
    (make_host_addresses_list g2 al2 (some host) s2).2.2.resolutions = s2.resolutions ∧
    (al2.pul_ok = true →
      (make_host_addresses_list g2 al2 (some host) s2).1 = pbs_error.PBSE_NONE ∧
      ∃ b1 b2 : ulbuf, out1 = some b1 ∧
        (make_host_addresses_list g2 al2 (some host) s2).2.1 = some b2 ∧
        b2.words = b1.words ∧ b2.base ≠ b1.base) ∧
    (al2.pul_ok = false →
      (make_host_addresses_list g2 al2 (some host) s2).1 = pbs_error.PBSE_SYSTEM ∧
      (make_host_addresses_list g2 al2 (some host) s2).2.1 = none) := by
  obtain ⟨tpul, b1, hne, hfind, hout, hbase, hlt, hwords⟩ :=
    make_host_addresses_list_ok g1 al1 host s s1 out1 h1
  rw [← hcache] at hfind
  rw [make_host_addresses_list_hit g2 al2 host s2 tpul hne hfind]
  refine ⟨?_, ?_, ?_⟩
  · split <;> rfl
  · intro hok
    simp only [hok, ↓reduceIte, true_and]
    refine ⟨b1, _, hout, rfl, hwords, ?_⟩
    simp only [hbase]
    omega
  · intro hok
    simp [hok]

/-- Witness for C9: `nodeA` resolved from the initial state, then asked for
again, once with memory for the copy and once without. -/
theorem make_host_addresses_list_cached_witness :
    make_host_addresses_list resolve_dual all_ok (some "nodeA".toList) Server.init
        = (pbs_error.PBSE_NONE, some { base := 0, words := [167772161, 0] }, cached_nodeA) ∧
      (make_host_addresses_list resolve_fails all_ok (some "nodeA".toList)
        cached_nodeA).2.2.resolutions = 1 ∧
      (make_host_addresses_list resolve_fails all_ok (some "nodeA".toList) cached_nodeA).1
        = pbs_error.PBSE_NONE ∧
      (make_host_addresses_list resolve_fails pul_fails (some "nodeA".toList) cached_nodeA).1
        = pbs_error.PBSE_SYSTEM :=
  ⟨by decide,
    (make_host_addresses_list_cached resolve_dual resolve_fails all_ok all_ok "nodeA".toList
      Server.init cached_nodeA cached_nodeA (some { base := 0, words := [167772161, 0] })
      (by decide) rfl (Nat.le_refl _)).1,
    ((make_host_addresses_list_cached resolve_dual resolve_fails all_ok all_ok "nodeA".toList
      Server.init cached_nodeA cached_nodeA (some { base := 0, words := [167772161, 0] })
      (by decide) rfl (Nat.le_refl _)).2.1 rfl).1,
    ((make_host_addresses_list_cached resolve_dual resolve_fails all_ok pul_fails
      "nodeA".toList Server.init cached_nodeA cached_nodeA
      (some { base := 0, words := [167772161, 0] }) (by decide) rfl (Nat.le_refl _)).2.2 rfl).1⟩

/-- C10 fails as stated: when the resolver succeeds but returns only a non-IPv4
address, `make_host_addresses_list` does not fail: it returns `PBSE_NONE` with
a list that holds the terminator only, and inserts that list into the cache. -/
theorem make_host_addresses_list_no_ipv4 :
    make_host_addresses_list resolve_v6_only all_ok (some "nodeV6".toList) Server.init
      = (pbs_error.PBSE_NONE, some { base := 0, words := [0] }, cached_nodeV6) := by
  decide

/-- C10, amended: `make_host_addresses_list` returns `PBSE_UNKNODE` exactly
when the host name is non-empty, is not in the cache and the external resolver
fails; in that case no list is returned and nothing is inserted into the
cache. -/
theorem make_host_addresses_list_unknode (getaddrinfo : List Char → Option (List addrinfo))
    (al : cache_allocs) (phost : Option (List Char)) (s : Server) :
    ((make_host_addresses_list getaddrinfo al phost s).1 = pbs_error.PBSE_UNKNODE ↔
      ∃ host, phost = some host ∧ host ≠ [] ∧
        s.hostaddr_tree.bind (fun t => find_tree t host) = none ∧ getaddrinfo host = none) ∧
    ((make_host_addresses_list getaddrinfo al phost s).1 = pbs_error.PBSE_UNKNODE →
      (make_host_addresses_list getaddrinfo al phost s).2.1 = none ∧
      (make_host_addresses_list getaddrinfo al phost s).2.2.hostaddr_tree = s.hostaddr_tree) := by
  cases phost with
  | none =>
    refine ⟨⟨fun h => ?_, fun ⟨_, h, _⟩ => ?_⟩, fun h => ?_⟩
    · simp [make_host_addresses_list] at h
    · simp at h
    · simp [make_host_addresses_list] at h
  | some host =>
    cases host with
    | nil =>
      refine ⟨⟨fun h => ?_, fun ⟨_, h, hne, _⟩ => ?_⟩, fun h => ?_⟩
      · simp [make_host_addresses_list] at h
      · simp only [Option.some.injEq] at h
        exact absurd h.symm hne
      · simp [make_host_addresses_list] at h
    | cons c cs =>
      cases hf : s.hostaddr_tree.bind (fun t => find_tree t (c :: cs)) with
      | some tpul =>
        have hne : (make_host_addresses_list getaddrinfo al (some (c :: cs)) s).1
            ≠ pbs_error.PBSE_UNKNODE := by
          rw [make_host_addresses_list_hit getaddrinfo al (c :: cs) s tpul (by simp) hf]
          split <;> simp
        refine ⟨⟨fun h => absurd h hne, fun ⟨host, h, _, hmiss, _⟩ => ?_⟩, fun h => absurd h hne⟩
        simp only [Option.some.injEq] at h
        subst h
        rw [hf] at hmiss
        simp at hmiss
      | none =>
        cases hg : getaddrinfo (c :: cs) with
        | some pai =>
          have hne := make_host_addresses_list_resolved getaddrinfo al c cs s pai hf hg
          refine ⟨⟨fun h => absurd h hne, fun ⟨host, h, _, _, hres⟩ => ?_⟩,
            fun h => absurd h hne⟩
          simp only [Option.some.injEq] at h
          subst h
          rw [hg] at hres
          simp at hres
        | none =>
          rw [make_host_addresses_list_unresolved getaddrinfo al c cs s hf hg]
          exact ⟨⟨fun _ => ⟨c :: cs, rfl, by simp, hf, hg⟩, fun _ => rfl⟩, fun _ => ⟨rfl, rfl⟩⟩

/-! ## Theorems on the connection manager -/

/-- C11: for every callback, connection type and protocol, `svr_connect` with
`hostaddr == pbs_server_addr` and `port == pbs_server_port_dis` returns
`PBS_LOCAL_CONNECTION` and leaves the whole state as it was, whatever the
state is: no `client_to_svr` call, no change of `pbs_errno`, of a peer record,
of the reverse index or of the connection table. -/
theorem svr_connect_local (K : Consts) (N : NetConsts) (func : Option Nat)
    (cntype : conn_type) (prot : Int) (env : connect_env) (s : Net) :
    svr_connect K N s.pbs_server_addr s.pbs_server_port_dis func cntype prot env s
      = some (N.PBS_LOCAL_CONNECTION, s) := by
  simp [svr_connect]

/-- C13: for `prot == PROT_TPP` and a target that is not the server itself,
`svr_connect` needs a peer record.  If `tfind2(hostaddr, port, ipaddrs)` finds
none it returns `PBS_NET_RC_RETRY`, sets `pbs_errno` to `PBSE_SYSTEM` and
changes nothing else (no connection is attempted).  If it finds a record with
role data whose state does not have `INUSE_DOWN` it returns the stored
`msr_stream` and changes nothing. -/
theorem svr_connect_tpp (K : Consts) (N : NetConsts) (hostaddr port : Nat)
    (func : Option Nat) (cntype : conn_type) (env : connect_env) (s : Net)
    (hself : ¬ (hostaddr = s.pbs_server_addr ∧ port = s.pbs_server_port_dis)) :
    (tfind2 hostaddr port s.srv.ipaddrs = none →
      svr_connect K N hostaddr port func cntype N.PROT_TPP env s
        = some (PBS_NET_RC_RETRY, { s with pbs_errno := pbs_error.PBSE_SYSTEM })) ∧
    (∀ (pmom : Ptr) (r : mominfo_t) (d : mom_svrinfo_t),
      tfind2 hostaddr port s.srv.ipaddrs = some pmom → deref s.srv.heap pmom = some r →
      r.mi_data = some d → d.msr_state &&& K.INUSE_DOWN = 0 →
      svr_connect K N hostaddr port func cntype N.PROT_TPP env s = some (d.msr_stream, s)) := by
  constructor
  · intro hnone
    simp [svr_connect, hself, svr_connect_peer, hnone]
  · intro pmom r d hfind hr hd hup
    by_cases hp : port = r.mi_port
    · simp [svr_connect, hself, svr_connect_peer, hfind, hr, hd, hup, hp.symm]
    · simp [svr_connect, hself, svr_connect_peer, hfind, hr, hd, hp]

/-- Witness for C13: from `net_up`, a tunnel connect to the unknown address
10.0.0.7 is told to retry, and a tunnel connect to `nodeA` (10.0.0.1:15002, up
on stream 4) returns 4. -/
theorem svr_connect_tpp_witness :
    svr_connect K0 N0 167772167 15002 none conn_type.ToServerDIS N0.PROT_TPP connects_first
        net_up = some (PBS_NET_RC_RETRY, { net_up with pbs_errno := pbs_error.PBSE_SYSTEM }) ∧
      svr_connect K0 N0 167772161 15002 none conn_type.ToServerDIS N0.PROT_TPP connects_first
        net_up = some (4, net_up) :=
  ⟨(svr_connect_tpp K0 N0 167772167 15002 none conn_type.ToServerDIS connects_first net_up
      (by decide)).1 (by decide),
    (svr_connect_tpp K0 N0 167772161 15002 none conn_type.ToServerDIS connects_first net_up
      (by decide)).2 0 nodeA_up nodeA_up_data (by decide) (by decide) rfl (by decide)⟩

/-- C12 fails as stated: the value of the last `client_to_svr` attempt does not
decide success on its own.  Here the first attempt returns socket 7, yet
`svr_connect` fails with `PBS_NET_RC_FATAL` because `add_conn` returns NULL: the
socket is closed and `pbs_errno` is `PBSE_SYSTEM`. -/
theorem svr_connect_unregistered_fails :
    svr_connect K0 N0 167772167 15002 none conn_type.ToServerDIS 0 connects_unregistered net0
      = some (PBS_NET_RC_FATAL,
          { net0 with
            client_to_svr_calls := [(167772167, 15002)]
            closed := [7]
            pbs_errno := pbs_error.PBSE_SYSTEM }) := by
  decide

/-- C12, amended: on the direct stream path (target not the server itself,
protocol not `PROT_TPP`, peer lookup passed) `svr_connect` calls
`client_to_svr` once or twice, and twice if and only if the first attempt
returned a negative value with `errno == ECONNREFUSED`.  When the last attempt
is negative `svr_connect` fails: it returns that value, sets `pbs_errno` to
`PBSE_NORELYMOM` and registers nothing.  When the last attempt is a socket,
`svr_connect` returns it and registers it if `add_conn` gives an entry, and
otherwise closes it and returns `PBS_NET_RC_FATAL`. -/
theorem svr_connect_retry (K : Consts) (N : NetConsts) (hostaddr port : Nat)
    (func : Option Nat) (cntype : conn_type) (prot : Int) (env : connect_env) (s s1 : Net)
    (pmom : Option Ptr)
    (hself : ¬ (hostaddr = s.pbs_server_addr ∧ port = s.pbs_server_port_dis))
    (hprot : prot ≠ N.PROT_TPP)
    (hpeer : svr_connect_peer K hostaddr port env s = some (peer_check.go pmom s1))
    (hdata : ∀ p, pmom = some p → ∃ r d, deref s1.srv.heap p = some r ∧ r.mi_data = some d) :
    ∃ (ret : Int) (s2 : Net),
      svr_connect K N hostaddr port func cntype prot env s = some (ret, s2) ∧
      (if env.first.sock < 0 ∧ env.first.errno = N.ECONNREFUSED then
        s2.client_to_svr_calls
            = s1.client_to_svr_calls ++ [(hostaddr, port), (hostaddr, port)] ∧
          (env.second.sock < 0 → ret = env.second.sock ∧ s2.conns = s1.conns ∧
            s2.pbs_errno = pbs_error.PBSE_NORELYMOM) ∧
          (0 ≤ env.second.sock → env.add_conn_ok = true → ret = env.second.sock ∧
            ∃ conn, s2.conns = s1.conns ++ [conn] ∧ conn.cn_sock = env.second.sock) ∧
          (0 ≤ env.second.sock → env.add_conn_ok = false → ret = PBS_NET_RC_FATAL ∧
            s2.closed = s1.closed ++ [env.second.sock] ∧ s2.conns = s1.conns)
      else
        s2.client_to_svr_calls = s1.client_to_svr_calls ++ [(hostaddr, port)] ∧
          (env.first.sock < 0 → ret = env.first.sock ∧ s2.conns = s1.conns ∧
            s2.pbs_errno = pbs_error.PBSE_NORELYMOM) ∧
          (0 ≤ env.first.sock → env.add_conn_ok = true → ret = env.first.sock ∧
            ∃ conn, s2.conns = s1.conns ++ [conn] ∧ conn.cn_sock = env.first.sock) ∧
          (0 ≤ env.first.sock → env.add_conn_ok = false → ret = PBS_NET_RC_FATAL ∧
            s2.closed = s1.closed ++ [env.first.sock] ∧ s2.conns = s1.conns)) := by
  have hdown : ∀ (p : Ptr), pmom = some p → ∃ srv1, momptr_down K p s1.srv = some srv1 := by
    intro p hp
    obtain ⟨r, d, hr, hd⟩ := hdata p hp
    simp [momptr_down, hr, hd]
  have hconn : ∀ (sock : Int) (s2 : Net),
      ∃ conn : conn_t, s2.conns ++ [match func with
        | some f =>
          { cn_sock := sock, cn_active := conn_type.ToServerDIS, cn_addr := hostaddr,
            cn_port := port, cn_func := some f, cn_authen := N.PBS_NET_CONN_AUTHENTICATED }
        | none =>
          { cn_sock := sock, cn_active := conn_type.ToServerDIS, cn_addr := 0,
            cn_port := 0, cn_func := none, cn_authen := N.PBS_NET_CONN_AUTHENTICATED }]
        = s2.conns ++ [conn] ∧ conn.cn_sock = sock := by
    intro sock s2
    cases func <;> exact ⟨_, rfl, rfl⟩
  by_cases hretry : env.first.sock < 0 ∧ env.first.errno = N.ECONNREFUSED
  · by_cases hneg : env.second.sock < 0
    · cases pmom with
      | none =>
        simp [svr_connect, hself, hpeer, hprot, svr_connect_tcp, client_to_svr, hretry, hneg]
        exact ⟨_, _, ⟨rfl, rfl⟩, rfl, rfl, rfl, rfl⟩
      | some p =>
        obtain ⟨srv1, hsrv1⟩ := hdown p rfl
        simp [svr_connect, hself, hpeer, hprot, svr_connect_tcp, client_to_svr, hretry, hneg,
          hsrv1]
        exact ⟨_, _, ⟨rfl, rfl⟩, rfl, rfl, rfl, rfl⟩
    · cases hadd : env.add_conn_ok with
      | true =>
        simp [svr_connect, hself, hpeer, hprot, svr_connect_tcp, client_to_svr, hretry, hneg,
          hadd]
        exact ⟨_, _, ⟨rfl, rfl⟩, rfl, fun _ => ⟨rfl, hconn _ _⟩⟩
      | false =>
        simp [svr_connect, hself, hpeer, hprot, svr_connect_tcp, client_to_svr, hretry, hneg,
          hadd]
        exact ⟨_, _, ⟨rfl, rfl⟩, rfl, fun _ => ⟨rfl, rfl, rfl⟩⟩
  · by_cases hneg : env.first.sock < 0
    · have herr : env.first.errno ≠ N.ECONNREFUSED := fun h => hretry ⟨hneg, h⟩
      cases pmom with
      | none =>
        simp [svr_connect, hself, hpeer, hprot, svr_connect_tcp, client_to_svr, hneg, herr]
        exact ⟨_, _, ⟨rfl, rfl⟩, rfl, rfl, rfl, rfl⟩
      | some p =>
        obtain ⟨srv1, hsrv1⟩ := hdown p rfl
        simp [svr_connect, hself, hpeer, hprot, svr_connect_tcp, client_to_svr, hneg, herr,
          hsrv1]
        exact ⟨_, _, ⟨rfl, rfl⟩, rfl, rfl, rfl, rfl⟩
    · cases hadd : env.add_conn_ok with
      | true =>
        simp [svr_connect, hself, hpeer, hprot, svr_connect_tcp, client_to_svr, hretry, hneg,
          hadd]
        exact ⟨_, _, ⟨rfl, rfl⟩, rfl, fun _ => ⟨rfl, hconn _ _⟩⟩
      | false =>
        simp [svr_connect, hself, hpeer, hprot, svr_connect_tcp, client_to_svr, hretry, hneg,
          hadd]
        exact ⟨_, _, ⟨rfl, rfl⟩, rfl, fun _ => ⟨rfl, rfl, rfl⟩⟩

/-- Witness for C12: from `net0`, a direct connect to the unknown address
10.0.0.7 whose first attempt is refused calls `client_to_svr` twice and
returns the socket of the second attempt. -/
theorem svr_connect_retry_witness :
    svr_connect_peer K0 167772167 15002 connects_second net0
        = some (peer_check.go none net0) ∧
      svr_connect K0 N0 167772167 15002 none conn_type.ToServerDIS 0 connects_second net0
        = some (8,
          { net0 with
            conns := [conn_second]
            client_to_svr_calls := [(167772167, 15002), (167772167, 15002)] }) ∧
      ∃ (ret : Int) (s2 : Net),
        svr_connect K0 N0 167772167 15002 none conn_type.ToServerDIS 0 connects_second net0
          = some (ret, s2) ∧
        s2.client_to_svr_calls = [(167772167, 15002), (167772167, 15002)] ∧ ret = 8 := by
  obtain ⟨ret, s2, h1, h2⟩ := svr_connect_retry K0 N0 167772167 15002 none
    conn_type.ToServerDIS 0 connects_second net0 net0 none (by decide) (by decide) (by decide)
    (fun _ h => nomatch h)
  rw [if_pos (by decide)] at h2
  exact ⟨by decide, by decide, ret, s2, h1, h2.1, (h2.2.2.1 (by decide) rfl).1⟩

/-- C14: liveness of a peer.  A record freshly given role data by
`create_svrmom_entry` has state exactly `INUSE_UNKNOWN | INUSE_DOWN` and stream
-1.  For a record with role data, `open_momstream` stores the stream returned
by `rpp_open` in `msr_stream`; when that stream is not negative the new state
has neither `INUSE_DOWN` nor `INUSE_UNKNOWN`, every other state bit is as
before and `tfind2(stream, 0, streams)` returns the record; when it is
negative the state flags and the `streams` index are unchanged. -/
theorem open_momstream_liveness (K : Consts) :
    (∀ (hostname : List Char) (port : Nat) (pul : ulbuf) (realloc_ok malloc_ok : Bool)
        (pending : Option (List (Option Nat))) (svrinfo_ok children_ok : Bool)
        (s s2 : Server) (pmom : Ptr),
      create_svrmom_entry K hostname port pul realloc_ok malloc_ok pending svrinfo_ok
        children_ok s = some (some pmom, s2) →
      (∀ r, deref s.heap pmom = some r → r.mi_data = none) →
      ∃ (r : mominfo_t) (d : mom_svrinfo_t), deref s2.heap pmom = some r ∧
        r.mi_data = some d ∧ d.msr_state = K.INUSE_UNKNOWN ||| K.INUSE_DOWN ∧
        d.msr_stream = -1) ∧
    (∀ (s : Server) (pmom : Ptr) (port : Nat) (stream : Int) (r : mominfo_t)
        (d : mom_svrinfo_t),
      deref s.heap pmom = some r → r.mi_data = some d →
      ∃ (s1 : Server) (d1 : mom_svrinfo_t),
        open_momstream K pmom port stream s = some (stream, s1) ∧
        deref s1.heap pmom = some { r with mi_data := some d1 } ∧
        d1.msr_stream = stream ∧
        (0 ≤ stream →
          d1.msr_state &&& K.INUSE_DOWN = 0 ∧ d1.msr_state &&& K.INUSE_UNKNOWN = 0 ∧
          (∀ i, (K.INUSE_UNKNOWN ||| K.INUSE_DOWN).testBit i = false →
            d1.msr_state.testBit i = d.msr_state.testBit i) ∧
          tfind2 stream.toNat 0 s1.streams = some pmom) ∧
        (stream < 0 → d1.msr_state = d.msr_state ∧ s1.streams = s.streams)) := by
  constructor
  · intro hostname port pul realloc_ok malloc_ok pending svrinfo_ok children_ok s s2 pmom hc
      hnodata
    obtain ⟨s1, r, -, hr, -, -, rfl⟩ := create_svrmom_entry_success K hostname port pul
      realloc_ok malloc_ok pending svrinfo_ok children_ok s s2 pmom hc hnodata
    exact ⟨{ r with mi_data := some (new_svrinfo K pul) }, new_svrinfo K pul,
      deref_set_same _ _ _ (deref_lt (by simp [hr])), rfl, rfl, rfl⟩
  · intro s pmom port stream r d hr hd
    have hlt : pmom < s.heap.length := deref_lt (by simp [hr])
    by_cases hs : 0 ≤ stream
    · refine ⟨{ s with
          heap := s.heap.set pmom (some { r with mi_data := some { d with
            msr_stream := stream
            msr_state := clear_bits d.msr_state (K.INUSE_UNKNOWN ||| K.INUSE_DOWN) } })
          streams := tinsert2 stream.toNat 0 pmom s.streams },
        { d with
          msr_stream := stream
          msr_state := clear_bits d.msr_state (K.INUSE_UNKNOWN ||| K.INUSE_DOWN) }, ?_, ?_, rfl,
        fun _ => ⟨?_, ?_, ?_, ?_⟩, fun h => absurd hs (not_le.2 h)⟩
      · simp only [open_momstream, hr, hd, ge_iff_le, hs, ↓reduceIte]
      · exact deref_set_same _ _ _ hlt
      · exact clear_bits_and_right _ _ _
      · exact clear_bits_and_left _ _ _
      · intro i hi
        simp only [testBit_clear_bits, hi, Bool.not_false, Bool.and_true]
      · exact tfind2_tinsert2_same _ _ _ _
    · refine ⟨{ s with
          heap := s.heap.set pmom (some { r with mi_data := some { d with
            msr_stream := stream } }) },
        { d with msr_stream := stream }, ?_, ?_, rfl, fun h => absurd h hs,
        fun _ => ⟨rfl, rfl⟩⟩
      · simp only [open_momstream, hr, hd, ge_iff_le, hs, ↓reduceIte]
      · exact deref_set_same _ _ _ hlt

/-- Witness for C14: `nodeA` is created down and unknown with stream -1;
`open_momstream` returning stream 4 gives `one_svrmom_up` (state 0, stream 4
in `streams`), and returning -1 leaves the state at
`INUSE_UNKNOWN | INUSE_DOWN`. -/
theorem open_momstream_liveness_witness :
    create_svrmom_entry K0 "nodeA".toList 15002 pul0 true true none true true Server.init
        = some (some 0, one_svrmom) ∧
      deref one_svrmom.heap 0
        = some { new_mominfo K0 "nodeA".toList 15002 none with
            mi_data := some (new_svrinfo K0 pul0) } ∧
      (new_svrinfo K0 pul0).msr_state = 258 ∧ (new_svrinfo K0 pul0).msr_stream = -1 ∧
      open_momstream K0 0 15002 4 one_svrmom = some (4, one_svrmom_up) ∧
      tfind2 4 0 one_svrmom_up.streams = some 0 ∧
      (∃ (s1 : Server) (d1 : mom_svrinfo_t),
        open_momstream K0 0 15002 (-1) one_svrmom = some (-1, s1) ∧
        deref s1.heap 0 = some { new_mominfo K0 "nodeA".toList 15002 none with
          mi_data := some d1 } ∧ d1.msr_state = 258) := by
  obtain ⟨s1, d1, h1, h2, -, -, h5⟩ := (open_momstream_liveness K0).2 one_svrmom 0 15002 (-1)
    { new_mominfo K0 "nodeA".toList 15002 none with mi_data := some (new_svrinfo K0 pul0) }
    (new_svrinfo K0 pul0) (by decide) rfl
  exact ⟨by decide, by decide, by decide, by decide, by decide, by decide,
    s1, d1, h1, h2, (h5 (by decide)).1⟩

/-! ## Theorems on the failover loops of the client library -/

/-- C16: for every `NSVR`, starting index below `NSVR`, array of `NSVR`
coordinators, socket `c` and outcomes of the requests, the failover loops of
`__pbs_sigjob` and of `pbs_modify_resv` end within their `NSVR` iterations, and
the coordinators for which they call the request function are, in order, the
first `k` elements (for some `k`) of the circular order `start`,
`(start + 1) % NSVR`, ... restricted to the coordinators that are present and
in state `UP`.  That order has no repetition and at most `NSVR` elements, so no
coordinator is contacted twice and none that is not `UP` is contacted. -/
theorem failover_loop_order (NSVR : Nat) (UP : Int) (svr_conns : List (Option svr_conn_t))
    (c : Int) (start : Nat) (st : Client)
    (hstart : start < NSVR) (hlen : svr_conns.length = NSVR) :
    (up_order NSVR UP svr_conns start).Nodup ∧
    (up_order NSVR UP svr_conns start).length ≤ NSVR ∧
    (∀ i ∈ up_order NSVR UP svr_conns start,
      ∃ conn, svr_conns[i]? = some (some conn) ∧ conn.state = UP) ∧
    (∀ envs : Nat → sig_env, ∃ (r : pbs_error) (st1 : Client) (k : Nat),
      sigjob_loop NSVR UP svr_conns envs c start NSVR st = some (r, st1) ∧
      contacts st1.trace = contacts st.trace ++ (up_order NSVR UP svr_conns start).take k) ∧
    (∀ (envs : Nat → outcome (Option (List Char))) (ret : Option (List Char)),
      ∃ (r : Option (List Char)) (st1 : Client) (k : Nat),
      modify_resv_loop NSVR UP svr_conns envs ret start NSVR st = some (r, st1) ∧
      contacts st1.trace = contacts st.trace ++ (up_order NSVR UP svr_conns start).take k) := by
  have hidx : ∀ j ∈ circ_from NSVR start NSVR, j < svr_conns.length := by
    rw [hlen]
    exact circ_from_lt NSVR start NSVR hstart
  refine ⟨up_order_nodup NSVR UP svr_conns start hstart, up_order_length NSVR UP svr_conns start,
    ?_, ?_, ?_⟩
  · intro i hi
    simp only [up_order, List.mem_filter, conn_up] at hi
    obtain ⟨-, hup⟩ := hi
    cases hx : svr_conns[i]? with
    | none => simp [hx] at hup
    | some slot =>
      cases slot with
      | none => simp [hx] at hup
      | some conn => exact ⟨conn, rfl, by simpa [hx] using hup⟩
  · intro envs
    obtain ⟨k, hk⟩ := sig_route_take envs c (up_conns UP svr_conns (circ_from NSVR start NSVR)) st
    rw [up_conns_order NSVR UP svr_conns start hstart] at hk
    exact ⟨_, _, k, sigjob_loop_eq NSVR UP svr_conns envs c start NSVR st hidx, hk⟩
  · intro envs ret
    obtain ⟨k, hk⟩ := resv_route_take envs ret
      (up_conns UP svr_conns (circ_from NSVR start NSVR)) st
    rw [up_conns_order NSVR UP svr_conns start hstart] at hk
    exact ⟨_, _, k, modify_resv_loop_eq NSVR UP svr_conns envs ret start NSVR st hidx, hk⟩

/-- Witness for C16: three coordinators, the third down, start index 1.  The
order restricted to `UP` is 1, 0; the signal loop contacts 1 (unknown job) and
then 0 (success), and so does the modify loop. -/
theorem failover_loop_order_witness :
    up_order 3 UP0 conns3 1 = [1, 0] ∧
      (sigjob_loop 3 UP0 conns3 sig_only0 99 1 3 client0).map
          (fun r => (r.1, contacts r.2.trace)) = some (pbs_error.PBSE_NONE, [1, 0]) ∧
      (modify_resv_loop 3 UP0 conns3 resv_only0 none 1 3 client0).map
          (fun r => (r.1, contacts r.2.trace)) = some (some "ok".toList, [1, 0]) ∧
      (∀ envs : Nat → sig_env, ∃ (r : pbs_error) (st1 : Client) (k : Nat),
        sigjob_loop 3 UP0 conns3 envs 99 1 3 client0 = some (r, st1) ∧
        contacts st1.trace = contacts client0.trace ++ (up_order 3 UP0 conns3 1).take k) :=
  ⟨by decide, by decide, by decide,
    (failover_loop_order 3 UP0 conns3 99 1 client0 (by decide) (by decide)).2.2.2.1⟩

/-- C15 fails as stated: only the hint -1 is replaced by 0.  With three
coordinators and the out-of-range hint 5 the starting index is 5, and both
`__pbs_sigjob` and `pbs_modify_resv` read `svr_conns[5]`, outside the array
(the value `none` of the functions). -/
theorem hint_out_of_range_is_used :
    failover_start 5 = 5 ∧
      __pbs_sigjob 3 UP0 (some conns3) 5 sig_only0 (sig_reply pbs_error.PBSE_NONE) 99
          (some "1.svr".toList) (some "SIGTERM".toList) client0 = none ∧
      pbs_modify_resv 3 UP0 (some conns3) 5 verify_ok resv_only0 (resv_ok "ok".toList) 99
          client0 = none := by
  decide

/-- C15, amended: the starting index of the failover loops of `__pbs_sigjob`
and `pbs_modify_resv` is 0 when the hint is -1 (absent) and is the hint
otherwise.  When the hint is absent or valid (`0 <= hint < NSVR`) and there is
at least one coordinator, the starting index and every index the loops visit
lie in `[0, NSVR)`, and the loops read `svr_conns` inside its `NSVR` entries
(they are defined). -/
theorem failover_start_in_range (NSVR : Nat) (hint : Int)
    (hvalid : hint = -1 ∨ (0 ≤ hint ∧ hint < NSVR)) (hpos : 0 < NSVR) :
    failover_start hint = (if hint = -1 then 0 else hint) ∧
    0 ≤ failover_start hint ∧ (failover_start hint).toNat < NSVR ∧
    (∀ j ∈ circ_from NSVR (failover_start hint).toNat NSVR, j < NSVR) ∧
    (∀ (UP : Int) (svr_conns : List (Option svr_conn_t)) (c : Int) (st : Client),
      svr_conns.length = NSVR →
      (∀ envs : Nat → sig_env,
        (sigjob_loop NSVR UP svr_conns envs c (failover_start hint).toNat NSVR st).isSome
          = true) ∧
      (∀ (envs : Nat → outcome (Option (List Char))) (ret : Option (List Char)),
        (modify_resv_loop NSVR UP svr_conns envs ret (failover_start hint).toNat NSVR
          st).isSome = true)) := by
  have h0 : 0 ≤ failover_start hint := by
    unfold failover_start
    split <;> omega
  have hlt : (failover_start hint).toNat < NSVR := by
    unfold failover_start
    split
    · simpa using hpos
    · omega
  have hidx := circ_from_lt NSVR (failover_start hint).toNat NSVR hlt
  refine ⟨rfl, h0, hlt, hidx, ?_⟩
  intro UP svr_conns c st hlen
  constructor
  · intro envs
    rw [sigjob_loop_eq NSVR UP svr_conns envs c _ NSVR st (by rw [hlen]; exact hidx)]
    rfl
  · intro envs ret
    rw [modify_resv_loop_eq NSVR UP svr_conns envs ret _ NSVR st (by rw [hlen]; exact hidx)]
    rfl

/-- Witness for C15: three coordinators; the hint 1 gives the starting index 1
and the absent hint -1 gives the starting index 0. -/
theorem failover_start_in_range_witness :
    failover_start 1 = 1 ∧ failover_start (-1) = 0 ∧
      circ_from 3 (failover_start 1).toNat 3 = [1, 2, 0] ∧
      (∀ j ∈ circ_from 3 (failover_start 1).toNat 3, j < 3) ∧
      (∀ j ∈ circ_from 3 (failover_start (-1)).toNat 3, j < 3) :=
  ⟨by decide, by decide, by decide,
    (failover_start_in_range 3 1 (Or.inr (by decide)) (by decide)).2.2.2.1,
    (failover_start_in_range 3 (-1) (Or.inl rfl) (by decide)).2.2.2.1⟩

/-- C17: first success wins after routing misses.  The array has `NSVR`
coordinators, the hint is absent or valid, the job id and signal are given, the
attributes verify and `svr_conns[0]` is present.  In the circular order of the
`UP` coordinators from the starting index, `pre` are the coordinators before
`k`; each of them fails with target-not-recognized (`PBSE_UNKJOBID` for
`__pbs_sigjob`, `PBSE_UNKRESVID` with a NULL reply for `pbs_modify_resv`) and
`k` succeeds (code 0 with `pbs_errno` 0, or the reply `msg`).  Then both
functions return, and whenever the run contacted `pre` and then `k`, the value
returned is the success of `k` (0, or `msg`) and no coordinator is contacted
after `k`.  The run does contact `pre` and then `k` unless it ended earlier on
the caller's own connection: for `__pbs_sigjob` when no coordinator of `pre`
has the socket `c`, for `pbs_modify_resv` when `svr_conns[0]` does not have the
socket `c`. -/
theorem first_success_wins (NSVR : Nat) (UP : Int) (svr_conns : List (Option svr_conn_t))
    (hint : Int) (sig_envs : Nat → sig_env) (env_c : sig_env) (verify_rc : outcome Bool)
    (resv_envs : Nat → outcome (Option (List Char))) (c : Int)
    (jobid sig : Option (List Char)) (st : Client) (conn0 : svr_conn_t) (msg : List Char)
    (pre post : List Nat) (k : Nat)
    (hjob : jobid ≠ none) (hjob2 : jobid ≠ some []) (hsig : sig ≠ none)
    (hver : verify_rc.ret = true) (h0 : svr_conns[0]? = some (some conn0))
    (hlen : svr_conns.length = NSVR) (hpos : 0 < NSVR)
    (hvalid : hint = -1 ∨ (0 ≤ hint ∧ hint < NSVR))
    (horder : up_order NSVR UP svr_conns (failover_start hint).toNat = pre ++ k :: post)
    (hmiss_sig : ∀ j ∈ pre, sig_replies (sig_envs j) pbs_error.PBSE_UNKJOBID)
    (hmiss_resv : ∀ j ∈ pre, resv_fails (resv_envs j) pbs_error.PBSE_UNKRESVID)
    (hok_sig : sig_replies (sig_envs k) pbs_error.PBSE_NONE)
    (hok_resv : (resv_envs k).ret = some msg) :
    (∃ (r : pbs_error) (st1 : Client),
      __pbs_sigjob NSVR UP (some svr_conns) hint sig_envs env_c c jobid sig st = some (r, st1) ∧
      (∀ tail, contacts st1.trace = contacts st.trace ++ (pre ++ k :: tail) →
        r = pbs_error.PBSE_NONE ∧ st1.pbs_errno = pbs_error.PBSE_NONE ∧ tail = []) ∧
      ((∀ j ∈ pre, ∀ cj, svr_conns[j]? = some (some cj) → cj.sd ≠ c) →
        r = pbs_error.PBSE_NONE ∧ contacts st1.trace = contacts st.trace ++ (pre ++ [k]))) ∧
    (∃ (r : Option (List Char)) (st1 : Client),
      pbs_modify_resv NSVR UP (some svr_conns) hint verify_rc resv_envs (resv_envs 0) c st
        = some (r, st1) ∧
      (∀ tail, contacts st1.trace = contacts st.trace ++ (pre ++ k :: tail) →
        r = some msg ∧ tail = []) ∧
      (conn0.sd ≠ c →
        r = some msg ∧ contacts st1.trace = contacts st.trace ++ (pre ++ [k]))) := by
  have hne : pbs_error.PBSE_NONE ≠ pbs_error.PBSE_UNKJOBID := by decide
  have hstop : (resv_envs k).ret ≠ none ∨
      ∃ E, (resv_envs k).sets = some E ∧ E ≠ pbs_error.PBSE_UNKRESVID :=
    Or.inl (by rw [hok_resv]; exact Option.some_ne_none _)
  constructor
  · have hrun := pbs_sigjob_eq_route NSVR UP svr_conns hint sig_envs env_c c jobid sig st hjob
      hjob2 hsig hlen hpos hvalid
    refine ⟨_, _, hrun, ?_, ?_⟩
    · intro tail h
      exact sig_route_stop sig_envs c k _ hne hok_sig _ st pre tail h
    · intro hown
      obtain ⟨stk, conn, l2, -, -, hreach, hc⟩ := pbs_sigjob_reach NSVR UP svr_conns hint sig_envs
        env_c c jobid sig st pre post k hjob hjob2 hsig hlen hpos hvalid horder hmiss_sig hown
      rw [Option.some.inj (hrun.symm.trans hreach)]
      obtain ⟨h1, -, h3⟩ := sig_route_head_stop sig_envs c k conn l2 stk _ hne hok_sig
      exact ⟨h1, by rw [h3, hc, List.append_assoc]⟩
  · by_cases hsd : conn0.sd = c
    · have hrun : pbs_modify_resv NSVR UP (some svr_conns) hint verify_rc resv_envs (resv_envs 0)
          c st = some (PBSD_modify_resv (resv_envs 0) (some 0) c (verify_rc.apply st)) := by
        simp only [pbs_modify_resv, hver, Bool.not_true, Bool.false_eq_true, ↓reduceIte, h0, hsd]
      refine ⟨_, _, hrun, ?_, fun h => absurd hsd h⟩
      intro tail h
      have h5 : contacts (PBSD_modify_resv (resv_envs 0) (some 0) c
          (verify_rc.apply st)).2.trace = contacts st.trace ++ (pre ++ k :: tail) := h
      rw [modify_contacts_log, apply_contacts] at h5
      have h := h5
      obtain ⟨-, hik, ht⟩ := singleton_eq_append_cons 0 k pre tail (List.append_cancel_left h)
      subst hik
      exact ⟨hok_resv, ht⟩
    · have hrun := pbs_modify_resv_eq_route NSVR UP svr_conns hint verify_rc resv_envs
        (resv_envs 0) c st conn0 hver h0 hsd hlen hpos hvalid
      refine ⟨_, _, hrun, ?_, ?_⟩
      · intro tail h
        obtain ⟨h1, -, h3⟩ := resv_route_stop resv_envs k hstop _ none (verify_rc.apply st) pre
          tail h
        exact ⟨h1.trans hok_resv, h3⟩
      · intro _
        obtain ⟨stk, conn, l2, -, -, hreach, hc⟩ := pbs_modify_resv_reach NSVR UP svr_conns hint
          verify_rc resv_envs (resv_envs 0) c st conn0 pre post k hver h0 hsd hlen hpos hvalid
          horder hmiss_resv
        rw [Option.some.inj (hrun.symm.trans hreach),
          resv_route_head_stop resv_envs k conn l2 none stk hstop]
        exact ⟨hok_resv, by rw [modify_contacts_log, hc, List.append_assoc]⟩

/-- Witness for C17: three coordinators, hint 1, coordinator 1 misses,
coordinator 2 is down, coordinator 0 succeeds, and the caller's handle 99 is
none of their sockets.  Both functions contact 1 and then 0 and return the
success of coordinator 0. -/
theorem first_success_wins_witness :
    up_order 3 UP0 conns3 (failover_start 1).toNat = [1] ++ 0 :: [] ∧
      (__pbs_sigjob 3 UP0 (some conns3) 1 sig_only0 (sig_reply pbs_error.PBSE_NONE) 99
          (some "1.svr".toList) (some "SIGTERM".toList) client0).map
          (fun r => (r.1, contacts r.2.trace)) = some (pbs_error.PBSE_NONE, [1, 0]) ∧
      (pbs_modify_resv 3 UP0 (some conns3) 1 verify_ok resv_only0 (resv_only0 0) 99
          client0).map (fun r => (r.1, contacts r.2.trace)) = some (some "ok".toList, [1, 0]) ∧
      (∃ (r : pbs_error) (st1 : Client),
        __pbs_sigjob 3 UP0 (some conns3) 1 sig_only0 (sig_reply pbs_error.PBSE_NONE) 99
          (some "1.svr".toList) (some "SIGTERM".toList) client0 = some (r, st1) ∧
        (∀ tail, contacts st1.trace = contacts client0.trace ++ ([1] ++ 0 :: tail) →
          r = pbs_error.PBSE_NONE ∧ st1.pbs_errno = pbs_error.PBSE_NONE ∧ tail = []) ∧
        ((∀ j ∈ [1], ∀ cj, conns3[j]? = some (some cj) → cj.sd ≠ 99) →
          r = pbs_error.PBSE_NONE ∧
            contacts st1.trace = contacts client0.trace ++ ([1] ++ [0]))) :=
  ⟨by decide, by decide, by decide,
    (first_success_wins 3 UP0 conns3 1 sig_only0 (sig_reply pbs_error.PBSE_NONE) verify_ok
      resv_only0 99 (some "1.svr".toList) (some "SIGTERM".toList) client0
      { sd := 10, state := 1 } "ok".toList [1] [] 0
      (by decide) (by decide) (by decide) rfl rfl rfl (by decide) (Or.inr (by decide))
      (by decide)
      (fun j hj => by
        rw [List.mem_singleton] at hj
        subst hj
        exact sig_reply_replies pbs_error.PBSE_UNKJOBID)
      (fun j hj => by
        rw [List.mem_singleton] at hj
        subst hj
        exact ⟨rfl, rfl⟩)
      (sig_reply_replies pbs_error.PBSE_NONE) rfl).1⟩

/-- C18 fails as stated: a coordinator that fails with target-not-recognized
ends the operation, although a coordinator remains, when it is reached on the
caller's own connection.  Two coordinators, both up, on sockets 10 and 11; the
handle is 10, there is no hint, coordinator 0 misses and coordinator 1 would
succeed.  `__pbs_sigjob` returns `PBSE_UNKJOBID` and `pbs_modify_resv` returns
NULL with `pbs_errno` at `PBSE_UNKRESVID`, each after contacting coordinator 0
only. -/
theorem own_connection_miss_ends :
    up_order 2 UP0 conns2 (failover_start (-1)).toNat = [0, 1] ∧
      (__pbs_sigjob 2 UP0 (some conns2) (-1) sig_only1 (sig_reply pbs_error.PBSE_NONE) 10
          (some "1.svr".toList) (some "SIGTERM".toList) client0).map
          (fun r => (r.1, r.2.pbs_errno, contacts r.2.trace))
        = some (pbs_error.PBSE_UNKJOBID, pbs_error.PBSE_UNKJOBID, [0]) ∧
      (pbs_modify_resv 2 UP0 (some conns2) (-1) verify_ok resv_only1 (resv_only1 0) 10
          client0).map (fun r => (r.1, r.2.pbs_errno, contacts r.2.trace))
        = some (none, pbs_error.PBSE_UNKRESVID, [0]) := by
  decide

/-- C18, amended: the array has `NSVR` coordinators, the hint is absent or
valid, the job id and signal are given, the attributes verify, and
`svr_conns[0]` is present and is not the caller's own connection.  In the
circular order of the `UP` coordinators from the starting index, the
coordinators `pre` before `k` fail with target-not-recognized and none of them
has the socket `c`, so that `k` is contacted.  When `k` ends with a code other
than target-not-recognized, no further coordinator is contacted and the caller
receives that code (`__pbs_sigjob` returns it; `pbs_modify_resv` returns NULL
with `pbs_errno` set to it).  When `k` fails with target-not-recognized, does
not have the socket `c`, and `k2` is the next `UP` coordinator of the order,
`k2` is contacted next. -/
theorem error_classification (NSVR : Nat) (UP : Int) (svr_conns : List (Option svr_conn_t))
    (hint : Int) (sig_envs : Nat → sig_env) (env_c : sig_env) (verify_rc : outcome Bool)
    (resv_envs : Nat → outcome (Option (List Char))) (env_r : outcome (Option (List Char)))
    (c : Int) (jobid sig : Option (List Char)) (st : Client) (conn0 : svr_conn_t)
    (pre post : List Nat) (k : Nat)
    (hjob : jobid ≠ none) (hjob2 : jobid ≠ some []) (hsig : sig ≠ none)
    (hver : verify_rc.ret = true) (h0 : svr_conns[0]? = some (some conn0))
    (hsd0 : conn0.sd ≠ c) (hlen : svr_conns.length = NSVR) (hpos : 0 < NSVR)
    (hvalid : hint = -1 ∨ (0 ≤ hint ∧ hint < NSVR))
    (horder : up_order NSVR UP svr_conns (failover_start hint).toNat = pre ++ k :: post)
    (hmiss_sig : ∀ j ∈ pre, sig_replies (sig_envs j) pbs_error.PBSE_UNKJOBID)
    (hmiss_resv : ∀ j ∈ pre, resv_fails (resv_envs j) pbs_error.PBSE_UNKRESVID)
    (hown : ∀ j ∈ pre, ∀ cj, svr_conns[j]? = some (some cj) → cj.sd ≠ c) :
    (∀ E, E ≠ pbs_error.PBSE_UNKJOBID → sig_replies (sig_envs k) E →
      ∃ st1, __pbs_sigjob NSVR UP (some svr_conns) hint sig_envs env_c c jobid sig st
          = some (E, st1) ∧
        st1.pbs_errno = E ∧ contacts st1.trace = contacts st.trace ++ (pre ++ [k])) ∧
    (∀ E, E ≠ pbs_error.PBSE_UNKRESVID → resv_fails (resv_envs k) E →
      ∃ st1, pbs_modify_resv NSVR UP (some svr_conns) hint verify_rc resv_envs env_r c st
          = some (none, st1) ∧
        st1.pbs_errno = E ∧ contacts st1.trace = contacts st.trace ++ (pre ++ [k])) ∧
    (∀ k2 post2 ck, post = k2 :: post2 → svr_conns[k]? = some (some ck) → ck.sd ≠ c →
      sig_replies (sig_envs k) pbs_error.PBSE_UNKJOBID →
      ∃ r st1 tail, __pbs_sigjob NSVR UP (some svr_conns) hint sig_envs env_c c jobid sig st
          = some (r, st1) ∧
        contacts st1.trace = contacts st.trace ++ (pre ++ k :: k2 :: tail)) ∧
    (∀ k2 post2, post = k2 :: post2 → resv_fails (resv_envs k) pbs_error.PBSE_UNKRESVID →
      ∃ r st1 tail, pbs_modify_resv NSVR UP (some svr_conns) hint verify_rc resv_envs env_r c st
          = some (r, st1) ∧
        contacts st1.trace = contacts st.trace ++ (pre ++ k :: k2 :: tail)) := by
  refine ⟨?_, ?_, ?_, ?_⟩
  · intro E hE hk
    obtain ⟨stk, conn, l2, -, -, hreach, hc⟩ := pbs_sigjob_reach NSVR UP svr_conns hint sig_envs
      env_c c jobid sig st pre post k hjob hjob2 hsig hlen hpos hvalid horder hmiss_sig hown
    obtain ⟨h1, h2, h3⟩ := sig_route_head_stop sig_envs c k conn l2 stk E hE hk
    refine ⟨(sig_route sig_envs c ((k, conn) :: l2) stk).2, ?_, h2, ?_⟩
    · rw [hreach]
      exact congrArg some (Prod.ext h1 rfl)
    · rw [h3, hc, List.append_assoc]
  · intro E hE hk
    obtain ⟨stk, conn, l2, -, -, hreach, hc⟩ := pbs_modify_resv_reach NSVR UP svr_conns hint
      verify_rc resv_envs env_r c st conn0 pre post k hver h0 hsd0 hlen hpos hvalid horder
      hmiss_resv
    rw [resv_route_head_stop resv_envs k conn l2 none stk (Or.inr ⟨E, hk.2, hE⟩)] at hreach
    refine ⟨(PBSD_modify_resv (resv_envs k) (some k) conn.sd stk).2, ?_, ?_, ?_⟩
    · rw [hreach]
      exact congrArg some (Prod.ext hk.1 rfl)
    · simp [PBSD_modify_resv, outcome.apply, hk.2]
    · rw [modify_contacts_log, hc, List.append_assoc]
  · intro k2 post2 ck hpost hck hsdk hk
    have horder2 : up_order NSVR UP svr_conns (failover_start hint).toNat
        = (pre ++ [k]) ++ k2 :: post2 := by
      rw [horder, hpost]
      simp
    obtain ⟨stk, conn, l2, -, -, hreach, hc⟩ := pbs_sigjob_reach NSVR UP svr_conns hint sig_envs
      env_c c jobid sig st (pre ++ [k]) post2 k2 hjob hjob2 hsig hlen hpos hvalid horder2
      (fun j hj => by
        rcases List.mem_append.1 hj with h | h
        · exact hmiss_sig j h
        · rw [List.mem_singleton] at h
          subst h
          exact hk)
      (fun j hj cj hcj => by
        rcases List.mem_append.1 hj with h | h
        · exact hown j h cj hcj
        · rw [List.mem_singleton] at h
          subst h
          rw [hck] at hcj
          cases hcj
          exact hsdk)
    obtain ⟨tail, ht⟩ := sig_route_head sig_envs c k2 conn l2 stk
    refine ⟨(sig_route sig_envs c ((k2, conn) :: l2) stk).1,
      (sig_route sig_envs c ((k2, conn) :: l2) stk).2, tail, hreach, ?_⟩
    rw [ht, hc]
    simp
  · intro k2 post2 hpost hk
    have horder2 : up_order NSVR UP svr_conns (failover_start hint).toNat
        = (pre ++ [k]) ++ k2 :: post2 := by
      rw [horder, hpost]
      simp
    obtain ⟨stk, conn, l2, -, -, hreach, hc⟩ := pbs_modify_resv_reach NSVR UP svr_conns hint
      verify_rc resv_envs env_r c st conn0 (pre ++ [k]) post2 k2 hver h0 hsd0 hlen hpos hvalid
      horder2
      (fun j hj => by
        rcases List.mem_append.1 hj with h | h
        · exact hmiss_resv j h
        · rw [List.mem_singleton] at h
          subst h
          exact hk)
    obtain ⟨tail, ht⟩ := resv_route_head resv_envs none k2 conn l2 stk
    refine ⟨(resv_route resv_envs none ((k2, conn) :: l2) stk).1,
      (resv_route resv_envs none ((k2, conn) :: l2) stk).2, tail, hreach, ?_⟩
    rw [ht, hc]
    simp

/-- Witness for C18: three coordinators, the third down, hint 1, and the handle
99 is none of their sockets.  When every coordinator replies `PBSE_PROTOCOL`,
coordinator 1 alone is contacted and the caller receives `PBSE_PROTOCOL`; when
coordinator 1 misses, coordinator 0 is contacted next. -/
theorem error_classification_witness :
    up_order 3 UP0 conns3 (failover_start 1).toNat = [] ++ 1 :: [0] ∧
      (__pbs_sigjob 3 UP0 (some conns3) 1 sig_broken (sig_reply pbs_error.PBSE_NONE) 99
          (some "1.svr".toList) (some "SIGTERM".toList) client0).map
          (fun r => (r.1, contacts r.2.trace)) = some (pbs_error.PBSE_PROTOCOL, [1]) ∧
      (pbs_modify_resv 3 UP0 (some conns3) 1 verify_ok resv_broken (resv_ok "ok".toList) 99
          client0).map (fun r => (r.1, r.2.pbs_errno, contacts r.2.trace))
        = some (none, pbs_error.PBSE_PROTOCOL, [1]) ∧
      (∃ st1, __pbs_sigjob 3 UP0 (some conns3) 1 sig_broken (sig_reply pbs_error.PBSE_NONE) 99
          (some "1.svr".toList) (some "SIGTERM".toList) client0
          = some (pbs_error.PBSE_PROTOCOL, st1) ∧
        st1.pbs_errno = pbs_error.PBSE_PROTOCOL ∧
        contacts st1.trace = contacts client0.trace ++ ([] ++ [1])) ∧
      (∃ r st1 tail, __pbs_sigjob 3 UP0 (some conns3) 1 sig_only0
          (sig_reply pbs_error.PBSE_NONE) 99 (some "1.svr".toList) (some "SIGTERM".toList)
          client0 = some (r, st1) ∧
        contacts st1.trace = contacts client0.trace ++ ([] ++ 1 :: 0 :: tail)) :=
  ⟨by decide, by decide, by decide,
    (error_classification 3 UP0 conns3 1 sig_broken (sig_reply pbs_error.PBSE_NONE) verify_ok
      resv_broken (resv_ok "ok".toList) 99 (some "1.svr".toList) (some "SIGTERM".toList)
      client0 { sd := 10, state := 1 } [] [0] 1
      (by decide) (by decide) (by decide) rfl rfl (by decide) rfl (by decide)
      (Or.inr (by decide)) (by decide)
      (fun j hj => absurd hj (List.not_mem_nil j))
      (fun j hj => absurd hj (List.not_mem_nil j))
      (fun j hj => absurd hj (List.not_mem_nil j))).1 pbs_error.PBSE_PROTOCOL (by decide)
      (sig_reply_replies pbs_error.PBSE_PROTOCOL),
    (error_classification 3 UP0 conns3 1 sig_only0 (sig_reply pbs_error.PBSE_NONE) verify_ok
      resv_only0 (resv_ok "ok".toList) 99 (some "1.svr".toList) (some "SIGTERM".toList)
      client0 { sd := 10, state := 1 } [] [0] 1
      (by decide) (by decide) (by decide) rfl rfl (by decide) rfl (by decide)
      (Or.inr (by decide)) (by decide)
      (fun j hj => absurd hj (List.not_mem_nil j))
      (fun j hj => absurd hj (List.not_mem_nil j))
      (fun j hj => absurd hj (List.not_mem_nil j))).2.2.1 0 [] { sd := 11, state := 1 } rfl rfl
      (by decide) (sig_reply_replies pbs_error.PBSE_UNKJOBID)⟩

/-- C19 at the failing input: two coordinators, both down, no hint, and the
handle 99 is none of their sockets.  `__pbs_sigjob` sends no request and
returns the prior `pbs_errno`: 0, a success, when it was 0, and
`PBSE_PROTOCOL` when it was `PBSE_PROTOCOL`.  `pbs_modify_resv` sends no
request and returns NULL with `pbs_errno` left at its prior value 0.  Neither
reports `PBSE_NOSERVER`.  `__pbs_selectjob` on the same coordinators sends no
request, returns NULL and leaves `pbs_errno` at `PBSE_NOSERVER`. -/
theorem all_down_reports_prior_errno :
    __pbs_sigjob 2 UP0 (some conns_down) (-1) sig_only0 (sig_reply pbs_error.PBSE_NONE) 99
        (some "1.svr".toList) (some "SIGTERM".toList) client0
      = some (pbs_error.PBSE_NONE, client0) ∧
    __pbs_sigjob 2 UP0 (some conns_down) (-1) sig_only0 (sig_reply pbs_error.PBSE_NONE) 99
        (some "1.svr".toList) (some "SIGTERM".toList)
        { pbs_errno := pbs_error.PBSE_PROTOCOL, trace := [] }
      = some (pbs_error.PBSE_PROTOCOL, { pbs_errno := pbs_error.PBSE_PROTOCOL, trace := [] }) ∧
    pbs_modify_resv 2 UP0 (some conns_down) (-1) verify_ok resv_only0 (resv_ok "ok".toList) 99
        client0
      = some (none, client0) ∧
    (__pbs_selectjob R0 UP0 (some servers_down) 2 select_fine 99 client0).map
        (fun r => (r.1, r.2.pbs_errno, requests r.2.trace))
      = some (none, pbs_error.PBSE_NOSERVER, []) := by
  decide

/-- C20 fails as stated for `pbs_modify_resv`, which compares only
`svr_conns[0]->sd` with `c`, before its loop.  Two coordinators, both up, on
sockets 10 and 11; the handle is 11, the socket of coordinator 1, and the hint
is 1.  Coordinator 1, the caller's own connection, is contacted first and
misses; the loop goes on and contacts coordinator 0, whose reply is returned. -/
theorem modify_resv_own_connection_continues :
    (pbs_modify_resv 2 UP0 (some conns2) 1 verify_ok resv_only0 (resv_only0 0) 11
        client0).map (fun r => (r.1, contacts r.2.trace, requests r.2.trace))
      = some (some "ok".toList, [1, 0], [11, 10]) := by
  decide

/-- C20, amended: the array has `NSVR` coordinators, the hint is absent or
valid and the job id and signal are given.  In `__pbs_sigjob`, when the
coordinators `pre` before `k` in the circular order of the `UP` coordinators
fail with `PBSE_UNKJOBID` and do not have the socket `c`, and `k` has the
socket `c`, the request function is called for `k` once, on `c`, and the
function returns the result of that call whatever it is; the coordinators
contacted are `pre` and then `k`, and `k` is not among `pre`.  In
`pbs_modify_resv` the comparison is made once, on `svr_conns[0]`: when the
attributes verify and `svr_conns[0]` has the socket `c`, `PBSD_modify_resv` is
called once, on `c`, and its result is returned whatever it is, with no other
coordinator contacted. -/
theorem own_connection_short_circuit (NSVR : Nat) (UP : Int)
    (svr_conns : List (Option svr_conn_t)) (hint : Int) (sig_envs : Nat → sig_env)
    (env_c : sig_env) (verify_rc : outcome Bool)
    (resv_envs : Nat → outcome (Option (List Char))) (env_r : outcome (Option (List Char)))
    (c : Int) (jobid sig : Option (List Char)) (st : Client) (pre post : List Nat) (k : Nat)
    (hjob : jobid ≠ none) (hjob2 : jobid ≠ some []) (hsig : sig ≠ none)
    (hver : verify_rc.ret = true) (hlen : svr_conns.length = NSVR) (hpos : 0 < NSVR)
    (hvalid : hint = -1 ∨ (0 ≤ hint ∧ hint < NSVR))
    (horder : up_order NSVR UP svr_conns (failover_start hint).toNat = pre ++ k :: post)
    (hmiss : ∀ j ∈ pre, sig_replies (sig_envs j) pbs_error.PBSE_UNKJOBID)
    (hown : ∀ j ∈ pre, ∀ cj, svr_conns[j]? = some (some cj) → cj.sd ≠ c) :
    (∀ ck, svr_conns[k]? = some (some ck) → ck.sd = c →
      k ∉ pre ∧
      ∃ stk : Client, contacts stk.trace = contacts st.trace ++ pre ∧
        __pbs_sigjob NSVR UP (some svr_conns) hint sig_envs env_c c jobid sig st
          = some (__pbs_sigjob_inner (sig_envs k) c (stk.log (event.request (some k) c))) ∧
        contacts (__pbs_sigjob_inner (sig_envs k) c
            (stk.log (event.request (some k) c))).2.trace
          = contacts st.trace ++ (pre ++ [k])) ∧
    (∀ conn0, svr_conns[0]? = some (some conn0) → conn0.sd = c →
      pbs_modify_resv NSVR UP (some svr_conns) hint verify_rc resv_envs env_r c st
          = some (env_r.ret, env_r.apply ((verify_rc.apply st).log (event.request (some 0) c))) ∧
        contacts (env_r.apply ((verify_rc.apply st).log (event.request (some 0) c))).trace
          = contacts st.trace ++ [0] ∧
        requests (env_r.apply ((verify_rc.apply st).log (event.request (some 0) c))).trace
          = requests st.trace ++ [c]) := by
  constructor
  · intro ck hck hsdk
    constructor
    · have hnd := up_order_nodup NSVR UP svr_conns _ (failover_start_ok NSVR hint hvalid hpos).2
      rw [horder] at hnd
      intro hk
      exact (List.nodup_append.1 hnd).2.2 hk (List.mem_cons_self _ _)
    · obtain ⟨stk, conn, l2, hconn, -, hreach, hc⟩ := pbs_sigjob_reach NSVR UP svr_conns hint
        sig_envs env_c c jobid sig st pre post k hjob hjob2 hsig hlen hpos hvalid horder hmiss
        hown
      rw [hck] at hconn
      cases hconn
      rw [sig_route_head_own sig_envs c k ck l2 stk hsdk] at hreach
      exact ⟨stk, hc, hreach, by rw [inner_contacts_log, hc, List.append_assoc]⟩
  · intro conn0 h0 hsd0
    refine ⟨?_, ?_, ?_⟩
    · simp only [pbs_modify_resv, hver, Bool.not_true, Bool.false_eq_true, ↓reduceIte, h0, hsd0,
        PBSD_modify_resv]
    · exact modify_contacts_log env_r 0 c (verify_rc.apply st)
    · simp [outcome.apply, Client.log, requests]

/-- Witness for C20: three coordinators, the third down, hint 1, and the handle
is 10, the socket of coordinator 0.  Every coordinator replies `PBSE_UNKJOBID`:
`__pbs_sigjob` contacts coordinator 1 and then coordinator 0, and returns the
miss of coordinator 0.  `pbs_modify_resv` sends its one request on socket 10. -/
theorem own_connection_short_circuit_witness :
    up_order 3 UP0 conns3 (failover_start 1).toNat = [1] ++ 0 :: [] ∧
      (__pbs_sigjob 3 UP0 (some conns3) 1 sig_unknown (sig_reply pbs_error.PBSE_NONE) 10
          (some "1.svr".toList) (some "SIGTERM".toList) client0).map
          (fun r => (r.1, contacts r.2.trace, requests r.2.trace))
        = some (pbs_error.PBSE_UNKJOBID, [1, 0], [11, 10]) ∧
      (pbs_modify_resv 3 UP0 (some conns3) 1 verify_ok resv_only1
          (resv_error pbs_error.PBSE_UNKRESVID) 10 client0).map
          (fun r => (r.1, contacts r.2.trace, requests r.2.trace))
        = some (none, [0], [10]) ∧
      (0 ∉ [1] ∧
        ∃ stk : Client, contacts stk.trace = contacts client0.trace ++ [1] ∧
          __pbs_sigjob 3 UP0 (some conns3) 1 sig_unknown (sig_reply pbs_error.PBSE_NONE) 10
              (some "1.svr".toList) (some "SIGTERM".toList) client0
            = some (__pbs_sigjob_inner (sig_unknown 0) 10
                (stk.log (event.request (some 0) 10))) ∧
          contacts (__pbs_sigjob_inner (sig_unknown 0) 10
              (stk.log (event.request (some 0) 10))).2.trace
            = contacts client0.trace ++ ([1] ++ [0])) :=
  ⟨by decide, by decide, by decide,
    (own_connection_short_circuit 3 UP0 conns3 1 sig_unknown (sig_reply pbs_error.PBSE_NONE)
      verify_ok resv_only1 (resv_error pbs_error.PBSE_UNKRESVID) 10 (some "1.svr".toList)
      (some "SIGTERM".toList) client0 [1] [] 0
      (by decide) (by decide) (by decide) rfl rfl (by decide) (Or.inr (by decide)) (by decide)
      (fun j _ => sig_reply_replies pbs_error.PBSE_UNKJOBID)
      (fun j hj cj hcj => by
        rw [List.mem_singleton] at hj
        subst hj
        cases hcj
        decide)).1 { sd := 10, state := 1 } rfl rfl⟩

/-! ## Theorems on the select request -/

/-- C21: gather semantics of `__pbs_selectjob`.  The array of
`get_conn_servers()` has `num_cfg_svrs` entries, the allocations succeed, the
thread context and the attributes are accepted and every lock call returns 0.
Then the function returns, and with `up` the entries in state `UP` in index
order: `PBSD_select_put` is called for the entries of `up`, once each and in
that order, whatever the calls return; after that a reply is read from the
entries of `up` whose `PBSD_select_put` returned 0, in that order, and from no
other socket.  Every entry of the array in state `UP` is in `up` and no other
is. -/
theorem selectjob_gather (R : ReplyConsts) (UP : Int) (conns : List svr_conn_t)
    (num_cfg_svrs : Nat) (e : select_env) (c : Int) (st : Client)
    (hlen : conns.length = num_cfg_svrs) (hcalloc : e.calloc_ok = true)
    (hnode : ∀ i, (e.get i).node_ok = true) (hinit : e.init.ret = true)
    (hverify : e.verify.ret = true) (hlock0 : e.lock0.ret = true)
    (hlock : ∀ i, (e.lock i).ret = true) :
    ∃ (r : Option (List (Option (List Char)))) (st1 : Client),
      __pbs_selectjob R UP (some conns) num_cfg_svrs e c st = some (r, st1) ∧
      contacts st1.trace = contacts st.trace ++
        (up_servers UP conns (List.range num_cfg_svrs)).map Prod.fst ∧
      puts st1.trace = puts st.trace ++
        (up_servers UP conns (List.range num_cfg_svrs)).map (fun x => x.2.sd) ∧
      gets st1.trace = gets st.trace ++
        ((up_servers UP conns (List.range num_cfg_svrs)).filter
          (fun x => put_ok (e.put x.1))).map (fun x => x.2.sd) ∧
      ((up_servers UP conns (List.range num_cfg_svrs)).map Prod.fst).Sublist
        (List.range num_cfg_svrs) ∧
      (∀ x ∈ up_servers UP conns (List.range num_cfg_svrs),
        conns[x.1]? = some x.2 ∧ x.2.state = UP) ∧
      (∀ (i : Nat) (conn : svr_conn_t), conns[i]? = some conn → conn.state = UP →
        (i, conn) ∈ up_servers UP conns (List.range num_cfg_svrs)) := by
  have hidx : ∀ i ∈ List.range num_cfg_svrs, i < conns.length := by
    intro i hi
    rw [hlen]
    exact List.mem_range.1 hi
  obtain ⟨rc1, st4, hs1, hs2, hs3, hs4⟩ := select_send_ok UP conns e c hcalloc hlock
    (List.range num_cfg_svrs) pbs_error.PBSE_NONE []
    (e.lock0.apply (((e.verify.apply (e.init.apply st))).log (event.lock c e.lock0.ret))) hidx
  obtain ⟨rl, st5, hr1, hr2, hr3, hr4⟩ := select_recv_ok R UP conns e
    ([] ++ ((up_servers UP conns (List.range num_cfg_svrs)).filter
      (fun x => !put_ok (e.put x.1))).map Prod.fst) hcalloc hnode
    (List.range num_cfg_svrs) [] st4 hidx
  rw [failed_filter] at hr2
  have hrun : ∃ st7 : Client, st7.trace = st5.trace ++ [event.unlock c e.unlock.ret] ∧
      __pbs_selectjob R UP (some conns) num_cfg_svrs e c st
        = some (reply_to_jobarray e.malloc_ok rl st7) := by
    have hs1b := hs1
    rw [hlock0] at hs1b
    simp only [__pbs_selectjob, hinit, hverify, hlock0, Bool.not_true, Bool.false_eq_true,
      ↓reduceIte, hs1b, hr1]
    split
    · exact ⟨_, rfl, rfl⟩
    · split
      · exact ⟨_, rfl, rfl⟩
      · exact ⟨_, rfl, rfl⟩
  obtain ⟨st7, htr, hrun⟩ := hrun
  refine ⟨(reply_to_jobarray e.malloc_ok rl st7).1, (reply_to_jobarray e.malloc_ok rl st7).2,
    hrun, ?_, ?_, ?_, up_servers_fst UP conns _,
    fun x hx => (up_servers_mem UP conns _ x hx).2, ?_⟩
  · rw [reply_to_jobarray_trace, htr, contacts_append, hr4, hs4]
    simp [contacts, Client.log, outcome.apply, List.filterMap_append]
  · rw [reply_to_jobarray_trace, htr, puts_append, hr3, hs2]
    simp [puts, Client.log, outcome.apply, List.filterMap_append]
  · rw [reply_to_jobarray_trace, htr, gets_append, hr2, hs3]
    simp [gets, Client.log, outcome.apply, List.filterMap_append]
  · intro i conn hc hup
    have hi : i < conns.length := by
      by_contra hge
      rw [List.getElem?_eq_none (Nat.le_of_not_lt hge)] at hc
      cases hc
    exact up_servers_complete UP conns _ i conn (List.mem_range.2 (hlen ▸ hi)) hc hup

/-- Witness for C21: three instances on sockets 10, 11 and 12, instance 1 down,
and the request to instance 0 cannot be flushed.  The request is written to
sockets 10 and 12 and a reply is read from socket 12 only. -/
theorem selectjob_gather_witness :
    up_servers UP0 servers3 (List.range 3)
        = [(0, { sd := 10, state := 1 }), (2, { sd := 12, state := 1 })] ∧
      (__pbs_selectjob R0 UP0 (some servers3) 3 select_put0_fails 99 client0).map
          (fun r => (contacts r.2.trace, puts r.2.trace, gets r.2.trace))
        = some ([0, 2], [10, 12], [12]) ∧
      ∃ (r : Option (List (Option (List Char)))) (st1 : Client),
        __pbs_selectjob R0 UP0 (some servers3) 3 select_put0_fails 99 client0 = some (r, st1) ∧
        puts st1.trace = puts client0.trace ++
          (up_servers UP0 servers3 (List.range 3)).map (fun x => x.2.sd) ∧
        gets st1.trace = gets client0.trace ++
          ((up_servers UP0 servers3 (List.range 3)).filter
            (fun x => put_ok (select_put0_fails.put x.1))).map (fun x => x.2.sd) :=
  ⟨by decide, by decide,
    match selectjob_gather R0 UP0 servers3 3 select_put0_fails 99 client0 rfl rfl
      (fun _ => rfl) rfl rfl rfl (fun _ => rfl) with
    | ⟨r, st1, h, _, hp, hg, _⟩ => ⟨r, st1, h, hp, hg⟩⟩

/-- C27: for every non-empty reply list in which every reply has at least one
select entry, `reply_to_jobarray` (its `malloc` succeeding) returns the array
made of the job ids of the first reply in their order, then those of the
second, and so on, followed by one NULL terminator, and changes nothing; the
number of strings before the terminator is the total number of entries of the
replies.  For the NULL list it returns NULL. -/
theorem reply_to_jobarray_order (rlist : List batch_reply) (st : Client)
    (hne : rlist ≠ []) (hall : ∀ r ∈ rlist, r.brp_select ≠ []) :
    reply_to_jobarray true rlist st
        = (some (((rlist.map (fun r => r.brp_select)).flatten).map some ++ [none]), st) ∧
    ((rlist.map (fun r => r.brp_select)).flatten).length
        = (rlist.map (fun r => r.brp_select.length)).sum ∧
    (∀ (malloc_ok : Bool) (st0 : Client), reply_to_jobarray malloc_ok [] st0 = (none, st0)) := by
  refine ⟨?_, ?_, fun _ _ => rfl⟩
  · simp only [reply_to_jobarray, hne, ↓reduceIte, Bool.not_true, Bool.false_eq_true,
      select_jobids_all rlist hall]
  · simp [List.length_flatten, List.map_map, Function.comp_def]

/-- Witness for C27: two replies holding `1.svr`, `2.svr` and `7.svr`. -/
theorem reply_to_jobarray_order_witness :
    (∀ r ∈ replies2, r.brp_select ≠ []) ∧
      reply_to_jobarray true replies2 client0
        = (some [some "1.svr".toList, some "2.svr".toList, some "7.svr".toList, none],
            client0) ∧
      reply_to_jobarray true replies2 client0
        = (some (((replies2.map (fun r => r.brp_select)).flatten).map some ++ [none]),
            client0) :=
  ⟨by decide, by decide,
    (reply_to_jobarray_order replies2 client0 (by decide) (by decide)).1⟩

/-- C25 at the failing input: `__pbs_selectjob` on handle 99 with one server
instance, which is up, every call succeeding.  The lock of the handle is taken
before the loop and once more inside it, and released once: two successful
lock calls, one unlock call.  When the lock call inside the loop fails the
function leaves through `done` without an unlock call: one successful lock
call, no unlock call.  `__pbs_sigjob_inner` is balanced on every path: it adds
as many successful lock calls as unlock calls, and its request and reply lie
between them. -/
theorem selectjob_lock_imbalance :
    (__pbs_selectjob R0 UP0 (some servers_one_up) 1 select_fine 99 client0).map
        (fun r => (r.2.trace, locks_taken r.2.trace, unlock_calls r.2.trace))
      = some ([event.lock 99 true, event.lock 99 true, event.request (some 0) 10,
          event.put 10, event.get 10, event.unlock 99 true], 2, 1) ∧
    (__pbs_selectjob R0 UP0 (some servers_one_up) 1 select_lock_fails 99 client0).map
        (fun r => (r.2.trace, locks_taken r.2.trace, unlock_calls r.2.trace))
      = some ([event.lock 99 true, event.lock 99 false], 1, 0) ∧
    (∀ (e : sig_env) (c : Int) (st : Client),
      locks_taken (__pbs_sigjob_inner e c st).2.trace + unlock_calls st.trace
        = unlock_calls (__pbs_sigjob_inner e c st).2.trace + locks_taken st.trace) ∧
    (∀ (e : sig_env) (c : Int) (st : Client),
      (__pbs_sigjob_inner e c st).2.trace = st.trace ∨
      (__pbs_sigjob_inner e c st).2.trace = st.trace ++ [event.lock c false] ∨
      (__pbs_sigjob_inner e c st).2.trace
        = st.trace ++ [event.lock c true, event.put c, event.unlock c e.unlock.ret] ∨
      (__pbs_sigjob_inner e c st).2.trace
        = st.trace ++ [event.lock c true, event.put c, event.get c,
            event.unlock c e.unlock.ret]) :=
  ⟨by decide, by decide, inner_lock_balance, inner_trace_shapes⟩

/-! ## Theorems on the wire encoding -/

/-- C22: for every list of `attrl` entries whose count fits an `unsigned int`
and whose string lengths fit the `int` arithmetic of `name_len`, when every
write succeeds `encode_DIS_attrl` returns 0 and appends to the stream exactly:
the count of the entries (also when it is 0, and then nothing else), and for
each entry in list order the length `strlen(name) + strlen(value) + 2`, plus
`strlen(resource) + 1` when there is a resource name; the name; the flag 1 and
the resource name, or the flag 0 alone; the value, empty when NULL; and the
operator tag `SET`. -/
theorem encode_DIS_attrl_layout (SET : Nat) (l : List attrl) (w : Wire)
    (hok : ∀ rc ∈ w.rcs, rc = 0) (hn : l.length < 4294967296) (hfit : ∀ a ∈ l, a.fits) :
    (encode_DIS_attrl SET l w).1 = 0 ∧
    (encode_DIS_attrl SET l w).2.out = w.out ++ attrl_frames SET l ∧
    attrl_frames SET l = dis_item.ui l.length :: (l.map (attrl_frame SET)).flatten ∧
    attrl_frames SET [] = [dis_item.ui 0] := by
  obtain ⟨w1, h1, ho1, -⟩ := encode_DIS_attrl_ok SET l w hok hn hfit
  rw [h1]
  exact ⟨rfl, ho1, rfl, rfl⟩

/-- Witness for C22: two entries, the first with the resource name `ncpus`, the
second without one and with a NULL value, written to an empty stream. -/
theorem encode_DIS_attrl_layout_witness :
    (∀ a ∈ attrs2, a.fits) ∧
      encode_DIS_attrl SET0 attrs2 wire0
        = (0, { out := [dis_item.ui 2,
                  dis_item.ui 22, dis_item.st "Resource_List".toList, dis_item.ui 1,
                  dis_item.st "ncpus".toList, dis_item.st "4".toList, dis_item.ui 0,
                  dis_item.ui 7, dis_item.st "queue".toList, dis_item.ui 0,
                  dis_item.st [], dis_item.ui 0],
                rcs := [] }) ∧
      (encode_DIS_attrl SET0 attrs2 wire0).2.out = wire0.out ++ attrl_frames SET0 attrs2 :=
  ⟨by decide, by decide,
    (encode_DIS_attrl_layout SET0 attrs2 wire0 (fun _ h => nomatch h) (by decide)
      (by decide)).2.1⟩

/-- C23: round trip of the attribute list, against the decoder of the request
frame layout.  For every list whose count and string lengths fit and every
stream that is empty and on which every write succeeds, decoding what
`encode_DIS_attrl` wrote gives a list with the same number of entries, in the
same order, each with the name, the resource name (present or absent) and the
value of the entry written, a NULL value being read back as the empty string,
and with the operator `SET`.  The empty list is read back as the empty list. -/
theorem attrl_round_trip (SET : Nat) (l : List attrl) (rcs : List Int)
    (hok : ∀ rc ∈ rcs, rc = 0) (hn : l.length < 4294967296) (hfit : ∀ a ∈ l, a.fits) :
    decode_attrl (encode_DIS_attrl SET l { out := [], rcs := rcs }).2.out
        = some (l.map (attrl.decoded SET)) ∧
    (l.map (attrl.decoded SET)).length = l.length ∧
    (∀ (i : Nat) (a : attrl), l[i]? = some a →
      ∃ d : svrattrl, (l.map (attrl.decoded SET))[i]? = some d ∧ d.name = a.name ∧
        d.resource = a.resource ∧ d.value = a.value.getD [] ∧ d.op = SET) ∧
    decode_attrl (encode_DIS_attrl SET [] { out := [], rcs := [] }).2.out = some [] := by
  obtain ⟨w1, h1, ho1, -⟩ := encode_DIS_attrl_ok SET l { out := [], rcs := rcs } hok hn hfit
  refine ⟨?_, List.length_map _ _, ?_, rfl⟩
  · rw [h1, ho1]
    exact decode_attrl_frames SET l
  · intro i a hi
    exact ⟨a.decoded SET, by simp [List.getElem?_map, hi], rfl, rfl, rfl, rfl⟩

/-- Witness for C23: the two entries of `attrs2`, one with a resource name and
one without, are read back with their names, resource name and values. -/
theorem attrl_round_trip_witness :
    (∀ a ∈ attrs2, a.fits) ∧
      decode_attrl (encode_DIS_attrl SET0 attrs2 wire0).2.out
        = some [{ name := "Resource_List".toList, resource := some "ncpus".toList,
                  value := "4".toList, op := 0 },
                { name := "queue".toList, resource := none, value := [], op := 0 }] ∧
      decode_attrl (encode_DIS_attrl SET0 attrs2 { out := [], rcs := [] }).2.out
        = some (attrs2.map (attrl.decoded SET0)) :=
  ⟨by decide, by decide,
    (attrl_round_trip SET0 attrs2 [] (fun _ h => nomatch h) (by decide) (by decide)).1⟩

/-- C30 at the failing input: `encode_DIS_RescUpdate` when the write of the job
id fails with the code 10.  The function returns 1, the value of the
comparison `diswst(sock, jobid) != 0`, not the code 10; it does so for a failure
of the second and of the third write as well.  The writes are made in the order
job id, op, select specification, none is made after the first that fails,
and 0 is returned when the three succeed. -/
theorem encode_DIS_RescUpdate_returns_one :
    encode_DIS_RescUpdate "1.svr".toList "1:ncpus=2".toList 1 { out := [], rcs := [10] }
      = (1, { out := [], rcs := [] }) ∧
    encode_DIS_RescUpdate "1.svr".toList "1:ncpus=2".toList 1 { out := [], rcs := [0, 10, 7] }
      = (1, { out := [dis_item.st "1.svr".toList], rcs := [7] }) ∧
    encode_DIS_RescUpdate "1.svr".toList "1:ncpus=2".toList 1 { out := [], rcs := [0, 0, 10] }
      = (1, { out := [dis_item.st "1.svr".toList, dis_item.si 1], rcs := [] }) ∧
    encode_DIS_RescUpdate "1.svr".toList "1:ncpus=2".toList 1 wire0
      = (0, { out := [dis_item.st "1.svr".toList, dis_item.si 1,
                dis_item.cs "1:ncpus=2".toList 9], rcs := [] }) := by
  decide

/-! ## Theorems on the disconnect functions -/

/-- C28 at the failing input: `svr_force_disconnect(PBS_LOCAL_CONNECTION)`.
Its guard is `sock > PBS_LOCAL_CONNECTION`, so the sentinel passes it: the
function locks the handle, calls `close_conn` on it, unlocks and destroys the
connection context.  For a negative handle both functions make no call, and
`svr_disconnect_with_wait_option`, whose guard is
`sock >= PBS_LOCAL_CONNECTION`, makes no call for the sentinel either. -/
theorem svr_force_disconnect_sentinel :
    svr_force_disconnect N0 disc_fine N0.PBS_LOCAL_CONNECTION
      = [disc_event.lock 2147483647 true, disc_event.close_conn 2147483647,
          disc_event.errtxt 2147483647, disc_event.unlock 2147483647,
          disc_event.destroy 2147483647] ∧
    (∀ (N : NetConsts) (e : disc_env) (wait : Int),
      svr_disconnect_with_wait_option N e N.PBS_LOCAL_CONNECTION wait = []) ∧
    (∀ (N : NetConsts) (e : disc_env) (n : Nat) (wait : Int),
      svr_disconnect_with_wait_option N e (Int.negSucc n) wait = []) ∧
    (∀ (N : NetConsts) (e : disc_env) (n : Nat),
      svr_force_disconnect N e (Int.negSucc n) = []) := by
  refine ⟨by decide, ?_, ?_, ?_⟩
  · intro N e wait
    simp [svr_disconnect_with_wait_option]
  · intro N e n wait
    simp [svr_disconnect_with_wait_option, Int.negSucc_lt_zero]
  · intro N e n
    simp [svr_force_disconnect, Int.negSucc_lt_zero]

/-! ## Theorems on records without role data and on the peer servers -/

/-- C29 at the failing input: the record that `create_mom_entry("nodeA", 15002)`
registers in the empty registry has `mi_data == NULL`.  For it
`delete_svrmom_entry` skips the guarded block and then writes through the NULL
pointer `psvrmom` (`memset`, then `psvrmom->msr_stream = -1`): the call is
undefined.  `delete_mom_entry` removes the same record, and
`delete_svrmom_entry` is defined for a record with role data. -/
theorem delete_svrmom_entry_without_role_data :
    create_mom_entry K0 "nodeA".toList 15002 true true none Server.init
      = some (some 0, one_mom) ∧
    (deref one_mom.heap 0).map (fun r => r.mi_data) = some none ∧
    delete_svrmom_entry (some 0) one_mom = none ∧
    (delete_mom_entry (some 0) one_mom).map (fun s => (s.heap, s.svr_num_moms))
      = some ([none], 0) ∧
    (delete_svrmom_entry (some 0) one_svrmom).map (fun s => (s.heap, s.svr_num_moms))
      = some ([none], 0) := by
  decide

/-- C26 at the failing input: `create_svr_entry("peerB", 15001)` when the
`malloc` of the record succeeds and the `calloc` of the list node fails.  The
function leaves through `err`, which returns `psvr`: the result is the new
record, not NULL, and `peersvrl` is as before, whether it was empty or held a
member.  When the `malloc` of the record fails the result is NULL and nothing
changes; when both allocations succeed the record is returned and is the last
element of `peersvrl`. -/
theorem create_svr_entry_node_alloc_fails :
    (create_svr_entry K0 "peerB".toList 15001 true false cluster0).1 = some 0 ∧
    (create_svr_entry K0 "peerB".toList 15001 true false cluster0).2.peersvrl = [] ∧
    (create_svr_entry K0 "peerB".toList 15001 true false cluster1).1 = some 1 ∧
    (create_svr_entry K0 "peerB".toList 15001 true false cluster1).2.peersvrl = [0] ∧
    (∀ (K : Consts) (hostname : List Char) (port : Nat) (calloc_ok : Bool) (s : Cluster),
      create_svr_entry K hostname port false calloc_ok s = (none, s)) ∧
    (∀ (K : Consts) (hostname : List Char) (port : Nat) (s : Cluster),
      (create_svr_entry K hostname port true true s).1 = some s.srv.heap.length ∧
      (create_svr_entry K hostname port true true s).2.peersvrl
        = s.peersvrl ++ [s.srv.heap.length]) := by
  refine ⟨by decide, by decide, by decide, by decide, ?_, ?_⟩
  · intro K hostname port calloc_ok s
    simp [create_svr_entry]
  · intro K hostname port s
    by_cases h : s.peersvrl = []
    · simp [create_svr_entry, h]
    · simp [create_svr_entry, h]

/-- C24 at the failing input: `connect_2_peersvr` on a server without peers,
every step succeeding.  The call returns the record it registered, with its
tunnel open on stream 5, and `peersvrl` is still empty: `mcast_resc_usage`
afterwards reaches no member and sends nothing.  For every behaviour of the
functions outside the sources, `connect_2_peersvr` leaves `peersvrl` as it
was.  Had `create_svr_entry` been called for the peer, the broadcast would
reach its record. -/
theorem connect_2_peersvr_not_a_member :
    (connect_2_peersvr join_fine 167772163 15001 cluster0).map
        (fun r => (r.1, r.2.peersvrl,
          (r.1.bind (deref r.2.srv.heap)).bind
            (fun x => x.mi_data.map (fun d => d.msr_stream))))
      = some (some 0, [], some 5) ∧
    ((connect_2_peersvr join_fine 167772163 15001 cluster0).map
        (fun r => ((mcast_resc_usage join_fine add_all r.2).1,
          (mcast_resc_usage join_fine add_all r.2).2.1)))
      = some ([], none) ∧
    (∀ (env : join_env) (hostaddr port : Nat) (s : Cluster),
      (connect_2_peersvr env hostaddr port s).map (fun r => r.2.peersvrl)
        = (connect_2_peersvr env hostaddr port s).map (fun _ => s.peersvrl)) ∧
    (mcast_resc_usage join_fine add_all
        (create_svr_entry K0 "peerB".toList 15001 true true cluster0).2).1 = [0] := by
  refine ⟨by decide, by decide, ?_, by decide⟩
  intro env hostaddr port s
  simp only [connect_2_peersvr]
  split
  · cases delete_svrmom_entry (create_svr_struct env (port % 65536) s.srv).1
        (env.open_tppstream (create_svr_struct env (port % 65536) s.srv).1
          (create_svr_struct env (port % 65536) s.srv).2).2 <;> rfl
  · cases hh : send_hello env (create_svr_struct env (port % 65536) s.srv).1
        { s with srv := (env.open_tppstream (create_svr_struct env (port % 65536) s.srv).1
          (create_svr_struct env (port % 65536) s.srv).2).2 } with
    | none => rfl
    | some r =>
      obtain ⟨rc, s1⟩ := r
      have hp : s1.peersvrl = s.peersvrl := by
        simp only [send_hello] at hh
        split at hh
        · cases hh
        · split at hh
          · cases hh
          · split at hh
            · cases hh
            · split at hh
              · cases hh
                rfl
              · split at hh
                · cases hh
                  rfl
                · cases hh
                  rfl
      simp only
      split
      · cases delete_svrmom_entry (create_svr_struct env (port % 65536) s.srv).1 s1.srv <;>
          simp [hp]
      · simp [hp]

end OpenPBS
